import Mathlib

/-!
# Verification of the go-otlp-helper OTLP library against its specification

This file gives a shallow embedding, in Lean 4, of the parts of the
`go-otlp-helper` repository that the specification's claims are about, and
proves (or refutes) each claim over that embedding.

Overview of the embedding, by source file:

* `otlp/json.go` — the OTLP JSON codec shim.  Go's generic JSON value
  (`any` holding `map[string]interface{}` / `[]interface{}` / `string` /
  `float64` / `bool` / `nil`) is embedded as the inductive `Json`; Go maps
  are embedded as association lists (each entry is transformed
  independently and keys are never changed, so the iteration order of the
  Go map is immaterial).  `encoding/hex` and `encoding/base64`
  (`StdEncoding`) are implemented concretely.  `protojson`
  marshalling/unmarshalling (with `UseEnumNumbers: true`,
  `EmitUnpopulated: false`) is embedded for a representative subset of the
  OTLP trace schema.  The byte-level `json.Marshal`/`json.Unmarshal` pair
  that the shim uses to move between bytes and the generic tree is the
  identity on trees, so the shim's contracts are stated at the tree level.
* `otlp/partition.go` — the signal algebra (`Total*`, `Split*`,
  `Filter*`, `Partition*`) over the three telemetry container shapes.
  The protobuf leaf types (`Span`, data points, `LogRecord`, `Resource`,
  `InstrumentationScope`) are opaque to this code (it only copies them),
  so they are embedded as type parameters.  `Append*` lives in a file that
  is not part of the provided sources and is modelled from the spec.
* `otlp/mux.go` — the server multiplexer: middleware chaining
  (`chainedMiddleware`, `getHandler`) and `Export` dispatch; Go contexts
  are embedded as an opaque type (instantiated with a probe-write list to
  observe ordering), and the dynamically-typed `proto.Message` pipeline as
  a sum type.
* `otlp/proxy.go` — the HTTP bridge: `grpcCodeToHTTPStatus`,
  `errorProto`/`errorJSON` and the generic `proxyHandler`; HTTP
  requests/responses are explicit records, and response marshalling is
  embedded by constructors (it cannot fail in the embedding).
* `otlp/client.go` — the transport-polymorphic client: upload dispatch,
  lifecycle errors and partial-success surfacing.  The gRPC/HTTP transports
  are parameters of the embedded functions (the claims are about what the
  client does with the transport's result), and the sequential core of
  `Stop` is embedded (lock handling and cancellation fan-out elided).

Definitions come first, then the theorems (with supporting lemmas).
-/

/-! ## Part A: the JSON codec shim (`otlp/json.go`)

Bytes are embedded as `List Nat` with every element below 256.
-/

/-- ASCII lower-casing of one character; models the effect of Go's
`strings.ToLower` on the ASCII field-name keys the codec sees. -/
def charToLower (c : Char) : Char :=
  if 'A' ≤ c ∧ c ≤ 'Z' then Char.ofNat (c.toNat + 32) else c

/-- ASCII upper-casing of one character; models the effect of Go's
`strings.ToUpper` on hexadecimal digit strings. -/
def charToUpper (c : Char) : Char :=
  if 'a' ≤ c ∧ c ≤ 'z' then Char.ofNat (c.toNat - 32) else c

/-- Models `strings.ToUpper` (on the ASCII strings this code applies it to). -/
def stringToUpper (s : String) : String :=
  String.mk (s.data.map charToUpper)

/-- Substring test on character lists; models `strings.Contains`. -/
def containsTok (hay needle : List Char) : Bool :=
  match hay with
  | [] => needle.isEmpty
  | _ :: rest => needle.isPrefixOf hay || containsTok rest needle

/-- Models the lowercase hexadecimal digit table of `encoding/hex`. -/
def hexDigitChar (n : Nat) : Char :=
  if n < 10 then Char.ofNat ('0'.toNat + n) else Char.ofNat ('a'.toNat + (n - 10))

/-- Models `hex.EncodeToString` on one byte: high nibble then low nibble,
in lowercase. -/
def hexEncodeByte (b : Nat) : List Char :=
  [hexDigitChar (b / 16 % 16), hexDigitChar (b % 16)]

/-- Models `hex.EncodeToString`. -/
def hexEncodeToString (bs : List Nat) : String :=
  String.mk (bs.flatMap hexEncodeByte)

/-- Models the per-character table of `hex.DecodeString`: value of one
hexadecimal digit, `none` on a non-digit. -/
def hexDigitToNat? (c : Char) : Option Nat :=
  if '0' ≤ c ∧ c ≤ '9' then some (c.toNat - '0'.toNat)
  else if 'a' ≤ c ∧ c ≤ 'f' then some (c.toNat - 'a'.toNat + 10)
  else if 'A' ≤ c ∧ c ≤ 'F' then some (c.toNat - 'A'.toNat + 10)
  else none

/-- Models `hex.DecodeString` on a character list: pairs of digits become
bytes; an odd-length input or a non-digit character is an error (`none`),
exactly the cases in which the Go call returns a non-nil error. -/
def hexDecodeChars : List Char → Option (List Nat)
  | [] => some []
  | [_] => none
  | c1 :: c2 :: rest => do
    let h ← hexDigitToNat? c1
    let l ← hexDigitToNat? c2
    let tl ← hexDecodeChars rest
    pure ((16 * h + l) :: tl)

/-- Models `hex.DecodeString`. -/
def hexDecodeString (s : String) : Option (List Nat) :=
  hexDecodeChars s.data

/-- Models the `base64.StdEncoding` alphabet. -/
def base64Char (n : Nat) : Char :=
  if n < 26 then Char.ofNat ('A'.toNat + n)
  else if n < 52 then Char.ofNat ('a'.toNat + (n - 26))
  else if n < 62 then Char.ofNat ('0'.toNat + (n - 52))
  else if n = 62 then '+'
  else '/'

/-- Models `base64.StdEncoding.EncodeToString`: input bytes in groups of
three, with `=` padding for a trailing group of one or two bytes. -/
def base64EncodeChars : List Nat → List Char
  | [] => []
  | [b1] => [base64Char (b1 / 4 % 64), base64Char (b1 % 4 * 16), '=', '=']
  | [b1, b2] =>
    [base64Char (b1 / 4 % 64), base64Char (b1 % 4 * 16 + b2 / 16 % 16),
     base64Char (b2 % 16 * 4), '=']
  | b1 :: b2 :: b3 :: rest =>
    base64Char (b1 / 4 % 64) :: base64Char (b1 % 4 * 16 + b2 / 16 % 16) ::
    base64Char (b2 % 16 * 4 + b3 / 64 % 4) :: base64Char (b3 % 64) ::
    base64EncodeChars rest

/-- Models `base64.StdEncoding.EncodeToString`. -/
def base64EncodeString (bs : List Nat) : String :=
  String.mk (base64EncodeChars bs)

/-- Models the reverse lookup in the `base64.StdEncoding` alphabet. -/
def base64CharDecode? (c : Char) : Option Nat :=
  if 'A' ≤ c ∧ c ≤ 'Z' then some (c.toNat - 'A'.toNat)
  else if 'a' ≤ c ∧ c ≤ 'z' then some (c.toNat - 'a'.toNat + 26)
  else if '0' ≤ c ∧ c ≤ '9' then some (c.toNat - '0'.toNat + 52)
  else if c = '+' then some 62
  else if c = '/' then some 63
  else none

/-- Models `base64.StdEncoding.DecodeString` on the (already
newline-stripped) character list: quanta of four characters, padding only
in the final quantum, any other shape or a character outside the alphabet
is an error (`none`).  Like Go's default (non-strict) decoder, trailing
bits held by the character before the padding are ignored. -/
def base64DecodeQuanta : List Char → Option (List Nat)
  | [] => some []
  | c1 :: c2 :: c3 :: c4 :: rest =>
    if rest.isEmpty ∧ c3 = '=' ∧ c4 = '=' then do
      let n1 ← base64CharDecode? c1
      let n2 ← base64CharDecode? c2
      pure [n1 * 4 + n2 / 16]
    else if rest.isEmpty ∧ c4 = '=' then do
      let n1 ← base64CharDecode? c1
      let n2 ← base64CharDecode? c2
      let n3 ← base64CharDecode? c3
      pure [n1 * 4 + n2 / 16, n2 % 16 * 16 + n3 / 4]
    else do
      let n1 ← base64CharDecode? c1
      let n2 ← base64CharDecode? c2
      let n3 ← base64CharDecode? c3
      let n4 ← base64CharDecode? c4
      let tl ← base64DecodeQuanta rest
      pure ((n1 * 4 + n2 / 16) :: (n2 % 16 * 16 + n3 / 4) :: (n3 % 4 * 64 + n4) :: tl)
  | _ => none

/-- Models `base64.StdEncoding.DecodeString` (Go first drops carriage
returns and newlines, then decodes quanta). -/
def base64DecodeString (s : String) : Option (List Nat) :=
  base64DecodeQuanta (s.data.filter (fun c => c ≠ '\r' ∧ c ≠ '\n'))

/-- The generic JSON value tree that `json.Unmarshal` produces into `any`
and the shim walks.  Numbers are embedded as integers: the shim never
touches numeric nodes, so their representation is immaterial to every
claim. -/
inductive Json where
  | null
  | bool (b : Bool)
  | num (n : Int)
  | str (s : String)
  | arr (xs : List Json)
  | obj (kvs : List (String × Json))
  deriving Repr

/-- Embeds `keyIsTraceIDOrSpanID` from `otlp/json.go`: normalize the key by
removing underscores and lower-casing, then look for the tokens `traceid`
or `spanid`; returns `(hexBytes, base64Bytes, isTraceIDOrSpanID)` exactly
as the source does: `(16, 24, true)` for a trace id key, `(8, 12, true)`
for a span id key. -/
def keyIsTraceIDOrSpanID (k : String) : Nat × Nat × Bool :=
  let key := (k.data.filter (fun c => c ≠ '_')).map charToLower
  if containsTok key "traceid".data then (16, 24, true)
  else if containsTok key "spanid".data then (8, 12, true)
  else (0, 0, false)

mutual

/-- Embeds `convertTraceIDAndSpanIDBase64ToHexForAny` from `otlp/json.go`:
maps descend into their entries, slices into their elements, everything
else is returned unchanged. -/
def convertTraceIDAndSpanIDBase64ToHexForAny : Json → Json
  | Json.obj kvs => Json.obj (convertTraceIDAndSpanIDBase64ToHexForMap kvs)
  | Json.arr xs => Json.arr (convertTraceIDAndSpanIDBase64ToHexForArr xs)
  | j => j

/-- Embeds the `[]interface{}` branch of the walk (the `for i, v := range
data` loop over a JSON array). -/
def convertTraceIDAndSpanIDBase64ToHexForArr : List Json → List Json
  | [] => []
  | x :: xs =>
    convertTraceIDAndSpanIDBase64ToHexForAny x ::
      convertTraceIDAndSpanIDBase64ToHexForArr xs

/-- Embeds `convertTraceIDAndSpanIDBase64ToHexForMap` from `otlp/json.go`.
For an id-shaped key with a string value the source base64-decodes the
value, then checks `len(bs) != base64Bytes` and (after hex-encoding and
upper-casing) `len(converted) != hexBytes`, leaving the value untouched
when either check or the decode fails; other values recurse. -/
def convertTraceIDAndSpanIDBase64ToHexForMap :
    List (String × Json) → List (String × Json)
  | [] => []
  | (k, v) :: rest =>
    let entry :=
      match keyIsTraceIDOrSpanID k with
      | (hexBytes, base64Bytes, true) =>
        match v with
        | Json.str s =>
          match base64DecodeString s with
          | none => v
          | some bs =>
            if bs.length ≠ base64Bytes then v
            else
              let converted := stringToUpper (hexEncodeToString bs)
              if converted.length ≠ hexBytes then v
              else Json.str converted
        | _ => convertTraceIDAndSpanIDBase64ToHexForAny v
      | (_, _, false) => convertTraceIDAndSpanIDBase64ToHexForAny v
    (k, entry) :: convertTraceIDAndSpanIDBase64ToHexForMap rest

end

mutual

/-- Embeds `convertTraceIDAndSpanIDHexToBase64ForAny` from `otlp/json.go`. -/
def convertTraceIDAndSpanIDHexToBase64ForAny : Json → Json
  | Json.obj kvs => Json.obj (convertTraceIDAndSpanIDHexToBase64ForMap kvs)
  | Json.arr xs => Json.arr (convertTraceIDAndSpanIDHexToBase64ForArr xs)
  | j => j

/-- Embeds the `[]interface{}` branch of the hex-to-base64 walk. -/
def convertTraceIDAndSpanIDHexToBase64ForArr : List Json → List Json
  | [] => []
  | x :: xs =>
    convertTraceIDAndSpanIDHexToBase64ForAny x ::
      convertTraceIDAndSpanIDHexToBase64ForArr xs

/-- Embeds `convertTraceIDAndSpanIDHexToBase64ForMap` from `otlp/json.go`:
hex-decode the value, check `len(bs) != hexBytes`, base64-encode, check
`len(converted) != base64Bytes`; on any failure leave the value untouched. -/
def convertTraceIDAndSpanIDHexToBase64ForMap :
    List (String × Json) → List (String × Json)
  | [] => []
  | (k, v) :: rest =>
    let entry :=
      match keyIsTraceIDOrSpanID k with
      | (hexBytes, base64Bytes, true) =>
        match v with
        | Json.str s =>
          match hexDecodeString s with
          | none => v
          | some bs =>
            if bs.length ≠ hexBytes then v
            else
              let converted := base64EncodeString bs
              if converted.length ≠ base64Bytes then v
              else Json.str converted
        | _ => convertTraceIDAndSpanIDHexToBase64ForAny v
      | (_, _, false) => convertTraceIDAndSpanIDHexToBase64ForAny v
    (k, entry) :: convertTraceIDAndSpanIDHexToBase64ForMap rest

end

/-! ### The protojson layer, for a representative subset of the OTLP trace schema

`MarshalJSON` first runs canonical protojson marshalling (enum numbers,
omit-empty) and `UnmarshalJSON` ends with canonical protojson
unmarshalling.  Both are external library calls; they are embedded here,
faithfully to the canonical protobuf JSON mapping, for an OTLP trace
export message carrying the identifier fields and representative sibling
fields: `bytes` fields render as standard base64, scalar fields are
omitted when zero-valued, message fields when nil, and field names use
the lowerCamelCase JSON names.
-/

/-- Embeds `commonpb.KeyValue` with a string-valued `AnyValue` (the shape
used by the repository's fixtures); `value = none` models a nil `AnyValue`. -/
structure KeyValue where
  key : String
  value : Option String
  deriving DecidableEq, Repr

/-- Embeds `resourcepb.Resource` (attributes subset). -/
structure PBResource where
  attributes : List KeyValue
  deriving DecidableEq, Repr

/-- Embeds `commonpb.InstrumentationScope` (name/version subset). -/
structure PBInstrumentationScope where
  name : String
  version : String
  deriving DecidableEq, Repr

/-- Embeds `tracepb.Span` (identifier fields plus representative
siblings: `name` and the `kind` enum). -/
structure PBSpan where
  traceId : List Nat
  spanId : List Nat
  parentSpanId : List Nat
  name : String
  kind : Int
  deriving DecidableEq, Repr

/-- Embeds `tracepb.ScopeSpans`. -/
structure PBScopeSpans where
  scope : Option PBInstrumentationScope
  spans : List PBSpan
  schemaUrl : String
  deriving DecidableEq, Repr

/-- Embeds `tracepb.ResourceSpans`. -/
structure PBResourceSpans where
  resource : Option PBResource
  scopeSpans : List PBScopeSpans
  schemaUrl : String
  deriving DecidableEq, Repr

/-- Embeds `tracepb.TracesData` / `coltracepb.ExportTraceServiceRequest`
(both consist of the single repeated field `resourceSpans`). -/
structure TracesData where
  resourceSpans : List PBResourceSpans
  deriving DecidableEq, Repr

/-- Canonical protojson rendering of one `KeyValue`.  The `value` field is
a `oneof` member, so a set-but-empty string is still emitted. -/
def pjsonMarshalKeyValue (kv : KeyValue) : Json :=
  Json.obj
    ((if kv.key = "" then [] else [("key", Json.str kv.key)]) ++
     (match kv.value with
      | none => []
      | some s => [("value", Json.obj [("stringValue", Json.str s)])]))

/-- Canonical protojson rendering of a `Resource`. -/
def pjsonMarshalResource (r : PBResource) : Json :=
  Json.obj
    (if r.attributes.isEmpty then []
     else [("attributes", Json.arr (r.attributes.map pjsonMarshalKeyValue))])

/-- Canonical protojson rendering of an `InstrumentationScope`. -/
def pjsonMarshalScope (s : PBInstrumentationScope) : Json :=
  Json.obj
    ((if s.name = "" then [] else [("name", Json.str s.name)]) ++
     (if s.version = "" then [] else [("version", Json.str s.version)]))

/-- Canonical protojson rendering of a `Span`: `bytes` fields as standard
base64, the `kind` enum as a number (`UseEnumNumbers`), zero values
omitted (`EmitUnpopulated: false`). -/
def pjsonMarshalSpan (sp : PBSpan) : Json :=
  Json.obj
    ((if sp.traceId.isEmpty then []
      else [("traceId", Json.str (base64EncodeString sp.traceId))]) ++
     (if sp.spanId.isEmpty then []
      else [("spanId", Json.str (base64EncodeString sp.spanId))]) ++
     (if sp.parentSpanId.isEmpty then []
      else [("parentSpanId", Json.str (base64EncodeString sp.parentSpanId))]) ++
     (if sp.name = "" then [] else [("name", Json.str sp.name)]) ++
     (if sp.kind = 0 then [] else [("kind", Json.num sp.kind)]))

/-- Canonical protojson rendering of a `ScopeSpans`. -/
def pjsonMarshalScopeSpans (ss : PBScopeSpans) : Json :=
  Json.obj
    ((match ss.scope with
      | none => []
      | some s => [("scope", pjsonMarshalScope s)]) ++
     (if ss.spans.isEmpty then []
      else [("spans", Json.arr (ss.spans.map pjsonMarshalSpan))]) ++
     (if ss.schemaUrl = "" then [] else [("schemaUrl", Json.str ss.schemaUrl)]))

/-- Canonical protojson rendering of a `ResourceSpans`. -/
def pjsonMarshalResourceSpans (rs : PBResourceSpans) : Json :=
  Json.obj
    ((match rs.resource with
      | none => []
      | some r => [("resource", pjsonMarshalResource r)]) ++
     (if rs.scopeSpans.isEmpty then []
      else [("scopeSpans", Json.arr (rs.scopeSpans.map pjsonMarshalScopeSpans))]) ++
     (if rs.schemaUrl = "" then [] else [("schemaUrl", Json.str rs.schemaUrl)]))

/-- Canonical protojson rendering of a trace export message. -/
def pjsonMarshalTracesData (m : TracesData) : Json :=
  Json.obj
    (if m.resourceSpans.isEmpty then []
     else [("resourceSpans", Json.arr (m.resourceSpans.map pjsonMarshalResourceSpans))])

/-- First value bound to a key in a JSON object (protojson marshalling
never emits duplicate keys). -/
def jsonLookup (kvs : List (String × Json)) (k : String) : Option Json :=
  (kvs.find? (fun kv => kv.1 = k)).map (fun kv => kv.2)

/-- Canonical protojson reading of a `bytes` field: absent means the zero
value, a string must be valid standard base64, anything else is an error. -/
def pjsonFieldBytes (kvs : List (String × Json)) (k : String) : Option (List Nat) :=
  match jsonLookup kvs k with
  | none => some []
  | some (Json.str s) => base64DecodeString s
  | some _ => none

/-- Canonical protojson reading of a `string` field. -/
def pjsonFieldString (kvs : List (String × Json)) (k : String) : Option String :=
  match jsonLookup kvs k with
  | none => some ""
  | some (Json.str s) => some s
  | some _ => none

/-- Canonical protojson reading of an enum field rendered as a number. -/
def pjsonFieldEnum (kvs : List (String × Json)) (k : String) : Option Int :=
  match jsonLookup kvs k with
  | none => some 0
  | some (Json.num n) => some n
  | some _ => none

/-- Keys of a JSON object node. -/
def jsonObjKeys (kvs : List (String × Json)) : List String :=
  kvs.map (fun kv => kv.1)

/-- Canonical protojson reading of a `KeyValue` (protojson rejects unknown
fields). -/
def pjsonUnmarshalKeyValue (j : Json) : Option KeyValue :=
  match j with
  | Json.obj kvs =>
    if (jsonObjKeys kvs).all (fun k => k = "key" ∨ k = "value") then do
      let key ← pjsonFieldString kvs "key"
      let value ←
        match jsonLookup kvs "value" with
        | none => some none
        | some (Json.obj vkvs) =>
          if (jsonObjKeys vkvs).all (fun k => k = "stringValue") then
            match jsonLookup vkvs "stringValue" with
            | some (Json.str s) => some (some s)
            | none => none
            | some _ => none
          else none
        | some _ => none
      pure { key := key, value := value }
    else none
  | _ => none

/-- Canonical protojson reading of a `Resource`. -/
def pjsonUnmarshalResource (j : Json) : Option PBResource :=
  match j with
  | Json.obj kvs =>
    if (jsonObjKeys kvs).all (fun k => k = "attributes") then do
      let attributes ←
        match jsonLookup kvs "attributes" with
        | none => some []
        | some (Json.arr xs) => xs.mapM pjsonUnmarshalKeyValue
        | some _ => none
      pure { attributes := attributes }
    else none
  | _ => none

/-- Canonical protojson reading of an `InstrumentationScope`. -/
def pjsonUnmarshalScope (j : Json) : Option PBInstrumentationScope :=
  match j with
  | Json.obj kvs =>
    if (jsonObjKeys kvs).all (fun k => k = "name" ∨ k = "version") then do
      let name ← pjsonFieldString kvs "name"
      let version ← pjsonFieldString kvs "version"
      pure { name := name, version := version }
    else none
  | _ => none

/-- Canonical protojson reading of a `Span`. -/
def pjsonUnmarshalSpan (j : Json) : Option PBSpan :=
  match j with
  | Json.obj kvs =>
    if (jsonObjKeys kvs).all
        (fun k => k = "traceId" ∨ k = "spanId" ∨ k = "parentSpanId" ∨
          k = "name" ∨ k = "kind") then do
      let traceId ← pjsonFieldBytes kvs "traceId"
      let spanId ← pjsonFieldBytes kvs "spanId"
      let parentSpanId ← pjsonFieldBytes kvs "parentSpanId"
      let name ← pjsonFieldString kvs "name"
      let kind ← pjsonFieldEnum kvs "kind"
      pure { traceId := traceId, spanId := spanId, parentSpanId := parentSpanId,
             name := name, kind := kind }
    else none
  | _ => none

/-- Canonical protojson reading of a `ScopeSpans`. -/
def pjsonUnmarshalScopeSpans (j : Json) : Option PBScopeSpans :=
  match j with
  | Json.obj kvs =>
    if (jsonObjKeys kvs).all (fun k => k = "scope" ∨ k = "spans" ∨ k = "schemaUrl") then do
      let scope ←
        match jsonLookup kvs "scope" with
        | none => some none
        | some sj => (pjsonUnmarshalScope sj).map some
      let spans ←
        match jsonLookup kvs "spans" with
        | none => some []
        | some (Json.arr xs) => xs.mapM pjsonUnmarshalSpan
        | some _ => none
      let schemaUrl ← pjsonFieldString kvs "schemaUrl"
      pure { scope := scope, spans := spans, schemaUrl := schemaUrl }
    else none
  | _ => none

/-- Canonical protojson reading of a `ResourceSpans`. -/
def pjsonUnmarshalResourceSpans (j : Json) : Option PBResourceSpans :=
  match j with
  | Json.obj kvs =>
    if (jsonObjKeys kvs).all
        (fun k => k = "resource" ∨ k = "scopeSpans" ∨ k = "schemaUrl") then do
      let resource ←
        match jsonLookup kvs "resource" with
        | none => some none
        | some rj => (pjsonUnmarshalResource rj).map some
      let scopeSpans ←
        match jsonLookup kvs "scopeSpans" with
        | none => some []
        | some (Json.arr xs) => xs.mapM pjsonUnmarshalScopeSpans
        | some _ => none
      let schemaUrl ← pjsonFieldString kvs "schemaUrl"
      pure { resource := resource, scopeSpans := scopeSpans, schemaUrl := schemaUrl }
    else none
  | _ => none

/-- Canonical protojson reading of a trace export message. -/
def pjsonUnmarshalTracesData (j : Json) : Option TracesData :=
  match j with
  | Json.obj kvs =>
    if (jsonObjKeys kvs).all (fun k => k = "resourceSpans") then do
      let resourceSpans ←
        match jsonLookup kvs "resourceSpans" with
        | none => some []
        | some (Json.arr xs) => xs.mapM pjsonUnmarshalResourceSpans
        | some _ => none
      pure { resourceSpans := resourceSpans }
    else none
  | _ => none

/-- Embeds `MarshalJSON` from `otlp/json.go` at the tree level: canonical
protojson marshalling followed by the base64-to-hex identifier walk.  (The
source then serializes the walked tree with `json.Marshal`; serialization
of the generic tree and its re-parse in `UnmarshalJSON` compose to the
identity, so the byte hop is dropped from the embedding.) -/
def MarshalJSON (msg : TracesData) : Json :=
  convertTraceIDAndSpanIDBase64ToHexForAny (pjsonMarshalTracesData msg)

/-- Embeds `UnmarshalJSON` from `otlp/json.go` at the tree level: the
hex-to-base64 identifier walk followed by canonical protojson
unmarshalling; `none` models a non-nil error. -/
def UnmarshalJSON (j : Json) : Option TracesData :=
  pjsonUnmarshalTracesData (convertTraceIDAndSpanIDHexToBase64ForAny j)

/-- Bytes are octets. -/
def ValidBytes (bs : List Nat) : Prop :=
  ∀ b ∈ bs, b < 256

instance : DecidablePred ValidBytes := fun bs =>
  inferInstanceAs (Decidable (∀ b ∈ bs, b < 256))

/-- A span representable in the OTLP schema: identifiers are octet strings
of exactly 16 (trace id) or 8 (span ids) bytes, or absent (empty). -/
def SpanWF (sp : PBSpan) : Prop :=
  (sp.traceId = [] ∨ sp.traceId.length = 16) ∧ ValidBytes sp.traceId ∧
  (sp.spanId = [] ∨ sp.spanId.length = 8) ∧ ValidBytes sp.spanId ∧
  (sp.parentSpanId = [] ∨ sp.parentSpanId.length = 8) ∧ ValidBytes sp.parentSpanId

instance : DecidablePred SpanWF := fun sp => by
  unfold SpanWF; infer_instance

/-- Every span of the message is representable in the OTLP schema. -/
def TracesDataWF (m : TracesData) : Prop :=
  ∀ rs ∈ m.resourceSpans, ∀ ss ∈ rs.scopeSpans, ∀ sp ∈ ss.spans, SpanWF sp

instance : DecidablePred TracesDataWF := fun m => by
  unfold TracesDataWF; infer_instance

/-! ## Part B: the signal algebra (`otlp/partition.go`)

The algebra only copies resources, scopes, leaves and the metric payload
fields; their protobuf types are embedded as type parameters (`R` for
`resourcepb.Resource`, `S` for `commonpb.InstrumentationScope`, `Sp` for
`tracepb.Span`, `L` for `logspb.LogRecord`, `M` for the metric metadata
`commonpb.KeyValue`, and `NDP`/`SDP`/`HDP`/`EDP` for the four data point
types).  Nil-able Go pointers are embedded as `Option`.
-/

/-- Embeds `tracepb.ScopeSpans` as the algebra sees it. -/
structure ScopeSpans (S Sp : Type) where
  scope : Option S
  spans : List Sp
  schemaUrl : String
  deriving DecidableEq, Repr

/-- Embeds `tracepb.ResourceSpans` as the algebra sees it. -/
structure ResourceSpans (R S Sp : Type) where
  resource : Option R
  scopeSpans : List (ScopeSpans S Sp)
  schemaUrl : String
  deriving DecidableEq, Repr

/-- Embeds `TotalSpans` from `otlp/partition.go`. -/
def TotalSpans {R S Sp : Type} (src : List (ResourceSpans R S Sp)) : Nat :=
  src.foldl
    (fun total elem =>
      elem.scopeSpans.foldl (fun t elemScopeSpan => t + elemScopeSpan.spans.length) total)
    0

/-- Embeds `splitScopeSpans` from `otlp/partition.go`: one `ScopeSpans`
per span, copying the scope and schema url. -/
def splitScopeSpans {S Sp : Type} (src : List (ScopeSpans S Sp)) : List (ScopeSpans S Sp) :=
  src.flatMap (fun elem =>
    elem.spans.map (fun elemSpan =>
      { scope := elem.scope, spans := [elemSpan], schemaUrl := elem.schemaUrl }))

/-- Embeds `SplitResourceSpans` from `otlp/partition.go`: one
`ResourceSpans` per split scope, copying the resource and schema url. -/
def SplitResourceSpans {R S Sp : Type} (src : List (ResourceSpans R S Sp)) :
    List (ResourceSpans R S Sp) :=
  src.flatMap (fun elem =>
    (splitScopeSpans elem.scopeSpans).map (fun elemScopeSpan =>
      { resource := elem.resource, scopeSpans := [elemScopeSpan],
        schemaUrl := elem.schemaUrl }))

/-- Embeds `andFilter` from `otlp/partition.go`: a conjunction that stops
at the first failing filter. -/
def andFilter {R S T : Type} (filters : List (Option R → Option S → T → Bool)) :
    Option R → Option S → T → Bool :=
  fun r s t => filters.all (fun f => f r s t)

/-- Embeds `FilterResourceSpans` from `otlp/partition.go`: split first,
then for every span of a split element that passes the conjunction append
the element once. -/
def FilterResourceSpans {R S Sp : Type} (src : List (ResourceSpans R S Sp))
    (filters : List (Option R → Option S → Sp → Bool)) : List (ResourceSpans R S Sp) :=
  let filter := andFilter filters
  (SplitResourceSpans src).flatMap (fun elem =>
    elem.scopeSpans.flatMap (fun elemScopeSpan =>
      elemScopeSpan.spans.filterMap (fun elemSpan =>
        if filter elem.resource elemScopeSpan.scope elemSpan then some elem else none)))

/-- Modelled from the spec: `AppendResourceSpans` lives in a repository
file that is not among the provided sources (only `partition.go` calls
it).  Per the spec's signal-algebra table it "merges by (resource, scope)
equality; new leaf is appended": the element is merged into the first
entry with an equal resource (its scopes merged into the first scope with
an equal scope value), otherwise appended. -/
def appendScopeSpansModel {S Sp : Type} [DecidableEq S] :
    List (ScopeSpans S Sp) → ScopeSpans S Sp → List (ScopeSpans S Sp)
  | [], s => [s]
  | t :: rest, s =>
    if t.scope = s.scope then { t with spans := t.spans ++ s.spans } :: rest
    else t :: appendScopeSpansModel rest s

/-- Modelled from the spec: resource-level merge of `AppendResourceSpans`
(see `appendScopeSpansModel`). -/
def AppendResourceSpans {R S Sp : Type} [DecidableEq R] [DecidableEq S] :
    List (ResourceSpans R S Sp) → ResourceSpans R S Sp → List (ResourceSpans R S Sp)
  | [], elem => [elem]
  | rs :: rest, elem =>
    if rs.resource = elem.resource then
      { rs with scopeSpans := elem.scopeSpans.foldl appendScopeSpansModel rs.scopeSpans } :: rest
    else rs :: AppendResourceSpans rest elem

/-- Insertion-ordered association-list update; embeds the Go map update
`m[key] = f(m[key])` (an absent key reads as `empty`). -/
def updateAssoc {A : Type} (m : List (String × A)) (key : String) (f : A → A) (empty : A) :
    List (String × A) :=
  match m with
  | [] => [(key, f empty)]
  | (k, v) :: rest =>
    if k = key then (k, f v) :: rest else (k, v) :: updateAssoc rest key f empty

/-- Embeds `PartitionResourceSpans` from `otlp/partition.go`: split, then
for each one-span element append it to the bucket of its partition key.
The Go `map[string][]...` is embedded as an insertion-ordered association
list (only per-key contents and the multiset of buckets are observable). -/
def PartitionResourceSpans {R S Sp : Type} [DecidableEq R] [DecidableEq S]
    (src : List (ResourceSpans R S Sp))
    (getPartitionKey : ResourceSpans R S Sp → String) :
    List (String × List (ResourceSpans R S Sp)) :=
  (SplitResourceSpans src).foldl
    (fun m elem => updateAssoc m (getPartitionKey elem) (fun b => AppendResourceSpans b elem) [])
    []

/-- Embeds the `oneof Data` payload of `metricspb.Metric` together with
the per-shape fields that `splitMetrics` copies (`AggregationTemporality`
as the enum's number, `IsMonotonic`). -/
inductive MetricData (NDP SDP HDP EDP : Type) where
  | gauge (dataPoints : List NDP)
  | sum (aggregationTemporality : Int) (isMonotonic : Bool) (dataPoints : List NDP)
  | summary (dataPoints : List SDP)
  | histogram (aggregationTemporality : Int) (dataPoints : List HDP)
  | exponentialHistogram (aggregationTemporality : Int) (dataPoints : List EDP)
  deriving DecidableEq, Repr

/-- Embeds `metricspb.Metric` as the algebra sees it (`data = none`
models a nil `oneof`, which every `switch` in the source skips). -/
structure Metric (M NDP SDP HDP EDP : Type) where
  name : String
  description : String
  unit : String
  metadata : List M
  data : Option (MetricData NDP SDP HDP EDP)
  deriving DecidableEq, Repr

/-- Embeds `metricspb.ScopeMetrics` as the algebra sees it. -/
structure ScopeMetrics (S M NDP SDP HDP EDP : Type) where
  scope : Option S
  metrics : List (Metric M NDP SDP HDP EDP)
  schemaUrl : String
  deriving DecidableEq, Repr

/-- Embeds `metricspb.ResourceMetrics` as the algebra sees it. -/
structure ResourceMetrics (R S M NDP SDP HDP EDP : Type) where
  resource : Option R
  scopeMetrics : List (ScopeMetrics S M NDP SDP HDP EDP)
  schemaUrl : String
  deriving DecidableEq, Repr

/-- Data point count of one metric payload: the five-way `switch` shared
by `TotalDataPoints` (a nil or unknown payload adds nothing). -/
def metricDataPointCount {NDP SDP HDP EDP : Type} :
    Option (MetricData NDP SDP HDP EDP) → Nat
  | some (MetricData.gauge dps) => dps.length
  | some (MetricData.sum _ _ dps) => dps.length
  | some (MetricData.summary dps) => dps.length
  | some (MetricData.histogram _ dps) => dps.length
  | some (MetricData.exponentialHistogram _ dps) => dps.length
  | none => 0

/-- Embeds `TotalDataPoints` from `otlp/partition.go`. -/
def TotalDataPoints {R S M NDP SDP HDP EDP : Type}
    (src : List (ResourceMetrics R S M NDP SDP HDP EDP)) : Nat :=
  src.foldl
    (fun total elem =>
      elem.scopeMetrics.foldl
        (fun t elemScopeMetric =>
          elemScopeMetric.metrics.foldl
            (fun t2 elemMetric => t2 + metricDataPointCount elemMetric.data) t)
        total)
    0

/-- Embeds `splitMetrics` from `otlp/partition.go`: one metric per data
point, retaining the parent metric's `name`, `description`, `unit` and
`metadata`, and the shape-specific parameters; a nil payload produces
nothing. -/
def splitMetrics {M NDP SDP HDP EDP : Type}
    (src : List (Metric M NDP SDP HDP EDP)) : List (Metric M NDP SDP HDP EDP) :=
  src.flatMap (fun elem =>
    match elem.data with
    | some (MetricData.gauge dps) =>
      dps.map (fun dp =>
        { name := elem.name, description := elem.description, unit := elem.unit,
          metadata := elem.metadata, data := some (MetricData.gauge [dp]) })
    | some (MetricData.sum aggTemp mono dps) =>
      dps.map (fun dp =>
        { name := elem.name, description := elem.description, unit := elem.unit,
          metadata := elem.metadata, data := some (MetricData.sum aggTemp mono [dp]) })
    | some (MetricData.summary dps) =>
      dps.map (fun dp =>
        { name := elem.name, description := elem.description, unit := elem.unit,
          metadata := elem.metadata, data := some (MetricData.summary [dp]) })
    | some (MetricData.histogram aggTemp dps) =>
      dps.map (fun dp =>
        { name := elem.name, description := elem.description, unit := elem.unit,
          metadata := elem.metadata, data := some (MetricData.histogram aggTemp [dp]) })
    | some (MetricData.exponentialHistogram aggTemp dps) =>
      dps.map (fun dp =>
        { name := elem.name, description := elem.description, unit := elem.unit,
          metadata := elem.metadata,
          data := some (MetricData.exponentialHistogram aggTemp [dp]) })
    | none => [])

/-- Embeds `splitScopeMetrics` from `otlp/partition.go`. -/
def splitScopeMetrics {S M NDP SDP HDP EDP : Type}
    (src : List (ScopeMetrics S M NDP SDP HDP EDP)) :
    List (ScopeMetrics S M NDP SDP HDP EDP) :=
  src.flatMap (fun elem =>
    (splitMetrics elem.metrics).map (fun elemMetric =>
      { scope := elem.scope, metrics := [elemMetric], schemaUrl := elem.schemaUrl }))

/-- Embeds `SplitResourceMetrics` from `otlp/partition.go`. -/
def SplitResourceMetrics {R S M NDP SDP HDP EDP : Type}
    (src : List (ResourceMetrics R S M NDP SDP HDP EDP)) :
    List (ResourceMetrics R S M NDP SDP HDP EDP) :=
  src.flatMap (fun elem =>
    (splitScopeMetrics elem.scopeMetrics).map (fun elemScopeMetric =>
      { resource := elem.resource, scopeMetrics := [elemScopeMetric],
        schemaUrl := elem.schemaUrl }))

/-- Embeds `FilterResourceMetrics` from `otlp/partition.go`: split, then
for every metric of a split element that passes the conjunction append
the element once. -/
def FilterResourceMetrics {R S M NDP SDP HDP EDP : Type}
    (src : List (ResourceMetrics R S M NDP SDP HDP EDP))
    (filters : List (Option R → Option S → Metric M NDP SDP HDP EDP → Bool)) :
    List (ResourceMetrics R S M NDP SDP HDP EDP) :=
  let filter := andFilter filters
  (SplitResourceMetrics src).flatMap (fun elem =>
    elem.scopeMetrics.flatMap (fun elemScopeMetric =>
      elemScopeMetric.metrics.filterMap (fun elemMetric =>
        if filter elem.resource elemScopeMetric.scope elemMetric then some elem else none)))

/-- Modelled from the spec: scope-level merge of `AppendResourceMetrics`
(the `Append*` source file is not among the provided sources); same merge
rule as `appendScopeSpansModel`. -/
def appendScopeMetricsModel {S M NDP SDP HDP EDP : Type} [DecidableEq S] :
    List (ScopeMetrics S M NDP SDP HDP EDP) → ScopeMetrics S M NDP SDP HDP EDP →
      List (ScopeMetrics S M NDP SDP HDP EDP)
  | [], s => [s]
  | t :: rest, s =>
    if t.scope = s.scope then { t with metrics := t.metrics ++ s.metrics } :: rest
    else t :: appendScopeMetricsModel rest s

/-- Modelled from the spec: `AppendResourceMetrics`, merging by
(resource, scope) equality with the new leaf appended. -/
def AppendResourceMetrics {R S M NDP SDP HDP EDP : Type} [DecidableEq R] [DecidableEq S] :
    List (ResourceMetrics R S M NDP SDP HDP EDP) →
      ResourceMetrics R S M NDP SDP HDP EDP →
      List (ResourceMetrics R S M NDP SDP HDP EDP)
  | [], elem => [elem]
  | rs :: rest, elem =>
    if rs.resource = elem.resource then
      { rs with
        scopeMetrics := elem.scopeMetrics.foldl appendScopeMetricsModel rs.scopeMetrics } :: rest
    else rs :: AppendResourceMetrics rest elem

/-- Embeds `PartitionResourceMetrics` from `otlp/partition.go`. -/
def PartitionResourceMetrics {R S M NDP SDP HDP EDP : Type} [DecidableEq R] [DecidableEq S]
    (src : List (ResourceMetrics R S M NDP SDP HDP EDP))
    (getPartitionKey : ResourceMetrics R S M NDP SDP HDP EDP → String) :
    List (String × List (ResourceMetrics R S M NDP SDP HDP EDP)) :=
  (SplitResourceMetrics src).foldl
    (fun m elem =>
      updateAssoc m (getPartitionKey elem) (fun b => AppendResourceMetrics b elem) [])
    []

/-- Embeds `logspb.ScopeLogs` as the algebra sees it. -/
structure ScopeLogs (S L : Type) where
  scope : Option S
  logRecords : List L
  schemaUrl : String
  deriving DecidableEq, Repr

/-- Embeds `logspb.ResourceLogs` as the algebra sees it. -/
structure ResourceLogs (R S L : Type) where
  resource : Option R
  scopeLogs : List (ScopeLogs S L)
  schemaUrl : String
  deriving DecidableEq, Repr

/-- Embeds `TotalLogRecords` from `otlp/partition.go`. -/
def TotalLogRecords {R S L : Type} (src : List (ResourceLogs R S L)) : Nat :=
  src.foldl
    (fun total elem =>
      elem.scopeLogs.foldl (fun t elemScopeLogs => t + elemScopeLogs.logRecords.length) total)
    0

/-- Embeds `splitScopeLogs` from `otlp/partition.go`. -/
def splitScopeLogs {S L : Type} (src : List (ScopeLogs S L)) : List (ScopeLogs S L) :=
  src.flatMap (fun elem =>
    elem.logRecords.map (fun elemLogRecord =>
      { scope := elem.scope, logRecords := [elemLogRecord], schemaUrl := elem.schemaUrl }))

/-- Embeds `SplitResourceLogs` from `otlp/partition.go`. -/
def SplitResourceLogs {R S L : Type} (src : List (ResourceLogs R S L)) :
    List (ResourceLogs R S L) :=
  src.flatMap (fun elem =>
    (splitScopeLogs elem.scopeLogs).map (fun elemScopeLogs =>
      { resource := elem.resource, scopeLogs := [elemScopeLogs],
        schemaUrl := elem.schemaUrl }))

/-- Embeds `FilterResourceLogs` from `otlp/partition.go`. -/
def FilterResourceLogs {R S L : Type} (src : List (ResourceLogs R S L))
    (filters : List (Option R → Option S → L → Bool)) : List (ResourceLogs R S L) :=
  let filter := andFilter filters
  (SplitResourceLogs src).flatMap (fun elem =>
    elem.scopeLogs.flatMap (fun elemScopeLogs =>
      elemScopeLogs.logRecords.filterMap (fun elemLogRecord =>
        if filter elem.resource elemScopeLogs.scope elemLogRecord then some elem else none)))

/-- Modelled from the spec: scope-level merge of `AppendResourceLogs`. -/
def appendScopeLogsModel {S L : Type} [DecidableEq S] :
    List (ScopeLogs S L) → ScopeLogs S L → List (ScopeLogs S L)
  | [], s => [s]
  | t :: rest, s =>
    if t.scope = s.scope then { t with logRecords := t.logRecords ++ s.logRecords } :: rest
    else t :: appendScopeLogsModel rest s

/-- Modelled from the spec: `AppendResourceLogs`, merging by
(resource, scope) equality with the new leaf appended. -/
def AppendResourceLogs {R S L : Type} [DecidableEq R] [DecidableEq S] :
    List (ResourceLogs R S L) → ResourceLogs R S L → List (ResourceLogs R S L)
  | [], elem => [elem]
  | rs :: rest, elem =>
    if rs.resource = elem.resource then
      { rs with scopeLogs := elem.scopeLogs.foldl appendScopeLogsModel rs.scopeLogs } :: rest
    else rs :: AppendResourceLogs rest elem

/-- Embeds `PartitionResourceLogs` from `otlp/partition.go`. -/
def PartitionResourceLogs {R S L : Type} [DecidableEq R] [DecidableEq S]
    (src : List (ResourceLogs R S L))
    (getPartitionKey : ResourceLogs R S L → String) :
    List (String × List (ResourceLogs R S L)) :=
  (SplitResourceLogs src).foldl
    (fun m elem =>
      updateAssoc m (getPartitionKey elem) (fun b => AppendResourceLogs b elem) [])
    []

/-- Pre-order list of `(resource, scope, span)` leaf observations of a
trace container list; this is the "leaf" reading the spec's filter and
conservation properties quantify over. -/
def spanLeaves {R S Sp : Type} (src : List (ResourceSpans R S Sp)) :
    List (Option R × Option S × Sp) :=
  src.flatMap (fun elem =>
    elem.scopeSpans.flatMap (fun ss =>
      ss.spans.map (fun sp => (elem.resource, ss.scope, sp))))

/-- Pre-order list of `(resource, scope, metric)` observations of a
metrics container list (the filter functions of `partition.go` receive
whole metrics). -/
def metricTriples {R S M NDP SDP HDP EDP : Type}
    (src : List (ResourceMetrics R S M NDP SDP HDP EDP)) :
    List (Option R × Option S × Metric M NDP SDP HDP EDP) :=
  src.flatMap (fun elem =>
    elem.scopeMetrics.flatMap (fun sm =>
      sm.metrics.map (fun m => (elem.resource, sm.scope, m))))

/-- Pre-order list of `(resource, scope, log record)` leaf observations of
a logs container list. -/
def logLeaves {R S L : Type} (src : List (ResourceLogs R S L)) :
    List (Option R × Option S × L) :=
  src.flatMap (fun elem =>
    elem.scopeLogs.flatMap (fun sl =>
      sl.logRecords.map (fun lr => (elem.resource, sl.scope, lr))))

/-! ## Part C: the server multiplexer (`otlp/mux.go`)

Go contexts are embedded as an opaque type parameter `Ctx`; a `context`
value is only threaded through the chains, so the claims instantiate it
with a list of probe writes.  The erased `proto.Message` flowing through
the cross-signal chain is embedded as the sum `AnyProtoMessage`; Go's
`(resp, error)` pairs are embedded as `Except`.
-/

/-- Embeds a `*status.Status` (gRPC status): numeric code plus message. -/
structure GrpcStatus where
  code : Nat
  message : String
  deriving DecidableEq, Repr

/-- Embeds `codes.OK`. -/
def codesOK : Nat := 0
/-- Embeds `codes.Canceled`. -/
def codesCanceled : Nat := 1
/-- Embeds `codes.Unknown`. -/
def codesUnknown : Nat := 2
/-- Embeds `codes.InvalidArgument`. -/
def codesInvalidArgument : Nat := 3
/-- Embeds `codes.DeadlineExceeded`. -/
def codesDeadlineExceeded : Nat := 4
/-- Embeds `codes.NotFound`. -/
def codesNotFound : Nat := 5
/-- Embeds `codes.AlreadyExists`. -/
def codesAlreadyExists : Nat := 6
/-- Embeds `codes.PermissionDenied`. -/
def codesPermissionDenied : Nat := 7
/-- Embeds `codes.ResourceExhausted`. -/
def codesResourceExhausted : Nat := 8
/-- Embeds `codes.FailedPrecondition`. -/
def codesFailedPrecondition : Nat := 9
/-- Embeds `codes.Aborted`. -/
def codesAborted : Nat := 10
/-- Embeds `codes.OutOfRange`. -/
def codesOutOfRange : Nat := 11
/-- Embeds `codes.Unimplemented`. -/
def codesUnimplemented : Nat := 12
/-- Embeds `codes.Internal`. -/
def codesInternal : Nat := 13
/-- Embeds `codes.Unavailable`. -/
def codesUnavailable : Nat := 14
/-- Embeds `codes.DataLoss`. -/
def codesDataLoss : Nat := 15
/-- Embeds `codes.Unauthenticated`. -/
def codesUnauthenticated : Nat := 16

/-- Embeds the erased `proto.Message` that flows through the cross-signal
middleware chain: one constructor per concrete request/response type. -/
inductive AnyProtoMessage (TReq TResp MReq MResp LReq LResp : Type) where
  | traceRequest (r : TReq)
  | traceResponse (r : TResp)
  | metricsRequest (r : MReq)
  | metricsResponse (r : MResp)
  | logsRequest (r : LReq)
  | logsResponse (r : LResp)

/-- Embeds `ProtoHandlerFunc`: `(context, message) → (message, error)`. -/
def ProtoHandlerFunc (Ctx Msg : Type) : Type :=
  Ctx → Msg → Except GrpcStatus Msg

/-- Embeds `MiddlewareFunc`. -/
def MiddlewareFunc (Ctx Msg : Type) : Type :=
  ProtoHandlerFunc Ctx Msg → ProtoHandlerFunc Ctx Msg

/-- Embeds `ServerMux.chainedMiddleware`: the source starts with the last
registered middleware and wraps backwards, so that applying the result to
a handler gives `mw₀ (mw₁ (… mwₙ₋₁ handler …))`: the first registered
middleware is the outermost wrapper.  An empty list yields the identity. -/
def chainedMiddleware {Ctx Msg : Type} :
    List (MiddlewareFunc Ctx Msg) → MiddlewareFunc Ctx Msg
  | [] => fun next => next
  | mw :: rest =>
    match rest with
    | [] => mw
    | _ :: _ => fun h => mw (chainedMiddleware rest h)

/-- Embeds a per-signal handler: `(context, Req) → (Resp, error)`.  The
source declares one such pair of types per signal (`TraceHandler`,
`MetricsHandler`, `LogsHandler`); they only differ in the request and
response types, which are parameters here. -/
def SignalHandler (Ctx Req Resp : Type) : Type :=
  Ctx → Req → Except GrpcStatus Resp

/-- Embeds a per-signal middleware (`TraceMiddlewareFunc` and friends). -/
def SignalMiddlewareFunc (Ctx Req Resp : Type) : Type :=
  SignalHandler Ctx Req Resp → SignalHandler Ctx Req Resp

/-- Embeds the per-signal entry (`traceEntry` / `metricsEntry` /
`logsEntry`): its middleware list and optional handler.  (`h = none`
models a nil handler field, i.e. no handler registered on the entry.) -/
structure SignalEntryState (Ctx Req Resp : Type) where
  middlewares : List (SignalMiddlewareFunc Ctx Req Resp)
  h : Option (SignalHandler Ctx Req Resp)

/-- Embeds `traceEntry.getHandler` (and its metrics/logs twins): wrap the
handler in the per-signal middlewares from the last registered inwards, so
that the first registered one ends up outermost; no handler means no
result. -/
def signalEntryGetHandler {Ctx Req Resp : Type} (e : SignalEntryState Ctx Req Resp) :
    Option (SignalHandler Ctx Req Resp) :=
  match e.h with
  | none => none
  | some h0 => some (e.middlewares.foldr (fun mw wrapped => mw wrapped) h0)

/-- Status returned by the embedded generated `Unimplemented*Server.Export`
fallback (`status.Errorf(codes.Unimplemented, "method Export not implemented")`). -/
def unimplementedExportStatus : GrpcStatus :=
  { code := codesUnimplemented, message := "method Export not implemented" }

/-- Status for `status.Error(codes.Internal, "unexpected response type")`. -/
def unexpectedResponseTypeStatus : GrpcStatus :=
  { code := codesInternal, message := "unexpected response type" }

/-- Branch taken when the erased message reaching the inner boundary is
not the signal's request type; in Go the `req.(*TraceRequest)` type
assertion panics there.  No claim exercises this branch. -/
def typeAssertionFailureStatus : GrpcStatus :=
  { code := codesInternal, message := "type assertion failure" }

/-- Embeds `traceEntry.Export`: resolve the per-signal wrapped handler
(`Unimplemented` if absent), wrap it as the inner `ProtoHandlerFunc`,
run it under the chained cross-signal middleware, and downcast the
resulting message (`Internal` on an unexpected concrete type). -/
def traceEntryExport {Ctx TReq TResp MReq MResp LReq LResp : Type}
    (muxMiddlewares :
      List (MiddlewareFunc Ctx (AnyProtoMessage TReq TResp MReq MResp LReq LResp)))
    (e : SignalEntryState Ctx TReq TResp) (ctx : Ctx) (req : TReq) :
    Except GrpcStatus TResp :=
  match signalEntryGetHandler e with
  | none => Except.error unimplementedExportStatus
  | some base =>
    let h := chainedMiddleware muxMiddlewares (fun ctx pm =>
      match pm with
      | AnyProtoMessage.traceRequest r => (base ctx r).map AnyProtoMessage.traceResponse
      | _ => Except.error typeAssertionFailureStatus)
    match h ctx (AnyProtoMessage.traceRequest req) with
    | Except.error err => Except.error err
    | Except.ok (AnyProtoMessage.traceResponse resp) => Except.ok resp
    | Except.ok _ => Except.error unexpectedResponseTypeStatus

/-- Embeds `metricsEntry.Export` (same shape as `traceEntryExport`). -/
def metricsEntryExport {Ctx TReq TResp MReq MResp LReq LResp : Type}
    (muxMiddlewares :
      List (MiddlewareFunc Ctx (AnyProtoMessage TReq TResp MReq MResp LReq LResp)))
    (e : SignalEntryState Ctx MReq MResp) (ctx : Ctx) (req : MReq) :
    Except GrpcStatus MResp :=
  match signalEntryGetHandler e with
  | none => Except.error unimplementedExportStatus
  | some base =>
    let h := chainedMiddleware muxMiddlewares (fun ctx pm =>
      match pm with
      | AnyProtoMessage.metricsRequest r => (base ctx r).map AnyProtoMessage.metricsResponse
      | _ => Except.error typeAssertionFailureStatus)
    match h ctx (AnyProtoMessage.metricsRequest req) with
    | Except.error err => Except.error err
    | Except.ok (AnyProtoMessage.metricsResponse resp) => Except.ok resp
    | Except.ok _ => Except.error unexpectedResponseTypeStatus

/-- Embeds `logsEntry.Export` (same shape as `traceEntryExport`). -/
def logsEntryExport {Ctx TReq TResp MReq MResp LReq LResp : Type}
    (muxMiddlewares :
      List (MiddlewareFunc Ctx (AnyProtoMessage TReq TResp MReq MResp LReq LResp)))
    (e : SignalEntryState Ctx LReq LResp) (ctx : Ctx) (req : LReq) :
    Except GrpcStatus LResp :=
  match signalEntryGetHandler e with
  | none => Except.error unimplementedExportStatus
  | some base =>
    let h := chainedMiddleware muxMiddlewares (fun ctx pm =>
      match pm with
      | AnyProtoMessage.logsRequest r => (base ctx r).map AnyProtoMessage.logsResponse
      | _ => Except.error typeAssertionFailureStatus)
    match h ctx (AnyProtoMessage.logsRequest req) with
    | Except.error err => Except.error err
    | Except.ok (AnyProtoMessage.logsResponse resp) => Except.ok resp
    | Except.ok _ => Except.error unexpectedResponseTypeStatus

/-- Cross-signal probe middleware: records its label on the context and
calls the next handler (the shape used by the spec's middleware-order
property and by `mux_test.go`). -/
def probeMiddleware {Msg : Type} (label : String) : MiddlewareFunc (List String) Msg :=
  fun next ctx pm => next (ctx ++ [label]) pm

/-- Per-signal probe middleware (same probe, at the concrete signal type). -/
def signalProbeMiddleware {Req Resp : Type} (label : String) :
    SignalMiddlewareFunc (List String) Req Resp :=
  fun next ctx r => next (ctx ++ [label]) r

/-! ## Part D: the HTTP bridge (`otlp/proxy.go`) and HTTP dispatch of the mux

HTTP requests and responses are explicit records.  Response bodies are
embedded symbolically: `proto.Marshal`/`protojson.Marshal` of a status or
response message become constructors (in the embedding marshalling cannot
fail, so the source's marshal-failure fallbacks are unreachable).  Request
body decoding is a parameter of the embedded proxy (`proto.Unmarshal` /
`protojson.Unmarshal` are dependency calls); a concrete model of
`protojson.Unmarshal` built on a JSON parser is provided below.
-/

/-- Embeds `grpcCodeToHTTPStatus` from `otlp/proxy.go` (the full table;
unknown codes default to 500). -/
def grpcCodeToHTTPStatus (code : Nat) : Nat :=
  if code = codesOK then 200
  else if code = codesCanceled then 408
  else if code = codesUnknown then 500
  else if code = codesInvalidArgument then 400
  else if code = codesDeadlineExceeded then 504
  else if code = codesNotFound then 404
  else if code = codesAlreadyExists then 409
  else if code = codesPermissionDenied then 403
  else if code = codesResourceExhausted then 429
  else if code = codesFailedPrecondition then 412
  else if code = codesAborted then 409
  else if code = codesOutOfRange then 400
  else if code = codesUnimplemented then 501
  else if code = codesInternal then 500
  else if code = codesUnavailable then 503
  else if code = codesDataLoss then 500
  else if code = codesUnauthenticated then 401
  else 500

/-- An inbound HTTP request as the bridge sees it: method, path, the
`Content-Type` header and the raw body bytes. -/
structure HttpRequest where
  method : String
  path : String
  contentType : String
  body : List Nat
  deriving Repr

/-- Symbolic HTTP response body: plaintext from `http.Error`, a marshalled
`*status.Status` (protobuf or JSON encoding), or a marshalled response
message. -/
inductive HttpResponseBody (Resp : Type) where
  | plainText (s : String)
  | protoStatus (st : GrpcStatus)
  | jsonStatus (st : GrpcStatus)
  | protoMessage (r : Resp)
  | jsonMessage (r : Resp)

/-- An HTTP response: status code, `Content-Type` header, body. -/
structure HttpResponse (Resp : Type) where
  status : Nat
  contentType : String
  body : HttpResponseBody Resp

/-- Embeds `errorProto` from `otlp/proxy.go`: map the status code to the
HTTP status and emit the protobuf-marshalled status as the body. -/
def errorProto {Resp : Type} (st : GrpcStatus) : HttpResponse Resp :=
  { status := grpcCodeToHTTPStatus st.code, contentType := "application/x-protobuf",
    body := HttpResponseBody.protoStatus st }

/-- Embeds `errorJSON` from `otlp/proxy.go`. -/
def errorJSON {Resp : Type} (st : GrpcStatus) : HttpResponse Resp :=
  { status := grpcCodeToHTTPStatus st.code, contentType := "application/json",
    body := HttpResponseBody.jsonStatus st }

/-- Embeds `proxyHandler`: the body decoders for the two content types
(`proto.Unmarshal` / `protojson.Unmarshal` into a fresh request from
`newRequestFunc`) and the wrapped protobuf handler. -/
structure ProxyHandler (Ctx Req Resp : Type) where
  protoUnmarshal : List Nat → Except String Req
  jsonUnmarshal : List Nat → Except String Req
  handler : Ctx → Req → Except GrpcStatus Resp

/-- Embeds `proxyHandler.serveHTTPWithProto`: unmarshal the body
(`InvalidArgument` on failure), invoke the handler (its status is mapped
by `errorProto`; in the embedding every handler error carries a status,
matching `status.FromError` succeeding), and answer `200` with the
marshalled response. -/
def proxyServeHTTPWithProto {Ctx Req Resp : Type} (h : ProxyHandler Ctx Req Resp)
    (ctx : Ctx) (r : HttpRequest) : HttpResponse Resp :=
  match h.protoUnmarshal r.body with
  | Except.error _ =>
    errorProto { code := codesInvalidArgument, message := "Unable to unmarshal request body" }
  | Except.ok req =>
    match h.handler ctx req with
    | Except.error st => errorProto st
    | Except.ok resp =>
      { status := 200, contentType := "application/x-protobuf",
        body := HttpResponseBody.protoMessage resp }

/-- Embeds `proxyHandler.serveHTTPWithJSON` (the JSON twin). -/
def proxyServeHTTPWithJSON {Ctx Req Resp : Type} (h : ProxyHandler Ctx Req Resp)
    (ctx : Ctx) (r : HttpRequest) : HttpResponse Resp :=
  match h.jsonUnmarshal r.body with
  | Except.error _ =>
    errorJSON { code := codesInvalidArgument, message := "Unable to unmarshal request body" }
  | Except.ok req =>
    match h.handler ctx req with
    | Except.error st => errorJSON st
    | Except.ok resp =>
      { status := 200, contentType := "application/json",
        body := HttpResponseBody.jsonMessage resp }

/-- Embeds `proxyHandler.ServeHTTP`: `405` for non-POST, then exact
dispatch on `Content-Type` (`415` otherwise). -/
def proxyServeHTTP {Ctx Req Resp : Type} (h : ProxyHandler Ctx Req Resp)
    (ctx : Ctx) (r : HttpRequest) : HttpResponse Resp :=
  if r.method ≠ "POST" then
    { status := 405, contentType := "text/plain",
      body := HttpResponseBody.plainText "Method Not Allowed" }
  else if r.contentType = "application/x-protobuf" then
    proxyServeHTTPWithProto h ctx r
  else if r.contentType = "application/json" then
    proxyServeHTTPWithJSON h ctx r
  else
    { status := 415, contentType := "text/plain",
      body := HttpResponseBody.plainText "Unsupported Media Type" }

/-! ### A JSON parser, modelling `encoding/json` syntax for the inputs the
claims exercise

The parser recognizes objects, arrays, strings (with the single-character
escapes), integer numbers, `true`/`false`/`null`; fractional and exponent
number forms and `\u` escapes are outside the fragment the claims touch.
An empty or malformed input yields `none`, as `json.Unmarshal` /
`protojson.Unmarshal` yield a non-nil error.
-/

/-- Skips JSON whitespace. -/
def jsonSkipWs : List Char → List Char
  | c :: rest =>
    if c = ' ' ∨ c = '\t' ∨ c = '\n' ∨ c = '\r' then jsonSkipWs rest else c :: rest
  | [] => []

/-- Single-character JSON string escapes. -/
def jsonEscapeChar? (c : Char) : Option Char :=
  if c = '"' then some '"'
  else if c = '\\' then some '\\'
  else if c = '/' then some '/'
  else if c = 'n' then some '\n'
  else if c = 't' then some '\t'
  else if c = 'r' then some '\r'
  else if c = 'b' then some (Char.ofNat 8)
  else if c = 'f' then some (Char.ofNat 12)
  else none

/-- Parses the remainder of a JSON string (after the opening quote),
returning its characters and the rest of the input. -/
def jsonParseStringChars : List Char → Option (List Char × List Char)
  | [] => none
  | '"' :: rest => some ([], rest)
  | '\\' :: e :: rest => do
    let c ← jsonEscapeChar? e
    let (s, r) ← jsonParseStringChars rest
    pure (c :: s, r)
  | c :: rest => do
    let (s, r) ← jsonParseStringChars rest
    pure (c :: s, r)

/-- Longest digit run at the front of the input, with its value. -/
def jsonParseDigits : List Char → Nat → Nat → Option (Nat × List Char)
  | c :: rest, acc, count =>
    if '0' ≤ c ∧ c ≤ '9' then
      jsonParseDigits rest (acc * 10 + (c.toNat - '0'.toNat)) (count + 1)
    else if count = 0 then none else some (acc, c :: rest)
  | [], acc, count => if count = 0 then none else some (acc, [])

/-- Parses a JSON integer (optional minus sign and digits). -/
def jsonParseNumber : List Char → Option (Json × List Char)
  | '-' :: rest => (jsonParseDigits rest 0 0).map (fun p => (Json.num (-(p.1 : Int)), p.2))
  | cs => (jsonParseDigits cs 0 0).map (fun p => (Json.num (p.1 : Int), p.2))

mutual

/-- Parses one JSON value; the fuel bounds the nesting depth. -/
def jsonParseValue : Nat → List Char → Option (Json × List Char)
  | 0, _ => none
  | fuel + 1, cs =>
    match jsonSkipWs cs with
    | [] => none
    | c :: rest =>
      if c = 'n' then
        if "ull".data.isPrefixOf rest then some (Json.null, rest.drop 3) else none
      else if c = 't' then
        if "rue".data.isPrefixOf rest then some (Json.bool true, rest.drop 3) else none
      else if c = 'f' then
        if "alse".data.isPrefixOf rest then some (Json.bool false, rest.drop 4) else none
      else if c = '"' then
        (jsonParseStringChars rest).map (fun p => (Json.str (String.mk p.1), p.2))
      else if c = '[' then
        match jsonSkipWs rest with
        | ']' :: rest2 => some (Json.arr [], rest2)
        | rest2 => (jsonParseArrItems fuel rest2).map (fun p => (Json.arr p.1, p.2))
      else if c = '{' then
        match jsonSkipWs rest with
        | '}' :: rest2 => some (Json.obj [], rest2)
        | rest2 => (jsonParseObjItems fuel rest2).map (fun p => (Json.obj p.1, p.2))
      else jsonParseNumber (c :: rest)

/-- Parses the comma-separated items of a non-empty JSON array. -/
def jsonParseArrItems : Nat → List Char → Option (List Json × List Char)
  | 0, _ => none
  | fuel + 1, cs => do
    let (v, rest) ← jsonParseValue fuel cs
    match jsonSkipWs rest with
    | ',' :: rest2 => (jsonParseArrItems fuel rest2).map (fun p => (v :: p.1, p.2))
    | ']' :: rest2 => some ([v], rest2)
    | _ => none

/-- Parses the comma-separated members of a non-empty JSON object. -/
def jsonParseObjItems : Nat → List Char → Option (List (String × Json) × List Char)
  | 0, _ => none
  | fuel + 1, cs =>
    match jsonSkipWs cs with
    | '"' :: rest => do
      let (k, rest1) ← jsonParseStringChars rest
      match jsonSkipWs rest1 with
      | ':' :: rest2 => do
        let (v, rest3) ← jsonParseValue fuel rest2
        match jsonSkipWs rest3 with
        | ',' :: rest4 =>
          (jsonParseObjItems fuel rest4).map (fun p => ((String.mk k, v) :: p.1, p.2))
        | '}' :: rest4 => some ([(String.mk k, v)], rest4)
        | _ => none
      | _ => none
    | _ => none

end

/-- Parses a complete JSON document (only trailing whitespace may remain);
models the syntax acceptance of `json.Unmarshal`.  The empty input is a
syntax error. -/
def jsonParse (s : String) : Option Json :=
  match jsonParseValue (s.length + 1) s.data with
  | some (j, rest) => if (jsonSkipWs rest).isEmpty then some j else none
  | none => none

/-- Decodes body bytes as text (the bodies the claims exercise are ASCII). -/
def bytesToString (bs : List Nat) : String :=
  String.mk (bs.map Char.ofNat)

/-- Models `protojson.Unmarshal` into a fresh `ExportTraceServiceRequest`
(which this embedding shares with `TracesData`: both consist of the single
repeated field `resourceSpans`): parse the JSON text, then canonical
protojson reading of the tree.  An empty body is a JSON syntax error, so
the call returns a non-nil error, as in Go. -/
def protojsonUnmarshalTraceRequest (bs : List Nat) : Except String TracesData :=
  match jsonParse (bytesToString bs) with
  | none => Except.error "syntax error"
  | some j =>
    match pjsonUnmarshalTracesData j with
    | none => Except.error "unknown or mistyped field"
    | some m => Except.ok m

/-- The zero-valued trace export request (`newRequestFunc` result before
any bytes are merged into it). -/
def zeroTraceRequest : TracesData := { resourceSpans := [] }

/-- Decoders of the two HTTP body encodings for one signal's request type. -/
structure HTTPBodyCodec (Req : Type) where
  protoUnmarshal : List Nat → Except String Req
  jsonUnmarshal : List Nat → Except String Req

/-- Embeds the `ServerMux` state observed by dispatch: the cross-signal
middleware list and the three lazily-created signal entries (`none` means
the entry was never created, so its HTTP path was never registered). -/
structure ServerMuxState (Ctx TReq TResp MReq MResp LReq LResp : Type) where
  middlewares : List (MiddlewareFunc Ctx (AnyProtoMessage TReq TResp MReq MResp LReq LResp))
  trace : Option (SignalEntryState Ctx TReq TResp)
  metrics : Option (SignalEntryState Ctx MReq MResp)
  logs : Option (SignalEntryState Ctx LReq LResp)

/-- Embeds the not-found tail of `ServerMux.ServeHTTP`: a `NotFound`
status, rendered by the codec matching the request's content type, or
plaintext `404`. -/
def serverMuxNotFound {TReq TResp MReq MResp LReq LResp : Type} (r : HttpRequest) :
    HttpResponse (AnyProtoMessage TReq TResp MReq MResp LReq LResp) :=
  let st : GrpcStatus := { code := codesNotFound, message := "no handler registered for path" }
  if r.contentType = "application/x-protobuf" then errorProto st
  else if r.contentType = "application/json" then errorJSON st
  else
    { status := 404, contentType := "text/plain",
      body := HttpResponseBody.plainText "Not Found" }

/-- Embeds `ServerMux.ServeHTTP` together with the per-entry
`proxyHandler`s installed by `newTraceEntry` / `newMetricsEntry` /
`newLogsEntry`: a request whose path has a registered entry is served by
that entry's proxy (whose handler is the entry's `Export`, hence runs the
cross-signal and per-signal chains); any other request falls into the
not-found tail.  (The metadata bridge installed on the context is not
modelled; the context is threaded unchanged.) -/
def serverMuxServeHTTP {Ctx TReq TResp MReq MResp LReq LResp : Type}
    (mux : ServerMuxState Ctx TReq TResp MReq MResp LReq LResp)
    (tCodec : HTTPBodyCodec TReq) (mCodec : HTTPBodyCodec MReq) (lCodec : HTTPBodyCodec LReq)
    (ctx : Ctx) (r : HttpRequest) :
    HttpResponse (AnyProtoMessage TReq TResp MReq MResp LReq LResp) :=
  if r.path = "/v1/traces" then
    match mux.trace with
    | none => serverMuxNotFound r
    | some e =>
      proxyServeHTTP
        { protoUnmarshal := tCodec.protoUnmarshal, jsonUnmarshal := tCodec.jsonUnmarshal,
          handler := fun ctx req =>
            (traceEntryExport mux.middlewares e ctx req).map AnyProtoMessage.traceResponse }
        ctx r
  else if r.path = "/v1/metrics" then
    match mux.metrics with
    | none => serverMuxNotFound r
    | some e =>
      proxyServeHTTP
        { protoUnmarshal := mCodec.protoUnmarshal, jsonUnmarshal := mCodec.jsonUnmarshal,
          handler := fun ctx req =>
            (metricsEntryExport mux.middlewares e ctx req).map AnyProtoMessage.metricsResponse }
        ctx r
  else if r.path = "/v1/logs" then
    match mux.logs with
    | none => serverMuxNotFound r
    | some e =>
      proxyServeHTTP
        { protoUnmarshal := lCodec.protoUnmarshal, jsonUnmarshal := lCodec.jsonUnmarshal,
          handler := fun ctx req =>
            (logsEntryExport mux.middlewares e ctx req).map AnyProtoMessage.logsResponse }
        ctx r
  else serverMuxNotFound r

/-! ## Part E: the client (`otlp/client.go`, `otlp/client_options.go`)

Connections are an opaque type parameter `Conn`; the `conns` map keyed by
connection fingerprint is an association list.  The gRPC `Export` call and
the HTTP round trip are parameters of the embedded upload functions (the
claims concern what the client does before the call and with its result).
The locking, the per-fingerprint stop contexts and the cancellation
fan-out of `Stop` are elided: the embedded `Stop` is its sequential core.
-/

/-- Embeds the per-signal effective options (`clientSignalsOptions`)
fields that the embedded code paths read. -/
structure ClientSignalsOptions where
  protocol : String
  endpointHost : String
  userAgent : String
  https : Bool
  gzip : Bool
  deriving DecidableEq, Repr

/-- Embeds `clientSignalsOptions.isGRPCProtocol`. -/
def isGRPCProtocol (so : ClientSignalsOptions) : Bool :=
  so.protocol = "grpc"

/-- Embeds the fingerprint of `buildGRPCConnectionInfo`: the source feeds
host, user agent, `"insecure"`/`"tls"` and optionally `"gzip"` to a
sha512 digest.  The digest is embedded as the (separator-joined) digested
tuple itself: only fingerprint equality is observable, and the digest
exists precisely to stand for this tuple. -/
def grpcConnHash (so : ClientSignalsOptions) : String :=
  so.endpointHost ++ "|" ++ so.userAgent ++ "|" ++
    (if ¬ so.https then "insecure" else "tls") ++ "|" ++ (if so.gzip then "gzip" else "")

/-- First value bound to a key in an association list (a Go map lookup). -/
def lookupAssoc {A : Type} (m : List (String × A)) (key : String) : Option A :=
  (m.find? (fun kv => kv.1 = key)).map (fun kv => kv.2)

/-- Embeds the `Client` state the claims observe: the three effective
signal options and the fingerprint-keyed connection table. -/
structure ClientState (Conn : Type) where
  traces : ClientSignalsOptions
  metrics : ClientSignalsOptions
  logs : ClientSignalsOptions
  conns : List (String × Conn)

/-- Embeds the state produced by `NewClient`: an empty connection table. -/
def newClientState {Conn : Type} (traces metrics logs : ClientSignalsOptions) :
    ClientState Conn :=
  { traces := traces, metrics := metrics, logs := logs, conns := [] }

/-- Embeds `Client.startGRPC`: if the signal's fingerprint has no
connection yet, dial one and record it (`dial` stands for
`grpc.NewClient`, which does not fail for the modelled inputs). -/
def startGRPC {Conn : Type} (c : ClientState Conn) (so : ClientSignalsOptions)
    (dial : ClientSignalsOptions → Conn) : ClientState Conn :=
  match lookupAssoc c.conns (grpcConnHash so) with
  | some _ => c
  | none => { c with conns := c.conns ++ [(grpcConnHash so, dial so)] }

/-- Embeds `Client.Start`: open a channel for each gRPC-protocol signal. -/
def clientStart {Conn : Type} (c : ClientState Conn)
    (dial : ClientSignalsOptions → Conn) : ClientState Conn :=
  let c1 := if isGRPCProtocol c.traces then startGRPC c c.traces dial else c
  let c2 := if isGRPCProtocol c1.metrics then startGRPC c1 c1.metrics dial else c1
  if isGRPCProtocol c2.logs then startGRPC c2 c2.logs dial else c2

/-- Embeds `ExportTracePartialSuccess`. -/
structure ExportTracePartialSuccess where
  rejectedSpans : Int
  errorMessage : String
  deriving DecidableEq, Repr

/-- Embeds `coltracepb.ExportTraceServiceResponse`. -/
structure ExportTraceServiceResponse where
  partialSuccess : Option ExportTracePartialSuccess
  deriving DecidableEq, Repr

/-- Embeds `ExportMetricsPartialSuccess`. -/
structure ExportMetricsPartialSuccess where
  rejectedDataPoints : Int
  errorMessage : String
  deriving DecidableEq, Repr

/-- Embeds `colmetricpb.ExportMetricsServiceResponse`. -/
structure ExportMetricsServiceResponse where
  partialSuccess : Option ExportMetricsPartialSuccess
  deriving DecidableEq, Repr

/-- Embeds `ExportLogsPartialSuccess`. -/
structure ExportLogsPartialSuccess where
  rejectedLogRecords : Int
  errorMessage : String
  deriving DecidableEq, Repr

/-- Embeds `collogspb.ExportLogsServiceResponse`. -/
structure ExportLogsServiceResponse where
  partialSuccess : Option ExportLogsPartialSuccess
  deriving DecidableEq, Repr

/-- Embeds `UploadTracesPartialSuccessError`: the typed error value
carrying the full response. -/
structure UploadTracesPartialSuccessError where
  resp : ExportTraceServiceResponse
  deriving DecidableEq, Repr

/-- Embeds the `Response()` accessor of `UploadTracesPartialSuccessError`. -/
def UploadTracesPartialSuccessError.Response (e : UploadTracesPartialSuccessError) :
    ExportTraceServiceResponse :=
  e.resp

/-- Embeds `UploadMetricsPartialSuccessError`. -/
structure UploadMetricsPartialSuccessError where
  resp : ExportMetricsServiceResponse
  deriving DecidableEq, Repr

/-- Embeds the `Response()` accessor of `UploadMetricsPartialSuccessError`. -/
def UploadMetricsPartialSuccessError.Response (e : UploadMetricsPartialSuccessError) :
    ExportMetricsServiceResponse :=
  e.resp

/-- Embeds `UploadLogsPartialSuccessError`. -/
structure UploadLogsPartialSuccessError where
  resp : ExportLogsServiceResponse
  deriving DecidableEq, Repr

/-- Embeds the `Response()` accessor of `UploadLogsPartialSuccessError`. -/
def UploadLogsPartialSuccessError.Response (e : UploadLogsPartialSuccessError) :
    ExportLogsServiceResponse :=
  e.resp

/-- The distinguishable non-nil `error` values an upload can return:
`ErrNotStarted`, a transport error (for gRPC: the status-carrying error
returned by `Export`; for HTTP: the wrapped message of the `fmt.Errorf`
failure), or the signal's typed partial-success error.  `ok` is a nil
error. -/
inductive UploadResult (E : Type) where
  | ok
  | errNotStarted
  | transportError (st : GrpcStatus)
  | otherError (msg : String)
  | partialSuccessError (e : E)
  deriving DecidableEq, Repr

/-- Outcome of one gRPC `Export` call, as the client sees it: the `error`
return (as an optional status; `status.Code(nil)` is `OK`) and the
response pointer (`none` models nil). -/
structure GrpcCallOutcome (Resp : Type) where
  callError : Option GrpcStatus
  resp : Option Resp
  deriving Repr

/-- Embeds `Client.uploadTracesWithGRPC`: missing or nil connection for
the signal's fingerprint means `ErrNotStarted`; a call error with a
non-OK code is returned as is; then a non-nil response with a non-nil
`PartialSuccess` is surfaced as `UploadTracesPartialSuccessError`.  The
call itself (`serviceClient.Export` with the per-call context) is the
`callExport` parameter. -/
def uploadTracesWithGRPC {Conn : Type} (c : ClientState Conn)
    (callExport : Conn → GrpcCallOutcome ExportTraceServiceResponse) :
    UploadResult UploadTracesPartialSuccessError :=
  match lookupAssoc c.conns (grpcConnHash c.traces) with
  | none => UploadResult.errNotStarted
  | some conn =>
    let outcome := callExport conn
    match outcome.callError with
    | some st =>
      if st.code ≠ codesOK then UploadResult.transportError st
      else
        match outcome.resp with
        | some resp =>
          if resp.partialSuccess.isSome then
            UploadResult.partialSuccessError { resp := resp }
          else UploadResult.ok
        | none => UploadResult.ok
    | none =>
      match outcome.resp with
      | some resp =>
        if resp.partialSuccess.isSome then
          UploadResult.partialSuccessError { resp := resp }
        else UploadResult.ok
      | none => UploadResult.ok

/-- Embeds `Client.uploadMetricsWithGRPC`. -/
def uploadMetricsWithGRPC {Conn : Type} (c : ClientState Conn)
    (callExport : Conn → GrpcCallOutcome ExportMetricsServiceResponse) :
    UploadResult UploadMetricsPartialSuccessError :=
  match lookupAssoc c.conns (grpcConnHash c.metrics) with
  | none => UploadResult.errNotStarted
  | some conn =>
    let outcome := callExport conn
    match outcome.callError with
    | some st =>
      if st.code ≠ codesOK then UploadResult.transportError st
      else
        match outcome.resp with
        | some resp =>
          if resp.partialSuccess.isSome then
            UploadResult.partialSuccessError { resp := resp }
          else UploadResult.ok
        | none => UploadResult.ok
    | none =>
      match outcome.resp with
      | some resp =>
        if resp.partialSuccess.isSome then
          UploadResult.partialSuccessError { resp := resp }
        else UploadResult.ok
      | none => UploadResult.ok

/-- Embeds `Client.uploadLogsWithGRPC`. -/
def uploadLogsWithGRPC {Conn : Type} (c : ClientState Conn)
    (callExport : Conn → GrpcCallOutcome ExportLogsServiceResponse) :
    UploadResult UploadLogsPartialSuccessError :=
  match lookupAssoc c.conns (grpcConnHash c.logs) with
  | none => UploadResult.errNotStarted
  | some conn =>
    let outcome := callExport conn
    match outcome.callError with
    | some st =>
      if st.code ≠ codesOK then UploadResult.transportError st
      else
        match outcome.resp with
        | some resp =>
          if resp.partialSuccess.isSome then
            UploadResult.partialSuccessError { resp := resp }
          else UploadResult.ok
        | none => UploadResult.ok
    | none =>
      match outcome.resp with
      | some resp =>
        if resp.partialSuccess.isSome then
          UploadResult.partialSuccessError { resp := resp }
        else UploadResult.ok
      | none => UploadResult.ok

/-- The HTTP response to one upload request, as the client sees it after
transport: status code, response `Content-Type`, and the response message
its body holds (body bytes and their decoding are elided: decoding of a
recognized content type yields the message the server marshalled). -/
structure HttpCallOutcome (Resp : Type) where
  statusCode : Nat
  contentType : String
  resp : Resp
  deriving Repr

/-- Embeds `Client.uploadTracesWithHTTP` from the response check on: a
non-200 status is an error; the body is decoded per the response content
type (protobuf or JSON, anything else an error); a non-nil
`PartialSuccess` in the decoded response is surfaced as
`UploadTracesPartialSuccessError`. -/
def uploadTracesWithHTTP (outcome : HttpCallOutcome ExportTraceServiceResponse) :
    UploadResult UploadTracesPartialSuccessError :=
  if outcome.statusCode ≠ 200 then UploadResult.otherError "unexpected status code"
  else if outcome.contentType = "application/x-protobuf" ∨
      outcome.contentType = "application/json" then
    if outcome.resp.partialSuccess.isSome then
      UploadResult.partialSuccessError { resp := outcome.resp }
    else UploadResult.ok
  else UploadResult.otherError "unexpected content type"

/-- Embeds `Client.uploadMetricsWithHTTP` (response handling). -/
def uploadMetricsWithHTTP (outcome : HttpCallOutcome ExportMetricsServiceResponse) :
    UploadResult UploadMetricsPartialSuccessError :=
  if outcome.statusCode ≠ 200 then UploadResult.otherError "unexpected status code"
  else if outcome.contentType = "application/x-protobuf" ∨
      outcome.contentType = "application/json" then
    if outcome.resp.partialSuccess.isSome then
      UploadResult.partialSuccessError { resp := outcome.resp }
    else UploadResult.ok
  else UploadResult.otherError "unexpected content type"

/-- Embeds `Client.uploadLogsWithHTTP` (response handling). -/
def uploadLogsWithHTTP (outcome : HttpCallOutcome ExportLogsServiceResponse) :
    UploadResult UploadLogsPartialSuccessError :=
  if outcome.statusCode ≠ 200 then UploadResult.otherError "unexpected status code"
  else if outcome.contentType = "application/x-protobuf" ∨
      outcome.contentType = "application/json" then
    if outcome.resp.partialSuccess.isSome then
      UploadResult.partialSuccessError { resp := outcome.resp }
    else UploadResult.ok
  else UploadResult.otherError "unexpected content type"

/-- Embeds `Client.UploadTraces`: dispatch on the signal's protocol under
the read lock (`httpCall` stands for the whole HTTP round trip of
`uploadTracesWithHTTP` up to the response check). -/
def UploadTraces {Conn : Type} (c : ClientState Conn)
    (callExport : Conn → GrpcCallOutcome ExportTraceServiceResponse)
    (httpCall : HttpCallOutcome ExportTraceServiceResponse) :
    UploadResult UploadTracesPartialSuccessError :=
  if isGRPCProtocol c.traces then uploadTracesWithGRPC c callExport
  else uploadTracesWithHTTP httpCall

/-- Embeds `Client.UploadMetrics`. -/
def UploadMetrics {Conn : Type} (c : ClientState Conn)
    (callExport : Conn → GrpcCallOutcome ExportMetricsServiceResponse)
    (httpCall : HttpCallOutcome ExportMetricsServiceResponse) :
    UploadResult UploadMetricsPartialSuccessError :=
  if isGRPCProtocol c.metrics then uploadMetricsWithGRPC c callExport
  else uploadMetricsWithHTTP httpCall

/-- Embeds `Client.UploadLogs`. -/
def UploadLogs {Conn : Type} (c : ClientState Conn)
    (callExport : Conn → GrpcCallOutcome ExportLogsServiceResponse)
    (httpCall : HttpCallOutcome ExportLogsServiceResponse) :
    UploadResult UploadLogsPartialSuccessError :=
  if isGRPCProtocol c.logs then uploadLogsWithGRPC c callExport
  else uploadLogsWithHTTP httpCall

/-- Result of `Client.Stop`. -/
inductive StopResult where
  | ok
  | errAlreadyClosed
  deriving DecidableEq, Repr

/-- Embeds the sequential core of `Client.Stop`: once the write lock is
held, an empty connection table returns `ErrAlreadyClosed` (before any
state is cleared); otherwise every connection is closed and the
fingerprint-keyed tables are reset (`conn.Close` errors are not
modelled).  The lock acquisition and the cancellation of the stop
contexts on an already-cancelled caller context do not affect this
result. -/
def clientStop {Conn : Type} (c : ClientState Conn) : StopResult × ClientState Conn :=
  if c.conns.isEmpty then (StopResult.errAlreadyClosed, c)
  else (StopResult.ok, { c with conns := [] })

/-! ## Concrete fixtures used by the witnesses

The identifier values are the ones of the repository's `testdata/trace.json`
fixture: trace id `5B8EFFF798038103D269B633813FC60C`, span id
`EEE19B7EC3C1B174` (whose standard base64 encodings are
`W47/95gDgQPSabYzgT/GDA==` and `7uGbfsPBsXQ=`).
-/

/-- Sixteen-byte fixture trace id. -/
def fixtureTraceId : List Nat :=
  [91, 142, 255, 247, 152, 3, 129, 3, 210, 105, 182, 51, 129, 63, 198, 12]

/-- Eight-byte fixture span id. -/
def fixtureSpanId : List Nat :=
  [238, 225, 155, 126, 195, 193, 177, 116]

/-- Fixture span with the identifiers above. -/
def fixtureSpan : PBSpan :=
  { traceId := fixtureTraceId, spanId := fixtureSpanId, parentSpanId := [],
    name := "lets-go", kind := 2 }

/-- Fixture trace export message: one resource, one scope, one span. -/
def fixtureTracesData : TracesData :=
  { resourceSpans :=
      [{ resource := some { attributes := [{ key := "service.name", value := some "my.service" }] },
         scopeSpans :=
           [{ scope := some { name := "my.library", version := "1.0.0" },
              spans := [fixtureSpan], schemaUrl := "" }],
         schemaUrl := "" }] }

/-- Fixture signal options for a gRPC-protocol signal. -/
def fixtureGRPCOptions : ClientSignalsOptions :=
  { protocol := "grpc", endpointHost := "localhost:4317", userAgent := "test-agent",
    https := false, gzip := false }

/-- Fixture signal options for an HTTP-protocol signal. -/
def fixtureHTTPOptions : ClientSignalsOptions :=
  { protocol := "http/json", endpointHost := "localhost:4318", userAgent := "test-agent",
    https := false, gzip := false }

/-! ## Theorems

First the two client claims, then the server claims, then the signal
algebra, then the JSON codec.
-/

/-- C9: for every client whose signal protocol is the binary-RPC protocol,
calling `UploadTraces` / `UploadMetrics` / `UploadLogs` before `Start` has
opened the signal's channel returns the not-started error; and calling
`Stop` on a client for which no channel was ever opened (in particular a
freshly constructed client, or one whose `Start` had no gRPC-protocol
signal to open a channel for) returns the already-closed error. -/
theorem C9_lifecycle_errors {Conn : Type} (c : ClientState Conn)
    (tCall : Conn → GrpcCallOutcome ExportTraceServiceResponse)
    (mCall : Conn → GrpcCallOutcome ExportMetricsServiceResponse)
    (lCall : Conn → GrpcCallOutcome ExportLogsServiceResponse)
    (tHttp : HttpCallOutcome ExportTraceServiceResponse)
    (mHttp : HttpCallOutcome ExportMetricsServiceResponse)
    (lHttp : HttpCallOutcome ExportLogsServiceResponse) :
    (isGRPCProtocol c.traces = true →
      lookupAssoc c.conns (grpcConnHash c.traces) = none →
      UploadTraces c tCall tHttp = UploadResult.errNotStarted) ∧
    (isGRPCProtocol c.metrics = true →
      lookupAssoc c.conns (grpcConnHash c.metrics) = none →
      UploadMetrics c mCall mHttp = UploadResult.errNotStarted) ∧
    (isGRPCProtocol c.logs = true →
      lookupAssoc c.conns (grpcConnHash c.logs) = none →
      UploadLogs c lCall lHttp = UploadResult.errNotStarted) ∧
    (c.conns = [] → (clientStop c).1 = StopResult.errAlreadyClosed) ∧
    (∀ t m l : ClientSignalsOptions, ∀ dial : ClientSignalsOptions → Conn,
      isGRPCProtocol t = false → isGRPCProtocol m = false → isGRPCProtocol l = false →
      (clientStop (clientStart (newClientState t m l) dial)).1 =
        StopResult.errAlreadyClosed) := by
  refine ⟨fun hp hconn => ?_, fun hp hconn => ?_, fun hp hconn => ?_, fun hempty => ?_, ?_⟩
  · simp [UploadTraces, hp, uploadTracesWithGRPC, hconn]
  · simp [UploadMetrics, hp, uploadMetricsWithGRPC, hconn]
  · simp [UploadLogs, hp, uploadLogsWithGRPC, hconn]
  · simp [clientStop, hempty]
  · intro t m l dial ht hm hl
    simp [clientStart, newClientState, ht, hm, hl, clientStop]

/-- Witness for C9: a fresh all-defaults client whose traces signal is
gRPC has no channel, so the upload is rejected and `Stop` reports
already-closed. -/
theorem C9_lifecycle_errors_witness :
    (isGRPCProtocol fixtureGRPCOptions = true ∧
      lookupAssoc (@newClientState Unit fixtureGRPCOptions fixtureHTTPOptions
          fixtureHTTPOptions).conns (grpcConnHash fixtureGRPCOptions) = none) ∧
    UploadTraces (@newClientState Unit fixtureGRPCOptions fixtureHTTPOptions
        fixtureHTTPOptions)
      (fun _ => { callError := none, resp := none })
      { statusCode := 200, contentType := "application/json",
        resp := { partialSuccess := none } } = UploadResult.errNotStarted ∧
    (clientStop (@newClientState Unit fixtureGRPCOptions fixtureHTTPOptions
        fixtureHTTPOptions)).1 = StopResult.errAlreadyClosed := by
  refine ⟨⟨by decide, by decide⟩, ?_, ?_⟩
  · exact (@C9_lifecycle_errors Unit
      (newClientState fixtureGRPCOptions fixtureHTTPOptions fixtureHTTPOptions)
      (fun _ => { callError := none, resp := none })
      (fun _ => { callError := none, resp := none })
      (fun _ => { callError := none, resp := none })
      { statusCode := 200, contentType := "application/json", resp := { partialSuccess := none } }
      { statusCode := 200, contentType := "application/json", resp := { partialSuccess := none } }
      { statusCode := 200, contentType := "application/json",
        resp := { partialSuccess := none } }).1 (by decide) (by decide)
  · exact (@C9_lifecycle_errors Unit
      (newClientState fixtureGRPCOptions fixtureHTTPOptions fixtureHTTPOptions)
      (fun _ => { callError := none, resp := none })
      (fun _ => { callError := none, resp := none })
      (fun _ => { callError := none, resp := none })
      { statusCode := 200, contentType := "application/json", resp := { partialSuccess := none } }
      { statusCode := 200, contentType := "application/json", resp := { partialSuccess := none } }
      { statusCode := 200, contentType := "application/json",
        resp := { partialSuccess := none } }).2.2.2.1 (by decide)

/-- C10: for every export response received by an upload (over either
transport), the upload returns the signal-specific partial-success error
whenever the response's partial-success sub-message is present (non-nil) —
its rejected count and error message are not consulted, so a fully
accepted response carrying an empty partial-success field is still
reported as an error — and the full response is recoverable from the
error value through `Response()`. -/
theorem C10_partial_success_surfaced {Conn : Type} :
    (∀ (c : ClientState Conn) (conn : Conn)
        (callExport : Conn → GrpcCallOutcome ExportTraceServiceResponse)
        (tHttp : HttpCallOutcome ExportTraceServiceResponse)
        (resp : ExportTraceServiceResponse),
      isGRPCProtocol c.traces = true →
      lookupAssoc c.conns (grpcConnHash c.traces) = some conn →
      callExport conn = { callError := none, resp := some resp } →
      resp.partialSuccess.isSome = true →
      UploadTraces c callExport tHttp =
        UploadResult.partialSuccessError { resp := resp } ∧
      UploadTracesPartialSuccessError.Response { resp := resp } = resp) ∧
    (∀ (outcome : HttpCallOutcome ExportTraceServiceResponse),
      outcome.statusCode = 200 →
      (outcome.contentType = "application/x-protobuf" ∨
        outcome.contentType = "application/json") →
      outcome.resp.partialSuccess.isSome = true →
      uploadTracesWithHTTP outcome =
        UploadResult.partialSuccessError { resp := outcome.resp }) ∧
    (∀ (c : ClientState Conn) (conn : Conn)
        (callExport : Conn → GrpcCallOutcome ExportMetricsServiceResponse)
        (mHttp : HttpCallOutcome ExportMetricsServiceResponse)
        (resp : ExportMetricsServiceResponse),
      isGRPCProtocol c.metrics = true →
      lookupAssoc c.conns (grpcConnHash c.metrics) = some conn →
      callExport conn = { callError := none, resp := some resp } →
      resp.partialSuccess.isSome = true →
      UploadMetrics c callExport mHttp =
        UploadResult.partialSuccessError { resp := resp } ∧
      UploadMetricsPartialSuccessError.Response { resp := resp } = resp) ∧
    (∀ (outcome : HttpCallOutcome ExportMetricsServiceResponse),
      outcome.statusCode = 200 →
      (outcome.contentType = "application/x-protobuf" ∨
        outcome.contentType = "application/json") →
      outcome.resp.partialSuccess.isSome = true →
      uploadMetricsWithHTTP outcome =
        UploadResult.partialSuccessError { resp := outcome.resp }) ∧
    (∀ (c : ClientState Conn) (conn : Conn)
        (callExport : Conn → GrpcCallOutcome ExportLogsServiceResponse)
        (lHttp : HttpCallOutcome ExportLogsServiceResponse)
        (resp : ExportLogsServiceResponse),
      isGRPCProtocol c.logs = true →
      lookupAssoc c.conns (grpcConnHash c.logs) = some conn →
      callExport conn = { callError := none, resp := some resp } →
      resp.partialSuccess.isSome = true →
      UploadLogs c callExport lHttp =
        UploadResult.partialSuccessError { resp := resp } ∧
      UploadLogsPartialSuccessError.Response { resp := resp } = resp) ∧
    (∀ (outcome : HttpCallOutcome ExportLogsServiceResponse),
      outcome.statusCode = 200 →
      (outcome.contentType = "application/x-protobuf" ∨
        outcome.contentType = "application/json") →
      outcome.resp.partialSuccess.isSome = true →
      uploadLogsWithHTTP outcome =
        UploadResult.partialSuccessError { resp := outcome.resp }) := by
  refine ⟨?_, ?_, ?_, ?_, ?_, ?_⟩
  · intro c conn callExport tHttp resp hp hconn hcall hps
    exact ⟨by simp [UploadTraces, hp, uploadTracesWithGRPC, hconn, hcall, hps], rfl⟩
  · intro outcome hsc hct hps
    simp only [uploadTracesWithHTTP, hsc, hps]
    simp [hct]
  · intro c conn callExport mHttp resp hp hconn hcall hps
    exact ⟨by simp [UploadMetrics, hp, uploadMetricsWithGRPC, hconn, hcall, hps], rfl⟩
  · intro outcome hsc hct hps
    simp only [uploadMetricsWithHTTP, hsc, hps]
    simp [hct]
  · intro c conn callExport lHttp resp hp hconn hcall hps
    exact ⟨by simp [UploadLogs, hp, uploadLogsWithGRPC, hconn, hcall, hps], rfl⟩
  · intro outcome hsc hct hps
    simp only [uploadLogsWithHTTP, hsc, hps]
    simp [hct]

/-- Witness for C10: a started client receives a response whose
partial-success field is present but carries rejected count `0` and an
empty message; the upload still returns the typed partial-success error
carrying that response. -/
theorem C10_partial_success_surfaced_witness :
    (isGRPCProtocol fixtureGRPCOptions = true ∧
      lookupAssoc [(grpcConnHash fixtureGRPCOptions, ())] (grpcConnHash fixtureGRPCOptions) =
        some () ∧
      (({ partialSuccess := some { rejectedSpans := 0, errorMessage := "" } } :
          ExportTraceServiceResponse).partialSuccess.isSome = true)) ∧
    @UploadTraces Unit
      { traces := fixtureGRPCOptions, metrics := fixtureHTTPOptions,
        logs := fixtureHTTPOptions, conns := [(grpcConnHash fixtureGRPCOptions, ())] }
      (fun _ =>
        { callError := none,
          resp := some { partialSuccess := some { rejectedSpans := 0, errorMessage := "" } } })
      { statusCode := 200, contentType := "application/json",
        resp := { partialSuccess := none } } =
      UploadResult.partialSuccessError
        { resp := { partialSuccess := some { rejectedSpans := 0, errorMessage := "" } } } := by
  refine ⟨⟨by decide, by decide, by decide⟩, ?_⟩
  exact ((@C10_partial_success_surfaced Unit).1
    { traces := fixtureGRPCOptions, metrics := fixtureHTTPOptions,
      logs := fixtureHTTPOptions, conns := [(grpcConnHash fixtureGRPCOptions, ())] }
    ()
    (fun _ =>
      { callError := none,
        resp := some { partialSuccess := some { rejectedSpans := 0, errorMessage := "" } } })
    { statusCode := 200, contentType := "application/json", resp := { partialSuccess := none } }
    { partialSuccess := some { rejectedSpans := 0, errorMessage := "" } }
    (by decide) (by decide) rfl (by decide)).1

/-- Applying the chained middleware of `mw :: ms` to a handler wraps the
chain of `ms` in `mw` (the source's backwards loop builds exactly this
composition). -/
theorem chainedMiddleware_cons {Ctx Msg : Type} (mw : MiddlewareFunc Ctx Msg)
    (ms : List (MiddlewareFunc Ctx Msg)) (h : ProtoHandlerFunc Ctx Msg) :
    chainedMiddleware (mw :: ms) h = mw (chainedMiddleware ms h) := by
  cases ms <;> rfl

/-- The chained cross-signal probe middlewares write their labels in
registration order before the inner handler runs. -/
theorem chainedMiddleware_probe {Msg : Type} (labels : List String)
    (next : ProtoHandlerFunc (List String) Msg) (ctx : List String) (pm : Msg) :
    chainedMiddleware (labels.map probeMiddleware) next ctx pm = next (ctx ++ labels) pm := by
  induction labels generalizing ctx with
  | nil => simp [chainedMiddleware]
  | cons l rest ih =>
    rw [List.map_cons, chainedMiddleware_cons]
    show chainedMiddleware (rest.map probeMiddleware) next (ctx ++ [l]) pm = _
    rw [ih]
    simp

/-- The per-signal probe middlewares wrapped by `getHandler` write their
labels in registration order before the base handler runs. -/
theorem signalEntryGetHandler_probe {Req Resp : Type} (labels : List String)
    (h0 : SignalHandler (List String) Req Resp) (ctx : List String) (r : Req) :
    (labels.map signalProbeMiddleware).foldr (fun mw wrapped => mw wrapped) h0 ctx r =
      h0 (ctx ++ labels) r := by
  induction labels generalizing ctx with
  | nil => simp
  | cons l rest ih =>
    show (rest.map signalProbeMiddleware).foldr (fun mw w => mw w) h0 (ctx ++ [l]) r = _
    rw [ih]
    simp

/-- C6: for every request dispatched to a registered handler (over the
binary-RPC transport via `Export`, and over HTTP via the mux path that
invokes the same `Export`), the cross-signal chain fully wraps the
per-signal chain and within each layer the first registered middleware is
outermost: a handler observing the context sees the initial context, then
the cross-signal probe writes in registration order, then the per-signal
probe writes in registration order. -/
theorem C6_middleware_order {TReq MReq MResp LReq LResp : Type} :
    (∀ (ctx0 crossLabels perLabels : List String) (req : TReq),
      @traceEntryExport (List String) TReq (List String) MReq MResp LReq LResp
          (crossLabels.map probeMiddleware)
          { middlewares := perLabels.map signalProbeMiddleware,
            h := some (fun ctx _ => Except.ok ctx) } ctx0 req =
        Except.ok (ctx0 ++ crossLabels ++ perLabels)) ∧
    (∀ (ctx0 crossLabels perLabels : List String)
        (tCodec : HTTPBodyCodec TReq) (mCodec : HTTPBodyCodec MReq)
        (lCodec : HTTPBodyCodec LReq) (body : List Nat) (req : TReq),
      tCodec.protoUnmarshal body = Except.ok req →
      @serverMuxServeHTTP (List String) TReq (List String) MReq MResp LReq LResp
          { middlewares := crossLabels.map probeMiddleware,
            trace := some { middlewares := perLabels.map signalProbeMiddleware,
                            h := some (fun ctx _ => Except.ok ctx) },
            metrics := none, logs := none }
          tCodec mCodec lCodec ctx0
          { method := "POST", path := "/v1/traces",
            contentType := "application/x-protobuf", body := body } =
        { status := 200, contentType := "application/x-protobuf",
          body := HttpResponseBody.protoMessage
            (AnyProtoMessage.traceResponse (ctx0 ++ crossLabels ++ perLabels)) }) := by
  have hexp : ∀ (ctx0 crossLabels perLabels : List String) (req : TReq),
      @traceEntryExport (List String) TReq (List String) MReq MResp LReq LResp
          (crossLabels.map probeMiddleware)
          { middlewares := perLabels.map signalProbeMiddleware,
            h := some (fun ctx _ => Except.ok ctx) } ctx0 req =
        Except.ok (ctx0 ++ crossLabels ++ perLabels) := by
    intro ctx0 crossLabels perLabels req
    unfold traceEntryExport signalEntryGetHandler
    simp only [chainedMiddleware_probe]
    rw [signalEntryGetHandler_probe]
    simp [Except.map]
  refine ⟨hexp, ?_⟩
  intro ctx0 crossLabels perLabels tCodec mCodec lCodec body req hdec
  simp only [serverMuxServeHTTP, proxyServeHTTP, proxyServeHTTPWithProto]
  simp [hdec, hexp ctx0 crossLabels perLabels req, Except.map]

/-- Witness for C6: two cross-signal probes and one per-signal probe; the
handler observes `["cross1", "cross2", "per1"]` after the initial empty
context, over both transports. -/
theorem C6_middleware_order_witness :
    @traceEntryExport (List String) Unit (List String) Unit Unit Unit Unit
        (["cross1", "cross2"].map probeMiddleware)
        { middlewares := ["per1"].map signalProbeMiddleware,
          h := some (fun ctx _ => Except.ok ctx) } [] () =
      Except.ok ["cross1", "cross2", "per1"] ∧
    ((fun (_ : List Nat) => Except.ok ()) [] = (Except.ok () : Except String Unit)) ∧
    @serverMuxServeHTTP (List String) Unit (List String) Unit Unit Unit Unit
        { middlewares := ["cross1", "cross2"].map probeMiddleware,
          trace := some { middlewares := ["per1"].map signalProbeMiddleware,
                          h := some (fun ctx _ => Except.ok ctx) },
          metrics := none, logs := none }
        { protoUnmarshal := fun _ => Except.ok (), jsonUnmarshal := fun _ => Except.ok () }
        { protoUnmarshal := fun _ => Except.ok (), jsonUnmarshal := fun _ => Except.ok () }
        { protoUnmarshal := fun _ => Except.ok (), jsonUnmarshal := fun _ => Except.ok () }
        []
        { method := "POST", path := "/v1/traces",
          contentType := "application/x-protobuf", body := [] } =
      { status := 200, contentType := "application/x-protobuf",
        body := HttpResponseBody.protoMessage
          (AnyProtoMessage.traceResponse ["cross1", "cross2", "per1"]) } := by
  refine ⟨?_, rfl, ?_⟩
  · exact (@C6_middleware_order Unit Unit Unit Unit Unit).1 [] ["cross1", "cross2"] ["per1"] ()
  · exact (@C6_middleware_order Unit Unit Unit Unit Unit).2 [] ["cross1", "cross2"] ["per1"]
      { protoUnmarshal := fun _ => Except.ok (), jsonUnmarshal := fun _ => Except.ok () }
      { protoUnmarshal := fun _ => Except.ok (), jsonUnmarshal := fun _ => Except.ok () }
      { protoUnmarshal := fun _ => Except.ok (), jsonUnmarshal := fun _ => Except.ok () }
      [] () rfl

/-- Counterexample to C7 as stated: a mux whose trace entry exists (it was
created by `Trace()`, registering the `/v1/traces` route) but has no
handler registered (`h = none`).  The claim says an HTTP request for that
signal's path returns status 404; the code instead surfaces the
`Unimplemented` status of `Export`, which the bridge maps to HTTP 501. -/
theorem C7_counterexample :
    @serverMuxServeHTTP Unit Unit Unit Unit Unit Unit Unit
        { middlewares := [],
          trace := some { middlewares := [], h := none },
          metrics := none, logs := none }
        { protoUnmarshal := fun _ => Except.ok (), jsonUnmarshal := fun _ => Except.ok () }
        { protoUnmarshal := fun _ => Except.ok (), jsonUnmarshal := fun _ => Except.ok () }
        { protoUnmarshal := fun _ => Except.ok (), jsonUnmarshal := fun _ => Except.ok () }
        ()
        { method := "POST", path := "/v1/traces",
          contentType := "application/x-protobuf", body := [] } =
      errorProto unimplementedExportStatus ∧
    (@errorProto (AnyProtoMessage Unit Unit Unit Unit Unit Unit) unimplementedExportStatus).status = 501 ∧
    (501 : Nat) ≠ 404 := by
  exact ⟨rfl, rfl, by decide⟩

/-- C7 (amended): for every signal with no handler registered, an export
call over the binary-RPC transport returns the `Unimplemented` status.
On the HTTP side the behavior depends on whether the signal's entry was
ever created: if it was not, its path is unrouted and the request gets
status 404 with the codec-appropriate error body when the content type is
recognisable (else plaintext); if the entry exists but carries no
handler, the decoded request reaches `Export`, whose `Unimplemented`
status the bridge maps to HTTP 501, not 404. -/
theorem C7_unregistered_handler_amended
    {Ctx TReq TResp MReq MResp LReq LResp : Type} :
    (∀ (muxMiddlewares :
        List (MiddlewareFunc Ctx (AnyProtoMessage TReq TResp MReq MResp LReq LResp)))
        (e : SignalEntryState Ctx TReq TResp) (ctx : Ctx) (req : TReq),
      e.h = none →
      traceEntryExport muxMiddlewares e ctx req = Except.error unimplementedExportStatus) ∧
    (∀ (muxMiddlewares :
        List (MiddlewareFunc Ctx (AnyProtoMessage TReq TResp MReq MResp LReq LResp)))
        (e : SignalEntryState Ctx MReq MResp) (ctx : Ctx) (req : MReq),
      e.h = none →
      metricsEntryExport muxMiddlewares e ctx req = Except.error unimplementedExportStatus) ∧
    (∀ (muxMiddlewares :
        List (MiddlewareFunc Ctx (AnyProtoMessage TReq TResp MReq MResp LReq LResp)))
        (e : SignalEntryState Ctx LReq LResp) (ctx : Ctx) (req : LReq),
      e.h = none →
      logsEntryExport muxMiddlewares e ctx req = Except.error unimplementedExportStatus) ∧
    (∀ (mux : ServerMuxState Ctx TReq TResp MReq MResp LReq LResp)
        (tCodec : HTTPBodyCodec TReq) (mCodec : HTTPBodyCodec MReq)
        (lCodec : HTTPBodyCodec LReq) (ctx : Ctx) (r : HttpRequest),
      mux.trace = none → r.path = "/v1/traces" →
      serverMuxServeHTTP mux tCodec mCodec lCodec ctx r = serverMuxNotFound r ∧
      (@serverMuxNotFound TReq TResp MReq MResp LReq LResp r).status = 404) ∧
    (∀ (mux : ServerMuxState Ctx TReq TResp MReq MResp LReq LResp)
        (e : SignalEntryState Ctx TReq TResp)
        (tCodec : HTTPBodyCodec TReq) (mCodec : HTTPBodyCodec MReq)
        (lCodec : HTTPBodyCodec LReq) (ctx : Ctx) (r : HttpRequest) (req : TReq),
      mux.trace = some e → e.h = none → r.path = "/v1/traces" → r.method = "POST" →
      r.contentType = "application/x-protobuf" →
      tCodec.protoUnmarshal r.body = Except.ok req →
      serverMuxServeHTTP mux tCodec mCodec lCodec ctx r =
        errorProto unimplementedExportStatus ∧
      (@errorProto (AnyProtoMessage TReq TResp MReq MResp LReq LResp)
        unimplementedExportStatus).status = 501) := by
  have htr : ∀ (muxMiddlewares :
      List (MiddlewareFunc Ctx (AnyProtoMessage TReq TResp MReq MResp LReq LResp)))
      (e : SignalEntryState Ctx TReq TResp) (ctx : Ctx) (req : TReq),
      e.h = none →
      traceEntryExport muxMiddlewares e ctx req = Except.error unimplementedExportStatus := by
    intro mws e ctx req hh
    unfold traceEntryExport signalEntryGetHandler
    simp [hh]
  refine ⟨htr, ?_, ?_, ?_, ?_⟩
  · intro mws e ctx req hh
    unfold metricsEntryExport signalEntryGetHandler
    simp [hh]
  · intro mws e ctx req hh
    unfold logsEntryExport signalEntryGetHandler
    simp [hh]
  · intro mux tCodec mCodec lCodec ctx r htrace hpath
    constructor
    · simp [serverMuxServeHTTP, hpath, htrace]
    · unfold serverMuxNotFound
      split
      · rfl
      · split <;> rfl
  · intro mux e tCodec mCodec lCodec ctx r req htrace hh hpath hmethod hct hdec
    constructor
    · simp only [serverMuxServeHTTP, hpath, if_true, htrace]
      simp only [proxyServeHTTP, hmethod, hct]
      simp [proxyServeHTTPWithProto, hdec, htr mux.middlewares e ctx req hh, Except.map]
    · rfl

/-- Witness for C7 (amended): an unrouted trace path gets 404, and an
entry without a handler answers `Unimplemented` over the binary-RPC
transport. -/
theorem C7_unregistered_handler_amended_witness :
    @traceEntryExport Unit Unit Unit Unit Unit Unit Unit
        [] { middlewares := [], h := none } () () =
      Except.error unimplementedExportStatus ∧
    @serverMuxServeHTTP Unit Unit Unit Unit Unit Unit Unit
        { middlewares := [], trace := none, metrics := none, logs := none }
        { protoUnmarshal := fun _ => Except.ok (), jsonUnmarshal := fun _ => Except.ok () }
        { protoUnmarshal := fun _ => Except.ok (), jsonUnmarshal := fun _ => Except.ok () }
        { protoUnmarshal := fun _ => Except.ok (), jsonUnmarshal := fun _ => Except.ok () }
        ()
        { method := "POST", path := "/v1/traces",
          contentType := "application/json", body := [] } =
      serverMuxNotFound
        { method := "POST", path := "/v1/traces",
          contentType := "application/json", body := [] } := by
  constructor
  · exact (@C7_unregistered_handler_amended Unit Unit Unit Unit Unit Unit Unit).1
      [] { middlewares := [], h := none } () () rfl
  · exact ((@C7_unregistered_handler_amended Unit Unit Unit Unit Unit Unit Unit).2.2.2.1
      { middlewares := [], trace := none, metrics := none, logs := none }
      { protoUnmarshal := fun _ => Except.ok (), jsonUnmarshal := fun _ => Except.ok () }
      { protoUnmarshal := fun _ => Except.ok (), jsonUnmarshal := fun _ => Except.ok () }
      { protoUnmarshal := fun _ => Except.ok (), jsonUnmarshal := fun _ => Except.ok () }
      ()
      { method := "POST", path := "/v1/traces",
        contentType := "application/json", body := [] } rfl rfl).1

/-- Counterexample to C8 as stated: an HTTP POST with Content-Type
`application/json` and a zero-byte body.  The claim says decoding yields
the zero-valued request, which is propagated to the handler and not
rejected; the code instead calls `protojson.Unmarshal` on the empty
bytes, which is a JSON syntax error, so the request is rejected with
`InvalidArgument` (HTTP 400) and the handler never runs. -/
theorem C8_counterexample :
    protojsonUnmarshalTraceRequest [] = Except.error "syntax error" ∧
    @proxyServeHTTP Unit TracesData Unit
        { protoUnmarshal := fun _ => Except.ok zeroTraceRequest,
          jsonUnmarshal := protojsonUnmarshalTraceRequest,
          handler := fun _ _ => Except.ok () }
        ()
        { method := "POST", path := "/v1/traces",
          contentType := "application/json", body := [] } =
      errorJSON { code := codesInvalidArgument, message := "Unable to unmarshal request body" } ∧
    (@errorJSON Unit
      { code := codesInvalidArgument, message := "Unable to unmarshal request body" }).status =
        400 := by
  exact ⟨rfl, rfl, rfl⟩

/-- C8 (amended): for an HTTP POST with Content-Type
`application/x-protobuf` and a zero-byte body, decoding yields the
zero-valued export request, which is propagated to the user handler (the
request is not rejected): this holds for every decoder with the protobuf
wire-format property that the empty input decodes to the zero message,
which `proto.Unmarshal` has.  With Content-Type `application/json` the
same request is instead rejected with `InvalidArgument` (HTTP 400):
`protojson.Unmarshal` fails on the empty input. -/
theorem C8_empty_body_amended {Ctx Resp : Type} :
    (∀ (protoDec jsonDec : List Nat → Except String TracesData)
        (handler : Ctx → TracesData → Except GrpcStatus Resp) (ctx : Ctx) (path : String),
      protoDec [] = Except.ok zeroTraceRequest →
      proxyServeHTTP
          { protoUnmarshal := protoDec, jsonUnmarshal := jsonDec, handler := handler }
          ctx
          { method := "POST", path := path,
            contentType := "application/x-protobuf", body := [] } =
        (match handler ctx zeroTraceRequest with
         | Except.ok resp =>
           { status := 200, contentType := "application/x-protobuf",
             body := HttpResponseBody.protoMessage resp }
         | Except.error st => errorProto st)) ∧
    (∀ (protoDec : List Nat → Except String TracesData)
        (handler : Ctx → TracesData → Except GrpcStatus Resp) (ctx : Ctx) (path : String),
      proxyServeHTTP
          { protoUnmarshal := protoDec,
            jsonUnmarshal := protojsonUnmarshalTraceRequest, handler := handler }
          ctx
          { method := "POST", path := path, contentType := "application/json", body := [] } =
        errorJSON
          { code := codesInvalidArgument, message := "Unable to unmarshal request body" }) := by
  constructor
  · intro protoDec jsonDec handler ctx path hdec
    simp only [proxyServeHTTP, proxyServeHTTPWithProto]
    norm_num
    rw [hdec]
    cases hh : handler ctx zeroTraceRequest <;> simp [hh]
  · intro protoDec handler ctx path
    rfl

/-- Witness for C8 (amended): with the zero-decoding protobuf decoder and
a handler that echoes success, the zero-byte protobuf POST reaches the
handler with the zero request and yields 200. -/
theorem C8_empty_body_amended_witness :
    ((fun (_ : List Nat) => Except.ok zeroTraceRequest) [] =
      (Except.ok zeroTraceRequest : Except String TracesData)) ∧
    @proxyServeHTTP Unit TracesData TracesData
        { protoUnmarshal := fun _ => Except.ok zeroTraceRequest,
          jsonUnmarshal := protojsonUnmarshalTraceRequest,
          handler := fun _ req => Except.ok req }
        ()
        { method := "POST", path := "/v1/traces",
          contentType := "application/x-protobuf", body := [] } =
      { status := 200, contentType := "application/x-protobuf",
        body := HttpResponseBody.protoMessage zeroTraceRequest } := by
  refine ⟨rfl, ?_⟩
  exact (@C8_empty_body_amended Unit TracesData).1
    (fun _ => Except.ok zeroTraceRequest) protojsonUnmarshalTraceRequest
    (fun _ req => Except.ok req) () "/v1/traces" rfl

/-- Accumulating fold of `+ f x` equals the start plus the mapped sum. -/
theorem foldl_add_eq {α : Type} (f : α → Nat) (l : List α) (a : Nat) :
    l.foldl (fun t x => t + f x) a = a + (l.map f).sum := by
  induction l generalizing a with
  | nil => simp
  | cons x xs ih => simp [ih, Nat.add_assoc]

/-- `TotalSpans` as a mapped sum. -/
theorem TotalSpans_eq_sum {R S Sp : Type} (src : List (ResourceSpans R S Sp)) :
    TotalSpans src =
      (src.map (fun e => (e.scopeSpans.map (fun ss => ss.spans.length)).sum)).sum := by
  unfold TotalSpans
  have h : (fun (total : Nat) (elem : ResourceSpans R S Sp) =>
      elem.scopeSpans.foldl (fun t ss => t + ss.spans.length) total) =
      (fun total elem => total + (elem.scopeSpans.map (fun ss => ss.spans.length)).sum) := by
    funext total elem
    rw [foldl_add_eq]
  rw [h, foldl_add_eq, Nat.zero_add]

/-- `TotalLogRecords` as a mapped sum. -/
theorem TotalLogRecords_eq_sum {R S L : Type} (src : List (ResourceLogs R S L)) :
    TotalLogRecords src =
      (src.map (fun e => (e.scopeLogs.map (fun sl => sl.logRecords.length)).sum)).sum := by
  unfold TotalLogRecords
  have h : (fun (total : Nat) (elem : ResourceLogs R S L) =>
      elem.scopeLogs.foldl (fun t sl => t + sl.logRecords.length) total) =
      (fun total elem => total + (elem.scopeLogs.map (fun sl => sl.logRecords.length)).sum) := by
    funext total elem
    rw [foldl_add_eq]
  rw [h, foldl_add_eq, Nat.zero_add]

/-- `TotalDataPoints` as a mapped sum. -/
theorem TotalDataPoints_eq_sum {R S M NDP SDP HDP EDP : Type}
    (src : List (ResourceMetrics R S M NDP SDP HDP EDP)) :
    TotalDataPoints src =
      (src.map (fun e =>
        (e.scopeMetrics.map (fun sm =>
          (sm.metrics.map (fun m => metricDataPointCount m.data)).sum)).sum)).sum := by
  unfold TotalDataPoints
  have hinner : (fun (t : Nat) (sm : ScopeMetrics S M NDP SDP HDP EDP) =>
      sm.metrics.foldl (fun t2 m => t2 + metricDataPointCount m.data) t) =
      (fun t sm => t + (sm.metrics.map (fun m => metricDataPointCount m.data)).sum) := by
    funext t sm
    rw [foldl_add_eq]
  have houter : (fun (total : Nat) (elem : ResourceMetrics R S M NDP SDP HDP EDP) =>
      elem.scopeMetrics.foldl
        (fun t sm => sm.metrics.foldl (fun t2 m => t2 + metricDataPointCount m.data) t)
        total) =
      (fun total elem => total +
        (elem.scopeMetrics.map (fun sm =>
          (sm.metrics.map (fun m => metricDataPointCount m.data)).sum)).sum) := by
    funext total elem
    rw [hinner, foldl_add_eq]
  rw [houter, foldl_add_eq, Nat.zero_add]

/-- Splitting one scope list and wrapping each piece in a one-scope
resource envelope produces exactly the pre-order leaf observations of the
scope list. -/
theorem spanLeaves_split_wrap {R S Sp : Type} (r : Option R) (u : String)
    (sss : List (ScopeSpans S Sp)) :
    spanLeaves ((splitScopeSpans sss).map (fun ss' =>
        ({ resource := r, scopeSpans := [ss'], schemaUrl := u } : ResourceSpans R S Sp))) =
      sss.flatMap (fun ss => ss.spans.map (fun sp => (r, ss.scope, sp))) := by
  induction sss with
  | nil => rfl
  | cons ss rest ih =>
    have hsplit : splitScopeSpans (ss :: rest) =
        ss.spans.map (fun sp =>
          ({ scope := ss.scope, spans := [sp], schemaUrl := ss.schemaUrl } :
            ScopeSpans S Sp)) ++ splitScopeSpans rest := by
      simp [splitScopeSpans]
    rw [hsplit, List.map_append, List.flatMap_cons]
    rw [show spanLeaves
        (((ss.spans.map fun sp =>
            ({ scope := ss.scope, spans := [sp], schemaUrl := ss.schemaUrl } : ScopeSpans S Sp)).map
          fun ss' => ({ resource := r, scopeSpans := [ss'], schemaUrl := u } : ResourceSpans R S Sp)) ++
          ((splitScopeSpans rest).map fun ss' =>
            ({ resource := r, scopeSpans := [ss'], schemaUrl := u } : ResourceSpans R S Sp))) =
        spanLeaves ((ss.spans.map fun sp =>
            ({ scope := ss.scope, spans := [sp], schemaUrl := ss.schemaUrl } : ScopeSpans S Sp)).map
          fun ss' => ({ resource := r, scopeSpans := [ss'], schemaUrl := u } : ResourceSpans R S Sp)) ++
        spanLeaves ((splitScopeSpans rest).map fun ss' =>
          ({ resource := r, scopeSpans := [ss'], schemaUrl := u } : ResourceSpans R S Sp))
      from by simp [spanLeaves, List.flatMap_append]]
    rw [ih]
    congr 1
    induction ss.spans with
    | nil => rfl
    | cons sp sps ihs => simp [spanLeaves] at ihs ⊢; exact ihs

/-- `SplitResourceSpans` preserves the pre-order leaf observations. -/
theorem spanLeaves_SplitResourceSpans {R S Sp : Type} (src : List (ResourceSpans R S Sp)) :
    spanLeaves (SplitResourceSpans src) = spanLeaves src := by
  induction src with
  | nil => rfl
  | cons e rest ih =>
    have hsplit : SplitResourceSpans (e :: rest) =
        (splitScopeSpans e.scopeSpans).map (fun ss' =>
          ({ resource := e.resource, scopeSpans := [ss'], schemaUrl := e.schemaUrl } :
            ResourceSpans R S Sp)) ++ SplitResourceSpans rest := by
      simp [SplitResourceSpans]
    rw [hsplit]
    rw [show ∀ (a b : List (ResourceSpans R S Sp)), spanLeaves (a ++ b) =
        spanLeaves a ++ spanLeaves b from fun a b => by simp [spanLeaves, List.flatMap_append]]
    rw [spanLeaves_split_wrap, ih]
    simp [spanLeaves]

/-- Leaf observations distribute over list append (traces). -/
theorem spanLeaves_append {R S Sp : Type} (a b : List (ResourceSpans R S Sp)) :
    spanLeaves (a ++ b) = spanLeaves a ++ spanLeaves b := by
  simp [spanLeaves, List.flatMap_append]

/-- Leaf observations distribute over list append (logs). -/
theorem logLeaves_append {R S L : Type} (a b : List (ResourceLogs R S L)) :
    logLeaves (a ++ b) = logLeaves a ++ logLeaves b := by
  simp [logLeaves, List.flatMap_append]

/-- Metric observations distribute over list append. -/
theorem metricTriples_append {R S M NDP SDP HDP EDP : Type}
    (a b : List (ResourceMetrics R S M NDP SDP HDP EDP)) :
    metricTriples (a ++ b) = metricTriples a ++ metricTriples b := by
  simp [metricTriples, List.flatMap_append]

/-- Counting the leaf observations gives `TotalSpans`. -/
theorem spanLeaves_length {R S Sp : Type} (src : List (ResourceSpans R S Sp)) :
    (spanLeaves src).length = TotalSpans src := by
  rw [TotalSpans_eq_sum]
  induction src with
  | nil => rfl
  | cons e rest ih =>
    rw [show e :: rest = [e] ++ rest from rfl, spanLeaves_append, List.length_append, ih]
    simp [spanLeaves]
    induction e.scopeSpans with
    | nil => rfl
    | cons ss sss ihs => simp [List.flatMap_cons, ihs]

/-- Counting the leaf observations gives `TotalLogRecords`. -/
theorem logLeaves_length {R S L : Type} (src : List (ResourceLogs R S L)) :
    (logLeaves src).length = TotalLogRecords src := by
  rw [TotalLogRecords_eq_sum]
  induction src with
  | nil => rfl
  | cons e rest ih =>
    rw [show e :: rest = [e] ++ rest from rfl, logLeaves_append, List.length_append, ih]
    simp [logLeaves]
    induction e.scopeLogs with
    | nil => rfl
    | cons sl sls ihs => simp [List.flatMap_cons, ihs]

/-- Conservation of leaves by `SplitResourceSpans`, the first half of the
spans case of C3. -/
theorem TotalSpans_SplitResourceSpans {R S Sp : Type} (src : List (ResourceSpans R S Sp)) :
    TotalSpans (SplitResourceSpans src) = TotalSpans src := by
  rw [← spanLeaves_length, ← spanLeaves_length, spanLeaves_SplitResourceSpans]

/-- Logs analogue of `spanLeaves_split_wrap`. -/
theorem logLeaves_split_wrap {R S L : Type} (r : Option R) (u : String)
    (sls : List (ScopeLogs S L)) :
    logLeaves ((splitScopeLogs sls).map (fun sl' =>
        ({ resource := r, scopeLogs := [sl'], schemaUrl := u } : ResourceLogs R S L))) =
      sls.flatMap (fun sl => sl.logRecords.map (fun lr => (r, sl.scope, lr))) := by
  induction sls with
  | nil => rfl
  | cons sl rest ih =>
    have hsplit : splitScopeLogs (sl :: rest) =
        sl.logRecords.map (fun lr =>
          ({ scope := sl.scope, logRecords := [lr], schemaUrl := sl.schemaUrl } :
            ScopeLogs S L)) ++ splitScopeLogs rest := by
      simp [splitScopeLogs]
    rw [hsplit, List.map_append, List.flatMap_cons]
    rw [show ∀ (a b : List (ResourceLogs R S L)), logLeaves (a ++ b) =
        logLeaves a ++ logLeaves b from fun a b => logLeaves_append a b]
    rw [ih]
    congr 1
    induction sl.logRecords with
    | nil => rfl
    | cons lr lrs ihs => simp [logLeaves] at ihs ⊢; exact ihs

/-- `SplitResourceLogs` preserves the pre-order leaf observations. -/
theorem logLeaves_SplitResourceLogs {R S L : Type} (src : List (ResourceLogs R S L)) :
    logLeaves (SplitResourceLogs src) = logLeaves src := by
  induction src with
  | nil => rfl
  | cons e rest ih =>
    have hsplit : SplitResourceLogs (e :: rest) =
        (splitScopeLogs e.scopeLogs).map (fun sl' =>
          ({ resource := e.resource, scopeLogs := [sl'], schemaUrl := e.schemaUrl } :
            ResourceLogs R S L)) ++ SplitResourceLogs rest := by
      simp [SplitResourceLogs]
    rw [hsplit, logLeaves_append, logLeaves_split_wrap, ih]
    simp [logLeaves]

/-- Conservation of leaves by `SplitResourceLogs`. -/
theorem TotalLogRecords_SplitResourceLogs {R S L : Type} (src : List (ResourceLogs R S L)) :
    TotalLogRecords (SplitResourceLogs src) = TotalLogRecords src := by
  rw [← logLeaves_length, ← logLeaves_length, logLeaves_SplitResourceLogs]

/-- Sum of a constant-one map is the length. -/
theorem sum_map_const_one {A : Type} (l : List A) (f : A → Nat) (h : ∀ a, f a = 1) :
    (l.map f).sum = l.length := by
  induction l with
  | nil => rfl
  | cons x xs ih => simp [h, ih, Nat.add_comm]

/-- Splitting a metric list conserves the total data point count: each
produced metric carries exactly one data point, and one is produced per
data point of the source. -/
theorem splitMetrics_dpSum {M NDP SDP HDP EDP : Type}
    (ms : List (Metric M NDP SDP HDP EDP)) :
    ((splitMetrics ms).map (fun m => metricDataPointCount m.data)).sum =
      (ms.map (fun m => metricDataPointCount m.data)).sum := by
  induction ms with
  | nil => rfl
  | cons m rest ih =>
    have hsplit : splitMetrics (m :: rest) =
        splitMetrics [m] ++ splitMetrics rest := by
      simp [splitMetrics]
    rw [hsplit, List.map_append, List.sum_append, ih, List.map_cons, List.sum_cons]
    congr 1
    match hdata : m.data with
    | none => simp [splitMetrics, hdata, metricDataPointCount]
    | some (MetricData.gauge dps) =>
      rw [show splitMetrics [m] = dps.map (fun dp =>
          { name := m.name, description := m.description, unit := m.unit,
            metadata := m.metadata, data := some (MetricData.gauge [dp]) }) from by
        simp [splitMetrics, hdata]]
      rw [List.map_map]
      exact sum_map_const_one dps _ (fun dp => rfl)
    | some (MetricData.sum aggTemp mono dps) =>
      rw [show splitMetrics [m] = dps.map (fun dp =>
          { name := m.name, description := m.description, unit := m.unit,
            metadata := m.metadata, data := some (MetricData.sum aggTemp mono [dp]) }) from by
        simp [splitMetrics, hdata]]
      rw [List.map_map]
      exact sum_map_const_one dps _ (fun dp => rfl)
    | some (MetricData.summary dps) =>
      rw [show splitMetrics [m] = dps.map (fun dp =>
          { name := m.name, description := m.description, unit := m.unit,
            metadata := m.metadata, data := some (MetricData.summary [dp]) }) from by
        simp [splitMetrics, hdata]]
      rw [List.map_map]
      exact sum_map_const_one dps _ (fun dp => rfl)
    | some (MetricData.histogram aggTemp dps) =>
      rw [show splitMetrics [m] = dps.map (fun dp =>
          { name := m.name, description := m.description, unit := m.unit,
            metadata := m.metadata, data := some (MetricData.histogram aggTemp [dp]) }) from by
        simp [splitMetrics, hdata]]
      rw [List.map_map]
      exact sum_map_const_one dps _ (fun dp => rfl)
    | some (MetricData.exponentialHistogram aggTemp dps) =>
      rw [show splitMetrics [m] = dps.map (fun dp =>
          { name := m.name, description := m.description, unit := m.unit,
            metadata := m.metadata,
            data := some (MetricData.exponentialHistogram aggTemp [dp]) }) from by
        simp [splitMetrics, hdata]]
      rw [List.map_map]
      exact sum_map_const_one dps _ (fun dp => rfl)

/-- Splitting a scope-metrics list conserves the total data point count. -/
theorem splitScopeMetrics_dpSum {S M NDP SDP HDP EDP : Type}
    (sms : List (ScopeMetrics S M NDP SDP HDP EDP)) :
    ((splitScopeMetrics sms).map (fun sm =>
        (sm.metrics.map (fun m => metricDataPointCount m.data)).sum)).sum =
      (sms.map (fun sm =>
        (sm.metrics.map (fun m => metricDataPointCount m.data)).sum)).sum := by
  induction sms with
  | nil => rfl
  | cons sm rest ih =>
    have hsplit : splitScopeMetrics (sm :: rest) =
        (splitMetrics sm.metrics).map (fun m' =>
          ({ scope := sm.scope, metrics := [m'], schemaUrl := sm.schemaUrl } :
            ScopeMetrics S M NDP SDP HDP EDP)) ++ splitScopeMetrics rest := by
      simp [splitScopeMetrics]
    rw [hsplit, List.map_append, List.sum_append, ih, List.map_cons, List.sum_cons]
    congr 1
    rw [List.map_map]
    have : ((fun sm : ScopeMetrics S M NDP SDP HDP EDP =>
        (sm.metrics.map (fun m => metricDataPointCount m.data)).sum) ∘
        (fun m' => ({ scope := sm.scope, metrics := [m'], schemaUrl := sm.schemaUrl } :
          ScopeMetrics S M NDP SDP HDP EDP))) =
        (fun m' => metricDataPointCount m'.data) := by
      funext m'
      simp
    rw [this, splitMetrics_dpSum]

/-- Conservation of data points by `SplitResourceMetrics`. -/
theorem TotalDataPoints_SplitResourceMetrics {R S M NDP SDP HDP EDP : Type}
    (src : List (ResourceMetrics R S M NDP SDP HDP EDP)) :
    TotalDataPoints (SplitResourceMetrics src) = TotalDataPoints src := by
  rw [TotalDataPoints_eq_sum, TotalDataPoints_eq_sum]
  induction src with
  | nil => rfl
  | cons e rest ih =>
    have hsplit : SplitResourceMetrics (e :: rest) =
        (splitScopeMetrics e.scopeMetrics).map (fun sm' =>
          ({ resource := e.resource, scopeMetrics := [sm'], schemaUrl := e.schemaUrl } :
            ResourceMetrics R S M NDP SDP HDP EDP)) ++ SplitResourceMetrics rest := by
      simp [SplitResourceMetrics]
    rw [hsplit, List.map_append, List.sum_append, ih, List.map_cons, List.sum_cons]
    congr 1
    rw [List.map_map]
    have : ((fun e : ResourceMetrics R S M NDP SDP HDP EDP =>
        (e.scopeMetrics.map (fun sm =>
          (sm.metrics.map (fun m => metricDataPointCount m.data)).sum)).sum) ∘
        (fun sm' =>
          ({ resource := e.resource, scopeMetrics := [sm'], schemaUrl := e.schemaUrl } :
            ResourceMetrics R S M NDP SDP HDP EDP))) =
        (fun sm' => (sm'.metrics.map (fun m => metricDataPointCount m.data)).sum) := by
      funext sm'
      simp
    rw [this, splitScopeMetrics_dpSum]

/-- Scope-level merge of the spec-modelled append conserves span counts. -/
theorem appendScopeSpansModel_sum {S Sp : Type} [DecidableEq S]
    (ts : List (ScopeSpans S Sp)) (s : ScopeSpans S Sp) :
    ((appendScopeSpansModel ts s).map (fun ss => ss.spans.length)).sum =
      (ts.map (fun ss => ss.spans.length)).sum + s.spans.length := by
  induction ts with
  | nil => simp [appendScopeSpansModel]
  | cons t rest ih =>
    by_cases h : t.scope = s.scope
    · simp [appendScopeSpansModel, h]
      omega
    · simp [appendScopeSpansModel, h, ih]
      omega

/-- Folding scope-level merges conserves span counts. -/
theorem appendScopeSpansModel_foldl_sum {S Sp : Type} [DecidableEq S]
    (ss : List (ScopeSpans S Sp)) (init : List (ScopeSpans S Sp)) :
    ((ss.foldl appendScopeSpansModel init).map (fun t => t.spans.length)).sum =
      (init.map (fun t => t.spans.length)).sum + (ss.map (fun t => t.spans.length)).sum := by
  induction ss generalizing init with
  | nil => simp
  | cons s rest ih =>
    rw [List.foldl_cons, ih, appendScopeSpansModel_sum]
    simp
    omega

/-- The spec-modelled `AppendResourceSpans` conserves span counts. -/
theorem TotalSpans_AppendResourceSpans {R S Sp : Type} [DecidableEq R] [DecidableEq S]
    (dst : List (ResourceSpans R S Sp)) (elem : ResourceSpans R S Sp) :
    TotalSpans (AppendResourceSpans dst elem) = TotalSpans dst + TotalSpans [elem] := by
  rw [TotalSpans_eq_sum, TotalSpans_eq_sum, TotalSpans_eq_sum]
  induction dst with
  | nil => simp [AppendResourceSpans]
  | cons rs rest ih =>
    by_cases h : rs.resource = elem.resource
    · simp only [AppendResourceSpans, h, if_true, List.map_cons, List.sum_cons]
      rw [appendScopeSpansModel_foldl_sum]
      simp
      omega
    · simp only [AppendResourceSpans, h, if_false, List.map_cons, List.sum_cons, ih]
      simp
      omega

/-- Scope-level merge for logs conserves log record counts. -/
theorem appendScopeLogsModel_sum {S L : Type} [DecidableEq S]
    (ts : List (ScopeLogs S L)) (s : ScopeLogs S L) :
    ((appendScopeLogsModel ts s).map (fun sl => sl.logRecords.length)).sum =
      (ts.map (fun sl => sl.logRecords.length)).sum + s.logRecords.length := by
  induction ts with
  | nil => simp [appendScopeLogsModel]
  | cons t rest ih =>
    by_cases h : t.scope = s.scope
    · simp [appendScopeLogsModel, h]
      omega
    · simp [appendScopeLogsModel, h, ih]
      omega

/-- Folding scope-level log merges conserves log record counts. -/
theorem appendScopeLogsModel_foldl_sum {S L : Type} [DecidableEq S]
    (ss : List (ScopeLogs S L)) (init : List (ScopeLogs S L)) :
    ((ss.foldl appendScopeLogsModel init).map (fun t => t.logRecords.length)).sum =
      (init.map (fun t => t.logRecords.length)).sum +
        (ss.map (fun t => t.logRecords.length)).sum := by
  induction ss generalizing init with
  | nil => simp
  | cons s rest ih =>
    rw [List.foldl_cons, ih, appendScopeLogsModel_sum]
    simp
    omega

/-- The spec-modelled `AppendResourceLogs` conserves log record counts. -/
theorem TotalLogRecords_AppendResourceLogs {R S L : Type} [DecidableEq R] [DecidableEq S]
    (dst : List (ResourceLogs R S L)) (elem : ResourceLogs R S L) :
    TotalLogRecords (AppendResourceLogs dst elem) =
      TotalLogRecords dst + TotalLogRecords [elem] := by
  rw [TotalLogRecords_eq_sum, TotalLogRecords_eq_sum, TotalLogRecords_eq_sum]
  induction dst with
  | nil => simp [AppendResourceLogs]
  | cons rs rest ih =>
    by_cases h : rs.resource = elem.resource
    · simp only [AppendResourceLogs, h, if_true, List.map_cons, List.sum_cons]
      rw [appendScopeLogsModel_foldl_sum]
      simp
      omega
    · simp only [AppendResourceLogs, h, if_false, List.map_cons, List.sum_cons, ih]
      simp
      omega

/-- Scope-level merge for metrics conserves data point counts. -/
theorem appendScopeMetricsModel_sum {S M NDP SDP HDP EDP : Type} [DecidableEq S]
    (ts : List (ScopeMetrics S M NDP SDP HDP EDP)) (s : ScopeMetrics S M NDP SDP HDP EDP) :
    ((appendScopeMetricsModel ts s).map (fun sm =>
        (sm.metrics.map (fun m => metricDataPointCount m.data)).sum)).sum =
      (ts.map (fun sm => (sm.metrics.map (fun m => metricDataPointCount m.data)).sum)).sum +
        (s.metrics.map (fun m => metricDataPointCount m.data)).sum := by
  induction ts with
  | nil => simp [appendScopeMetricsModel]
  | cons t rest ih =>
    by_cases h : t.scope = s.scope
    · simp [appendScopeMetricsModel, h]
      omega
    · simp [appendScopeMetricsModel, h, ih]
      omega

/-- Folding scope-level metric merges conserves data point counts. -/
theorem appendScopeMetricsModel_foldl_sum {S M NDP SDP HDP EDP : Type} [DecidableEq S]
    (ss : List (ScopeMetrics S M NDP SDP HDP EDP))
    (init : List (ScopeMetrics S M NDP SDP HDP EDP)) :
    ((ss.foldl appendScopeMetricsModel init).map (fun sm =>
        (sm.metrics.map (fun m => metricDataPointCount m.data)).sum)).sum =
      (init.map (fun sm => (sm.metrics.map (fun m => metricDataPointCount m.data)).sum)).sum +
        (ss.map (fun sm => (sm.metrics.map (fun m => metricDataPointCount m.data)).sum)).sum := by
  induction ss generalizing init with
  | nil => simp
  | cons s rest ih =>
    rw [List.foldl_cons, ih, appendScopeMetricsModel_sum]
    simp
    omega

/-- The spec-modelled `AppendResourceMetrics` conserves data point counts. -/
theorem TotalDataPoints_AppendResourceMetrics {R S M NDP SDP HDP EDP : Type}
    [DecidableEq R] [DecidableEq S]
    (dst : List (ResourceMetrics R S M NDP SDP HDP EDP))
    (elem : ResourceMetrics R S M NDP SDP HDP EDP) :
    TotalDataPoints (AppendResourceMetrics dst elem) =
      TotalDataPoints dst + TotalDataPoints [elem] := by
  rw [TotalDataPoints_eq_sum, TotalDataPoints_eq_sum, TotalDataPoints_eq_sum]
  induction dst with
  | nil => simp [AppendResourceMetrics]
  | cons rs rest ih =>
    by_cases h : rs.resource = elem.resource
    · simp only [AppendResourceMetrics, h, if_true, List.map_cons, List.sum_cons]
      rw [appendScopeMetricsModel_foldl_sum]
      simp
      omega
    · simp only [AppendResourceMetrics, h, if_false, List.map_cons, List.sum_cons, ih]
      simp
      omega

/-- One map-bucket update conserves the summed span totals (traces). -/
theorem updateAssoc_TotalSpans {R S Sp : Type} [DecidableEq R] [DecidableEq S]
    (m : List (String × List (ResourceSpans R S Sp))) (key : String)
    (elem : ResourceSpans R S Sp) :
    ((updateAssoc m key (fun b => AppendResourceSpans b elem) []).map
        (fun kv => TotalSpans kv.2)).sum =
      (m.map (fun kv => TotalSpans kv.2)).sum + TotalSpans [elem] := by
  induction m with
  | nil =>
    simp [updateAssoc, AppendResourceSpans, TotalSpans]
  | cons kv rest ih =>
    by_cases h : kv.1 = key
    · simp [updateAssoc, h, TotalSpans_AppendResourceSpans]
      omega
    · simp [updateAssoc, h, ih]
      omega

/-- Folding the bucket updates over a list of elements conserves the
summed span totals (traces). -/
theorem partition_foldl_TotalSpans {R S Sp : Type} [DecidableEq R] [DecidableEq S]
    (f : ResourceSpans R S Sp → String) (elems : List (ResourceSpans R S Sp))
    (m : List (String × List (ResourceSpans R S Sp))) :
    ((elems.foldl
        (fun m e => updateAssoc m (f e) (fun b => AppendResourceSpans b e) []) m).map
        (fun kv => TotalSpans kv.2)).sum =
      (m.map (fun kv => TotalSpans kv.2)).sum + TotalSpans elems := by
  induction elems generalizing m with
  | nil => simp [TotalSpans]
  | cons e rest ih =>
    rw [List.foldl_cons, ih, updateAssoc_TotalSpans]
    rw [show TotalSpans (e :: rest) = TotalSpans [e] + TotalSpans rest from by
      rw [TotalSpans_eq_sum, TotalSpans_eq_sum, TotalSpans_eq_sum]; simp]
    omega

/-- One map-bucket update conserves the summed log record totals. -/
theorem updateAssoc_TotalLogRecords {R S L : Type} [DecidableEq R] [DecidableEq S]
    (m : List (String × List (ResourceLogs R S L))) (key : String)
    (elem : ResourceLogs R S L) :
    ((updateAssoc m key (fun b => AppendResourceLogs b elem) []).map
        (fun kv => TotalLogRecords kv.2)).sum =
      (m.map (fun kv => TotalLogRecords kv.2)).sum + TotalLogRecords [elem] := by
  induction m with
  | nil =>
    simp [updateAssoc, AppendResourceLogs, TotalLogRecords]
  | cons kv rest ih =>
    by_cases h : kv.1 = key
    · simp [updateAssoc, h, TotalLogRecords_AppendResourceLogs]
      omega
    · simp [updateAssoc, h, ih]
      omega

/-- Folding the bucket updates conserves the summed log record totals. -/
theorem partition_foldl_TotalLogRecords {R S L : Type} [DecidableEq R] [DecidableEq S]
    (f : ResourceLogs R S L → String) (elems : List (ResourceLogs R S L))
    (m : List (String × List (ResourceLogs R S L))) :
    ((elems.foldl
        (fun m e => updateAssoc m (f e) (fun b => AppendResourceLogs b e) []) m).map
        (fun kv => TotalLogRecords kv.2)).sum =
      (m.map (fun kv => TotalLogRecords kv.2)).sum + TotalLogRecords elems := by
  induction elems generalizing m with
  | nil => simp [TotalLogRecords]
  | cons e rest ih =>
    rw [List.foldl_cons, ih, updateAssoc_TotalLogRecords]
    rw [show TotalLogRecords (e :: rest) = TotalLogRecords [e] + TotalLogRecords rest from by
      rw [TotalLogRecords_eq_sum, TotalLogRecords_eq_sum, TotalLogRecords_eq_sum]; simp]
    omega

/-- One map-bucket update conserves the summed data point totals. -/
theorem updateAssoc_TotalDataPoints {R S M NDP SDP HDP EDP : Type}
    [DecidableEq R] [DecidableEq S]
    (m : List (String × List (ResourceMetrics R S M NDP SDP HDP EDP))) (key : String)
    (elem : ResourceMetrics R S M NDP SDP HDP EDP) :
    ((updateAssoc m key (fun b => AppendResourceMetrics b elem) []).map
        (fun kv => TotalDataPoints kv.2)).sum =
      (m.map (fun kv => TotalDataPoints kv.2)).sum + TotalDataPoints [elem] := by
  induction m with
  | nil =>
    simp [updateAssoc, AppendResourceMetrics, TotalDataPoints]
  | cons kv rest ih =>
    by_cases h : kv.1 = key
    · simp [updateAssoc, h, TotalDataPoints_AppendResourceMetrics]
      omega
    · simp [updateAssoc, h, ih]
      omega

/-- Folding the bucket updates conserves the summed data point totals. -/
theorem partition_foldl_TotalDataPoints {R S M NDP SDP HDP EDP : Type}
    [DecidableEq R] [DecidableEq S]
    (f : ResourceMetrics R S M NDP SDP HDP EDP → String)
    (elems : List (ResourceMetrics R S M NDP SDP HDP EDP))
    (m : List (String × List (ResourceMetrics R S M NDP SDP HDP EDP))) :
    ((elems.foldl
        (fun m e => updateAssoc m (f e) (fun b => AppendResourceMetrics b e) []) m).map
        (fun kv => TotalDataPoints kv.2)).sum =
      (m.map (fun kv => TotalDataPoints kv.2)).sum + TotalDataPoints elems := by
  induction elems generalizing m with
  | nil => simp [TotalDataPoints]
  | cons e rest ih =>
    rw [List.foldl_cons, ih, updateAssoc_TotalDataPoints]
    rw [show TotalDataPoints (e :: rest) = TotalDataPoints [e] + TotalDataPoints rest from by
      rw [TotalDataPoints_eq_sum, TotalDataPoints_eq_sum, TotalDataPoints_eq_sum]; simp]
    omega

/-- C3: for any signal list `L` (traces, metrics, or logs), the number of
leaves — spans, data points, or log records — is conserved by `Split*`:
`Total*(Split*(L)) = Total*(L)`; and the buckets of `Partition*(L, k)`
together hold exactly the leaves of `L`: summing the leaf counts of all
buckets over all keys gives `Total*(L)`. -/
theorem C3_total_conservation {R S Sp L M NDP SDP HDP EDP : Type}
    [DecidableEq R] [DecidableEq S] :
    (∀ src : List (ResourceSpans R S Sp),
      TotalSpans (SplitResourceSpans src) = TotalSpans src) ∧
    (∀ (src : List (ResourceSpans R S Sp)) (getPartitionKey : ResourceSpans R S Sp → String),
      ((PartitionResourceSpans src getPartitionKey).map (fun kv => TotalSpans kv.2)).sum =
        TotalSpans src) ∧
    (∀ src : List (ResourceMetrics R S M NDP SDP HDP EDP),
      TotalDataPoints (SplitResourceMetrics src) = TotalDataPoints src) ∧
    (∀ (src : List (ResourceMetrics R S M NDP SDP HDP EDP))
        (getPartitionKey : ResourceMetrics R S M NDP SDP HDP EDP → String),
      ((PartitionResourceMetrics src getPartitionKey).map
        (fun kv => TotalDataPoints kv.2)).sum = TotalDataPoints src) ∧
    (∀ src : List (ResourceLogs R S L),
      TotalLogRecords (SplitResourceLogs src) = TotalLogRecords src) ∧
    (∀ (src : List (ResourceLogs R S L)) (getPartitionKey : ResourceLogs R S L → String),
      ((PartitionResourceLogs src getPartitionKey).map
        (fun kv => TotalLogRecords kv.2)).sum = TotalLogRecords src) := by
  refine ⟨TotalSpans_SplitResourceSpans, ?_, TotalDataPoints_SplitResourceMetrics, ?_,
    TotalLogRecords_SplitResourceLogs, ?_⟩
  · intro src f
    unfold PartitionResourceSpans
    rw [partition_foldl_TotalSpans, TotalSpans_SplitResourceSpans]
    simp
  · intro src f
    unfold PartitionResourceMetrics
    rw [partition_foldl_TotalDataPoints, TotalDataPoints_SplitResourceMetrics]
    simp
  · intro src f
    unfold PartitionResourceLogs
    rw [partition_foldl_TotalLogRecords, TotalLogRecords_SplitResourceLogs]
    simp

/-- C4: every output element of `SplitResourceSpans` /
`SplitResourceMetrics` / `SplitResourceLogs` is a one-leaf tree — a
resource envelope wrapping exactly one scope envelope wrapping exactly one
item with exactly one leaf — whose resource, scope and schema urls are the
very values of an originating tree; for metrics the one-point leaf also
retains the parent metric's `name`, `description`, `unit` and `metadata`. -/
theorem C4_split_shape {R S Sp L M NDP SDP HDP EDP : Type} :
    (∀ (src : List (ResourceSpans R S Sp)) (elem : ResourceSpans R S Sp),
      elem ∈ SplitResourceSpans src →
      ∃ orig ∈ src, ∃ ss ∈ orig.scopeSpans, ∃ sp ∈ ss.spans,
        elem = { resource := orig.resource,
                 scopeSpans := [{ scope := ss.scope, spans := [sp],
                                  schemaUrl := ss.schemaUrl }],
                 schemaUrl := orig.schemaUrl }) ∧
    (∀ (src : List (ResourceLogs R S L)) (elem : ResourceLogs R S L),
      elem ∈ SplitResourceLogs src →
      ∃ orig ∈ src, ∃ sl ∈ orig.scopeLogs, ∃ lr ∈ sl.logRecords,
        elem = { resource := orig.resource,
                 scopeLogs := [{ scope := sl.scope, logRecords := [lr],
                                 schemaUrl := sl.schemaUrl }],
                 schemaUrl := orig.schemaUrl }) ∧
    (∀ (src : List (ResourceMetrics R S M NDP SDP HDP EDP))
        (elem : ResourceMetrics R S M NDP SDP HDP EDP),
      elem ∈ SplitResourceMetrics src →
      ∃ orig ∈ src, ∃ sm ∈ orig.scopeMetrics, ∃ met ∈ sm.metrics,
        ∃ met' ∈ splitMetrics [met],
        elem = { resource := orig.resource,
                 scopeMetrics := [{ scope := sm.scope, metrics := [met'],
                                    schemaUrl := sm.schemaUrl }],
                 schemaUrl := orig.schemaUrl } ∧
        met'.name = met.name ∧ met'.description = met.description ∧
        met'.unit = met.unit ∧ met'.metadata = met.metadata ∧
        metricDataPointCount met'.data = 1) := by
  refine ⟨?_, ?_, ?_⟩
  · intro src elem hmem
    obtain ⟨orig, horig, hmem2⟩ := List.mem_flatMap.mp hmem
    obtain ⟨ss', hss', rfl⟩ := List.mem_map.mp hmem2
    obtain ⟨ss, hss, hss2⟩ := List.mem_flatMap.mp hss'
    obtain ⟨sp, hsp, rfl⟩ := List.mem_map.mp hss2
    exact ⟨orig, horig, ss, hss, sp, hsp, rfl⟩
  · intro src elem hmem
    obtain ⟨orig, horig, hmem2⟩ := List.mem_flatMap.mp hmem
    obtain ⟨sl', hsl', rfl⟩ := List.mem_map.mp hmem2
    obtain ⟨sl, hsl, hsl2⟩ := List.mem_flatMap.mp hsl'
    obtain ⟨lr, hlr, rfl⟩ := List.mem_map.mp hsl2
    exact ⟨orig, horig, sl, hsl, lr, hlr, rfl⟩
  · intro src elem hmem
    obtain ⟨orig, horig, hmem2⟩ := List.mem_flatMap.mp hmem
    obtain ⟨sm', hsm', rfl⟩ := List.mem_map.mp hmem2
    obtain ⟨sm, hsm, hsm2⟩ := List.mem_flatMap.mp hsm'
    obtain ⟨met', hmet', rfl⟩ := List.mem_map.mp hsm2
    obtain ⟨met, hmet, hmet2⟩ := List.mem_flatMap.mp hmet'
    refine ⟨orig, horig, sm, hsm, met, hmet, met', ?_, rfl, ?_⟩
    · show met' ∈ splitMetrics [met]
      simp only [splitMetrics, List.flatMap_cons, List.flatMap_nil, List.append_nil]
      exact hmet2
    · match hdata : met.data with
      | none => rw [hdata] at hmet2; simp at hmet2
      | some (MetricData.gauge dps) =>
        rw [hdata] at hmet2
        obtain ⟨dp, _, rfl⟩ := List.mem_map.mp hmet2
        exact ⟨rfl, rfl, rfl, rfl, rfl⟩
      | some (MetricData.sum aggTemp mono dps) =>
        rw [hdata] at hmet2
        obtain ⟨dp, _, rfl⟩ := List.mem_map.mp hmet2
        exact ⟨rfl, rfl, rfl, rfl, rfl⟩
      | some (MetricData.summary dps) =>
        rw [hdata] at hmet2
        obtain ⟨dp, _, rfl⟩ := List.mem_map.mp hmet2
        exact ⟨rfl, rfl, rfl, rfl, rfl⟩
      | some (MetricData.histogram aggTemp dps) =>
        rw [hdata] at hmet2
        obtain ⟨dp, _, rfl⟩ := List.mem_map.mp hmet2
        exact ⟨rfl, rfl, rfl, rfl, rfl⟩
      | some (MetricData.exponentialHistogram aggTemp dps) =>
        rw [hdata] at hmet2
        obtain ⟨dp, _, rfl⟩ := List.mem_map.mp hmet2
        exact ⟨rfl, rfl, rfl, rfl, rfl⟩

/-- Witness for C4: splitting a two-span resource yields the expected
one-leaf tree as a member, for each signal kind. -/
theorem C4_split_shape_witness :
    (({ resource := some 1,
        scopeSpans := [{ scope := some 2, spans := [10], schemaUrl := "s" }],
        schemaUrl := "r" } : ResourceSpans Nat Nat Nat) ∈
      SplitResourceSpans
        [{ resource := some 1,
           scopeSpans := [{ scope := some 2, spans := [10, 11], schemaUrl := "s" }],
           schemaUrl := "r" }]) ∧
    (∃ orig ∈ [({ resource := some 1,
                  scopeSpans := [{ scope := some 2, spans := [10, 11], schemaUrl := "s" }],
                  schemaUrl := "r" } : ResourceSpans Nat Nat Nat)],
      ∃ ss ∈ orig.scopeSpans, ∃ sp ∈ ss.spans,
        ({ resource := some 1,
           scopeSpans := [{ scope := some 2, spans := [10], schemaUrl := "s" }],
           schemaUrl := "r" } : ResourceSpans Nat Nat Nat) =
          { resource := orig.resource,
            scopeSpans := [{ scope := ss.scope, spans := [sp], schemaUrl := ss.schemaUrl }],
            schemaUrl := orig.schemaUrl }) ∧
    (({ resource := some 1,
        scopeMetrics :=
          [{ scope := some 2,
             metrics := [{ name := "m", description := "d", unit := "u", metadata := [7],
                           data := some (MetricData.sum 2 true [42]) }],
             schemaUrl := "s" }],
        schemaUrl := "r" } : ResourceMetrics Nat Nat Nat Nat Nat Nat Nat) ∈
      SplitResourceMetrics
        [{ resource := some 1,
           scopeMetrics :=
             [{ scope := some 2,
                metrics := [{ name := "m", description := "d", unit := "u", metadata := [7],
                              data := some (MetricData.sum 2 true [42, 43]) }],
                schemaUrl := "s" }],
           schemaUrl := "r" }]) ∧
    (∃ orig ∈ [({ resource := some 1,
                  scopeMetrics :=
                    [{ scope := some 2,
                       metrics :=
                         [{ name := "m", description := "d", unit := "u", metadata := [7],
                            data := some (MetricData.sum 2 true [42, 43]) }],
                       schemaUrl := "s" }],
                  schemaUrl := "r" } : ResourceMetrics Nat Nat Nat Nat Nat Nat Nat)],
      ∃ sm ∈ orig.scopeMetrics, ∃ met ∈ sm.metrics, ∃ met' ∈ splitMetrics [met],
        ({ resource := some 1,
           scopeMetrics :=
             [{ scope := some 2,
                metrics := [{ name := "m", description := "d", unit := "u", metadata := [7],
                              data := some (MetricData.sum 2 true [42]) }],
                schemaUrl := "s" }],
           schemaUrl := "r" } : ResourceMetrics Nat Nat Nat Nat Nat Nat Nat) =
          { resource := orig.resource,
            scopeMetrics := [{ scope := sm.scope, metrics := [met'],
                               schemaUrl := sm.schemaUrl }],
            schemaUrl := orig.schemaUrl } ∧
        met'.name = met.name ∧ met'.description = met.description ∧
        met'.unit = met.unit ∧ met'.metadata = met.metadata ∧
        metricDataPointCount met'.data = 1) := by
  refine ⟨by decide, ?_, by decide, ?_⟩
  · exact (@C4_split_shape Nat Nat Nat Nat Nat Nat Nat Nat Nat).1
      [{ resource := some 1,
         scopeSpans := [{ scope := some 2, spans := [10, 11], schemaUrl := "s" }],
         schemaUrl := "r" }]
      { resource := some 1,
        scopeSpans := [{ scope := some 2, spans := [10], schemaUrl := "s" }],
        schemaUrl := "r" }
      (by decide)
  · exact (@C4_split_shape Nat Nat Nat Nat Nat Nat Nat Nat Nat).2.2
      [{ resource := some 1,
         scopeMetrics :=
           [{ scope := some 2,
              metrics := [{ name := "m", description := "d", unit := "u", metadata := [7],
                            data := some (MetricData.sum 2 true [42, 43]) }],
              schemaUrl := "s" }],
         schemaUrl := "r" }]
      { resource := some 1,
        scopeMetrics :=
          [{ scope := some 2,
             metrics := [{ name := "m", description := "d", unit := "u", metadata := [7],
                           data := some (MetricData.sum 2 true [42]) }],
             schemaUrl := "s" }],
        schemaUrl := "r" }
      (by decide)

/-- Every output of `SplitResourceSpans` is a one-leaf tree (shape only). -/
theorem splitResourceSpans_shape {R S Sp : Type} (src : List (ResourceSpans R S Sp)) :
    ∀ e ∈ SplitResourceSpans src, ∃ (r : Option R) (s : Option S) (sp : Sp) (u u' : String),
      e = { resource := r,
            scopeSpans := [{ scope := s, spans := [sp], schemaUrl := u' }],
            schemaUrl := u } := by
  intro e hmem
  obtain ⟨orig, _, hmem2⟩ := List.mem_flatMap.mp hmem
  obtain ⟨ss', hss', rfl⟩ := List.mem_map.mp hmem2
  obtain ⟨ss, _, hss2⟩ := List.mem_flatMap.mp hss'
  obtain ⟨sp, _, rfl⟩ := List.mem_map.mp hss2
  exact ⟨orig.resource, ss.scope, sp, orig.schemaUrl, ss.schemaUrl, rfl⟩

/-- Every output of `SplitResourceLogs` is a one-leaf tree (shape only). -/
theorem splitResourceLogs_shape {R S L : Type} (src : List (ResourceLogs R S L)) :
    ∀ e ∈ SplitResourceLogs src, ∃ (r : Option R) (s : Option S) (lr : L) (u u' : String),
      e = { resource := r,
            scopeLogs := [{ scope := s, logRecords := [lr], schemaUrl := u' }],
            schemaUrl := u } := by
  intro e hmem
  obtain ⟨orig, _, hmem2⟩ := List.mem_flatMap.mp hmem
  obtain ⟨sl', hsl', rfl⟩ := List.mem_map.mp hmem2
  obtain ⟨sl, _, hsl2⟩ := List.mem_flatMap.mp hsl'
  obtain ⟨lr, _, rfl⟩ := List.mem_map.mp hsl2
  exact ⟨orig.resource, sl.scope, lr, orig.schemaUrl, sl.schemaUrl, rfl⟩

/-- Every output of `SplitResourceMetrics` is a one-metric tree (shape only). -/
theorem splitResourceMetrics_shape {R S M NDP SDP HDP EDP : Type}
    (src : List (ResourceMetrics R S M NDP SDP HDP EDP)) :
    ∀ e ∈ SplitResourceMetrics src,
      ∃ (r : Option R) (s : Option S) (met : Metric M NDP SDP HDP EDP) (u u' : String),
        e = { resource := r,
              scopeMetrics := [{ scope := s, metrics := [met], schemaUrl := u' }],
              schemaUrl := u } := by
  intro e hmem
  obtain ⟨orig, _, hmem2⟩ := List.mem_flatMap.mp hmem
  obtain ⟨sm', hsm', rfl⟩ := List.mem_map.mp hmem2
  obtain ⟨sm, _, hsm2⟩ := List.mem_flatMap.mp hsm'
  obtain ⟨met', _, rfl⟩ := List.mem_map.mp hsm2
  exact ⟨orig.resource, sm.scope, met', orig.schemaUrl, sm.schemaUrl, rfl⟩

/-- For a list of one-leaf trace trees, emitting each tree once per
passing leaf filters the leaf observations (traces). -/
theorem filter_flatMap_spanLeaves {R S Sp : Type}
    (fs : List (Option R → Option S → Sp → Bool)) (l : List (ResourceSpans R S Sp))
    (hl : ∀ e ∈ l, ∃ (r : Option R) (s : Option S) (sp : Sp) (u u' : String),
      e = { resource := r,
            scopeSpans := [{ scope := s, spans := [sp], schemaUrl := u' }],
            schemaUrl := u }) :
    spanLeaves (l.flatMap (fun elem =>
        elem.scopeSpans.flatMap (fun ss => ss.spans.filterMap (fun sp =>
          if andFilter fs elem.resource ss.scope sp then some elem else none)))) =
      (spanLeaves l).filter (fun t => andFilter fs t.1 t.2.1 t.2.2) := by
  induction l with
  | nil => rfl
  | cons e rest ih =>
    obtain ⟨r, s, sp, u, u', rfl⟩ := hl e (List.mem_cons_self e rest)
    rw [List.flatMap_cons, spanLeaves_append]
    rw [ih (fun x hx => hl x (List.mem_cons_of_mem _ hx))]
    rw [show spanLeaves
        (({ resource := r, scopeSpans := [{ scope := s, spans := [sp], schemaUrl := u' }],
            schemaUrl := u } : ResourceSpans R S Sp) :: rest) =
      (r, s, sp) :: spanLeaves rest from by simp [spanLeaves]]
    rw [List.filter_cons]
    by_cases hp : andFilter fs r s sp
    · simp only [hp]
      simp [spanLeaves, hp]
    · simp only [hp]
      simp [spanLeaves, hp]

/-- For a list of one-leaf log trees, emitting each tree once per passing
leaf filters the leaf observations (logs). -/
theorem filter_flatMap_logLeaves {R S L : Type}
    (fs : List (Option R → Option S → L → Bool)) (l : List (ResourceLogs R S L))
    (hl : ∀ e ∈ l, ∃ (r : Option R) (s : Option S) (lr : L) (u u' : String),
      e = { resource := r,
            scopeLogs := [{ scope := s, logRecords := [lr], schemaUrl := u' }],
            schemaUrl := u }) :
    logLeaves (l.flatMap (fun elem =>
        elem.scopeLogs.flatMap (fun sl => sl.logRecords.filterMap (fun lr =>
          if andFilter fs elem.resource sl.scope lr then some elem else none)))) =
      (logLeaves l).filter (fun t => andFilter fs t.1 t.2.1 t.2.2) := by
  induction l with
  | nil => rfl
  | cons e rest ih =>
    obtain ⟨r, s, lr, u, u', rfl⟩ := hl e (List.mem_cons_self e rest)
    rw [List.flatMap_cons, logLeaves_append]
    rw [ih (fun x hx => hl x (List.mem_cons_of_mem _ hx))]
    rw [show logLeaves
        (({ resource := r, scopeLogs := [{ scope := s, logRecords := [lr], schemaUrl := u' }],
            schemaUrl := u } : ResourceLogs R S L) :: rest) =
      (r, s, lr) :: logLeaves rest from by simp [logLeaves]]
    rw [List.filter_cons]
    by_cases hp : andFilter fs r s lr
    · simp only [hp]
      simp [logLeaves, hp]
    · simp only [hp]
      simp [logLeaves, hp]

/-- For a list of one-metric trees, emitting each tree once per passing
metric filters the metric observations. -/
theorem filter_flatMap_metricTriples {R S M NDP SDP HDP EDP : Type}
    (fs : List (Option R → Option S → Metric M NDP SDP HDP EDP → Bool))
    (l : List (ResourceMetrics R S M NDP SDP HDP EDP))
    (hl : ∀ e ∈ l, ∃ (r : Option R) (s : Option S) (met : Metric M NDP SDP HDP EDP)
        (u u' : String),
      e = { resource := r,
            scopeMetrics := [{ scope := s, metrics := [met], schemaUrl := u' }],
            schemaUrl := u }) :
    metricTriples (l.flatMap (fun elem =>
        elem.scopeMetrics.flatMap (fun sm => sm.metrics.filterMap (fun m =>
          if andFilter fs elem.resource sm.scope m then some elem else none)))) =
      (metricTriples l).filter (fun t => andFilter fs t.1 t.2.1 t.2.2) := by
  induction l with
  | nil => rfl
  | cons e rest ih =>
    obtain ⟨r, s, met, u, u', rfl⟩ := hl e (List.mem_cons_self e rest)
    rw [List.flatMap_cons, metricTriples_append]
    rw [ih (fun x hx => hl x (List.mem_cons_of_mem _ hx))]
    rw [show metricTriples
        (({ resource := r, scopeMetrics := [{ scope := s, metrics := [met], schemaUrl := u' }],
            schemaUrl := u } : ResourceMetrics R S M NDP SDP HDP EDP) :: rest) =
      (r, s, met) :: metricTriples rest from by simp [metricTriples]]
    rw [List.filter_cons]
    by_cases hp : andFilter fs r s met
    · simp only [hp]
      simp [metricTriples, hp]
    · simp only [hp]
      simp [metricTriples, hp]

/-- Every element emitted by `FilterResourceSpans` is one of the split
elements. -/
theorem FilterResourceSpans_subset {R S Sp : Type} (src : List (ResourceSpans R S Sp))
    (fs : List (Option R → Option S → Sp → Bool)) :
    ∀ e ∈ FilterResourceSpans src fs, e ∈ SplitResourceSpans src := by
  intro e hmem
  simp only [FilterResourceSpans] at hmem
  obtain ⟨elem, helem, hmem2⟩ := List.mem_flatMap.mp hmem
  obtain ⟨ss, _, hmem3⟩ := List.mem_flatMap.mp hmem2
  obtain ⟨sp, _, heq⟩ := List.mem_filterMap.mp hmem3
  by_cases hp : andFilter fs elem.resource ss.scope sp
  · rw [if_pos hp] at heq
    cases heq
    exact helem
  · rw [if_neg hp] at heq
    cases heq

/-- Every element emitted by `FilterResourceLogs` is one of the split
elements. -/
theorem FilterResourceLogs_subset {R S L : Type} (src : List (ResourceLogs R S L))
    (fs : List (Option R → Option S → L → Bool)) :
    ∀ e ∈ FilterResourceLogs src fs, e ∈ SplitResourceLogs src := by
  intro e hmem
  simp only [FilterResourceLogs] at hmem
  obtain ⟨elem, helem, hmem2⟩ := List.mem_flatMap.mp hmem
  obtain ⟨sl, _, hmem3⟩ := List.mem_flatMap.mp hmem2
  obtain ⟨lr, _, heq⟩ := List.mem_filterMap.mp hmem3
  by_cases hp : andFilter fs elem.resource sl.scope lr
  · rw [if_pos hp] at heq
    cases heq
    exact helem
  · rw [if_neg hp] at heq
    cases heq

/-- Every element emitted by `FilterResourceMetrics` is one of the split
elements. -/
theorem FilterResourceMetrics_subset {R S M NDP SDP HDP EDP : Type}
    (src : List (ResourceMetrics R S M NDP SDP HDP EDP))
    (fs : List (Option R → Option S → Metric M NDP SDP HDP EDP → Bool)) :
    ∀ e ∈ FilterResourceMetrics src fs, e ∈ SplitResourceMetrics src := by
  intro e hmem
  simp only [FilterResourceMetrics] at hmem
  obtain ⟨elem, helem, hmem2⟩ := List.mem_flatMap.mp hmem
  obtain ⟨sm, _, hmem3⟩ := List.mem_flatMap.mp hmem2
  obtain ⟨m, _, heq⟩ := List.mem_filterMap.mp hmem3
  by_cases hp : andFilter fs elem.resource sm.scope m
  · rw [if_pos hp] at heq
    cases heq
    exact helem
  · rw [if_neg hp] at heq
    cases heq

/-- C5: `Filter*` returns one-leaf trees; its input predicates are
AND-composed (`andFilter`); every leaf observation in the result satisfies
the conjunction; and the result's leaf observations are exactly the
passing leaf observations of the input, in order and with multiplicity —
so every leaf of `L` satisfying the conjunction appears exactly once.  For
metrics the predicate receives the (one-point, after splitting) metric, so
the leaf observations are taken over the split of the input. -/
theorem C5_filter_leaves {R S Sp L M NDP SDP HDP EDP : Type} :
    (∀ (src : List (ResourceSpans R S Sp))
        (fs : List (Option R → Option S → Sp → Bool)),
      spanLeaves (FilterResourceSpans src fs) =
        (spanLeaves src).filter (fun t => andFilter fs t.1 t.2.1 t.2.2) ∧
      (∀ t ∈ spanLeaves (FilterResourceSpans src fs),
        andFilter fs t.1 t.2.1 t.2.2 = true) ∧
      (∀ e ∈ FilterResourceSpans src fs,
        ∃ (r : Option R) (s : Option S) (sp : Sp) (u u' : String),
          e = { resource := r,
                scopeSpans := [{ scope := s, spans := [sp], schemaUrl := u' }],
                schemaUrl := u })) ∧
    (∀ (src : List (ResourceLogs R S L))
        (fs : List (Option R → Option S → L → Bool)),
      logLeaves (FilterResourceLogs src fs) =
        (logLeaves src).filter (fun t => andFilter fs t.1 t.2.1 t.2.2) ∧
      (∀ t ∈ logLeaves (FilterResourceLogs src fs),
        andFilter fs t.1 t.2.1 t.2.2 = true) ∧
      (∀ e ∈ FilterResourceLogs src fs,
        ∃ (r : Option R) (s : Option S) (lr : L) (u u' : String),
          e = { resource := r,
                scopeLogs := [{ scope := s, logRecords := [lr], schemaUrl := u' }],
                schemaUrl := u })) ∧
    (∀ (src : List (ResourceMetrics R S M NDP SDP HDP EDP))
        (fs : List (Option R → Option S → Metric M NDP SDP HDP EDP → Bool)),
      metricTriples (FilterResourceMetrics src fs) =
        (metricTriples (SplitResourceMetrics src)).filter
          (fun t => andFilter fs t.1 t.2.1 t.2.2) ∧
      (∀ t ∈ metricTriples (FilterResourceMetrics src fs),
        andFilter fs t.1 t.2.1 t.2.2 = true) ∧
      (∀ e ∈ FilterResourceMetrics src fs,
        ∃ (r : Option R) (s : Option S) (met : Metric M NDP SDP HDP EDP) (u u' : String),
          e = { resource := r,
                scopeMetrics := [{ scope := s, metrics := [met], schemaUrl := u' }],
                schemaUrl := u })) := by
  refine ⟨?_, ?_, ?_⟩
  · intro src fs
    have heq : spanLeaves (FilterResourceSpans src fs) =
        (spanLeaves src).filter (fun t => andFilter fs t.1 t.2.1 t.2.2) := by
      show spanLeaves ((SplitResourceSpans src).flatMap _) = _
      rw [filter_flatMap_spanLeaves fs (SplitResourceSpans src)
        (splitResourceSpans_shape src)]
      rw [spanLeaves_SplitResourceSpans]
    refine ⟨heq, ?_, ?_⟩
    · intro t ht
      rw [heq] at ht
      exact (List.mem_filter.mp ht).2
    · intro e he
      exact splitResourceSpans_shape src e (FilterResourceSpans_subset src fs e he)
  · intro src fs
    have heq : logLeaves (FilterResourceLogs src fs) =
        (logLeaves src).filter (fun t => andFilter fs t.1 t.2.1 t.2.2) := by
      show logLeaves ((SplitResourceLogs src).flatMap _) = _
      rw [filter_flatMap_logLeaves fs (SplitResourceLogs src)
        (splitResourceLogs_shape src)]
      rw [logLeaves_SplitResourceLogs]
    refine ⟨heq, ?_, ?_⟩
    · intro t ht
      rw [heq] at ht
      exact (List.mem_filter.mp ht).2
    · intro e he
      exact splitResourceLogs_shape src e (FilterResourceLogs_subset src fs e he)
  · intro src fs
    have heq : metricTriples (FilterResourceMetrics src fs) =
        (metricTriples (SplitResourceMetrics src)).filter
          (fun t => andFilter fs t.1 t.2.1 t.2.2) := by
      show metricTriples ((SplitResourceMetrics src).flatMap _) = _
      rw [filter_flatMap_metricTriples fs (SplitResourceMetrics src)
        (splitResourceMetrics_shape src)]
    refine ⟨heq, ?_, ?_⟩
    · intro t ht
      rw [heq] at ht
      exact (List.mem_filter.mp ht).2
    · intro e he
      exact splitResourceMetrics_shape src e (FilterResourceMetrics_subset src fs e he)

/-- Witness for C5: filtering a two-span list for the span `10` keeps
exactly that leaf, and the kept leaf satisfies the conjunction. -/
theorem C5_filter_leaves_witness :
    (((some 1, some 2, 10) : Option Nat × Option Nat × Nat) ∈
      spanLeaves (FilterResourceSpans
        [{ resource := some 1,
           scopeSpans := [{ scope := some 2, spans := [10, 11], schemaUrl := "s" }],
           schemaUrl := "r" }]
        [fun _ _ sp => sp == 10])) ∧
    andFilter [fun (_ : Option Nat) (_ : Option Nat) (sp : Nat) => sp == 10]
      (some 1) (some 2) 10 = true := by
  refine ⟨by decide, ?_⟩
  exact ((@C5_filter_leaves Nat Nat Nat Nat Nat Nat Nat Nat Nat).1
    [{ resource := some 1,
       scopeSpans := [{ scope := some 2, spans := [10, 11], schemaUrl := "s" }],
       schemaUrl := "r" }]
    [fun _ _ sp => sp == 10]).2.1 (some 1, some 2, 10) (by decide)

/-- Decoding the alphabet character of a six-bit value recovers it. -/
theorem base64CharDecode?_base64Char : ∀ n < 64, base64CharDecode? (base64Char n) = some n := by
  decide

/-- Alphabet characters are never the padding character. -/
theorem base64Char_ne_pad : ∀ n < 64, base64Char n ≠ '=' := by
  decide

/-- Alphabet characters are never a carriage return or newline. -/
theorem base64Char_ne_crlf : ∀ n < 64, base64Char n ≠ '\r' ∧ base64Char n ≠ '\n' := by
  decide

/-- No carriage return or newline occurs in a base64 encoding. -/
theorem base64EncodeChars_no_crlf :
    ∀ bs : List Nat, ∀ c ∈ base64EncodeChars bs, c ≠ '\r' ∧ c ≠ '\n'
  | [], c, hc => by simp [base64EncodeChars] at hc
  | [b1], c, hc => by
    simp only [base64EncodeChars, List.mem_cons, List.mem_singleton] at hc
    rcases hc with rfl | rfl | rfl | h
    · exact base64Char_ne_crlf _ (Nat.mod_lt _ (by norm_num))
    · exact base64Char_ne_crlf (b1 % 4 * 16) (by omega)
    · exact ⟨by decide, by decide⟩
    · rcases h with rfl | h
      · exact ⟨by decide, by decide⟩
      · simp at h
  | [b1, b2], c, hc => by
    simp only [base64EncodeChars, List.mem_cons, List.mem_singleton] at hc
    rcases hc with rfl | rfl | rfl | h
    · exact base64Char_ne_crlf _ (Nat.mod_lt _ (by norm_num))
    · exact base64Char_ne_crlf (b1 % 4 * 16 + b2 / 16 % 16) (by omega)
    · exact base64Char_ne_crlf (b2 % 16 * 4) (by omega)
    · rcases h with rfl | h
      · exact ⟨by decide, by decide⟩
      · simp at h
  | b1 :: b2 :: b3 :: rest, c, hc => by
    simp only [base64EncodeChars, List.mem_cons] at hc
    rcases hc with rfl | rfl | rfl | rfl | h
    · exact base64Char_ne_crlf _ (Nat.mod_lt _ (by norm_num))
    · exact base64Char_ne_crlf (b1 % 4 * 16 + b2 / 16 % 16) (by omega)
    · exact base64Char_ne_crlf (b2 % 16 * 4 + b3 / 64 % 4) (by omega)
    · exact base64Char_ne_crlf (b3 % 64) (Nat.mod_lt _ (by norm_num))
    · exact base64EncodeChars_no_crlf rest c h

/-- The newline-stripping pass of `DecodeString` leaves a base64 encoding
unchanged. -/
theorem base64EncodeChars_filter (bs : List Nat) :
    (base64EncodeChars bs).filter (fun c => c ≠ '\r' ∧ c ≠ '\n') = base64EncodeChars bs := by
  apply List.filter_eq_self.mpr
  intro c hc
  have h := base64EncodeChars_no_crlf bs c hc
  simp [h.1, h.2]

/-- Decoding a base64 encoding of octets recovers them. -/
theorem base64DecodeQuanta_encode :
    ∀ bs : List Nat, ValidBytes bs → base64DecodeQuanta (base64EncodeChars bs) = some bs
  | [], _ => rfl
  | [b1], h => by
    have hb1 : b1 < 256 := h b1 (by simp)
    simp only [base64EncodeChars, base64DecodeQuanta, List.isEmpty_nil, true_and, if_true,
      reduceIte]
    rw [base64CharDecode?_base64Char _ (Nat.mod_lt _ (by norm_num)),
      base64CharDecode?_base64Char (b1 % 4 * 16) (by omega)]
    simp only [Option.bind_eq_bind, Option.some_bind]
    congr 2
    omega
  | [b1, b2], h => by
    have hb1 : b1 < 256 := h b1 (by simp)
    have hb2 : b2 < 256 := h b2 (by simp)
    have hc3 : base64Char (b2 % 16 * 4) ≠ '=' := base64Char_ne_pad _ (by omega)
    simp only [base64EncodeChars, base64DecodeQuanta, List.isEmpty_nil, true_and, hc3,
      false_and, and_false, if_false, if_true, reduceIte]
    rw [base64CharDecode?_base64Char _ (Nat.mod_lt _ (by norm_num)),
      base64CharDecode?_base64Char (b1 % 4 * 16 + b2 / 16 % 16) (by omega),
      base64CharDecode?_base64Char (b2 % 16 * 4) (by omega)]
    simp only [Option.bind_eq_bind, Option.some_bind]
    congr 2
    · omega
    · congr 1
      omega
  | b1 :: b2 :: b3 :: rest, h => by
    have hb1 : b1 < 256 := h b1 (by simp)
    have hb2 : b2 < 256 := h b2 (by simp)
    have hb3 : b3 < 256 := h b3 (by simp)
    have hc3 : base64Char (b2 % 16 * 4 + b3 / 64 % 4) ≠ '=' := base64Char_ne_pad _ (by omega)
    have hc4 : base64Char (b3 % 64) ≠ '=' := base64Char_ne_pad _ (Nat.mod_lt _ (by norm_num))
    have ih := base64DecodeQuanta_encode rest (fun b hb => h b (by simp [hb]))
    simp only [base64EncodeChars, base64DecodeQuanta, hc3, hc4, false_and, and_false,
      if_false]
    rw [base64CharDecode?_base64Char _ (Nat.mod_lt _ (by norm_num)),
      base64CharDecode?_base64Char (b1 % 4 * 16 + b2 / 16 % 16) (by omega),
      base64CharDecode?_base64Char (b2 % 16 * 4 + b3 / 64 % 4) (by omega),
      base64CharDecode?_base64Char (b3 % 64) (Nat.mod_lt _ (by norm_num)), ih]
    simp only [Option.bind_eq_bind, Option.some_bind]
    congr 2
    · omega
    · congr 1
      · omega
      · congr 1
        omega

/-- Round trip of `EncodeToString` and `DecodeString` on octets. -/
theorem base64DecodeString_encodeString (bs : List Nat) (h : ValidBytes bs) :
    base64DecodeString (base64EncodeString bs) = some bs := by
  unfold base64DecodeString base64EncodeString
  rw [show (String.mk (base64EncodeChars bs)).data = base64EncodeChars bs from rfl]
  rw [base64EncodeChars_filter, base64DecodeQuanta_encode bs h]

/-- A base64 encoding of a byte count not divisible by three contains the
padding character. -/
theorem pad_mem_base64EncodeChars :
    ∀ bs : List Nat, bs.length % 3 ≠ 0 → '=' ∈ base64EncodeChars bs
  | [], h => by simp at h
  | [b1], _ => by simp [base64EncodeChars]
  | [b1, b2], _ => by simp [base64EncodeChars]
  | b1 :: b2 :: b3 :: rest, h => by
    have hrest : rest.length % 3 ≠ 0 := by
      simp only [List.length_cons] at h
      omega
    simp only [base64EncodeChars, List.mem_cons]
    exact Or.inr (Or.inr (Or.inr (Or.inr (pad_mem_base64EncodeChars rest hrest))))

/-- The padding character is not a hexadecimal digit. -/
theorem hexDigitToNat?_pad : hexDigitToNat? '=' = none := by decide

/-- Hex decoding fails on any input containing the padding character. -/
theorem hexDecodeChars_of_pad : ∀ cs : List Char, '=' ∈ cs → hexDecodeChars cs = none
  | [], h => by simp at h
  | [c], _ => rfl
  | c1 :: c2 :: rest, h => by
    rcases List.mem_cons.mp h with rfl | h2
    · simp [hexDecodeChars, hexDigitToNat?_pad]
    · rcases List.mem_cons.mp h2 with rfl | h3
      · cases hd : hexDigitToNat? c1 <;>
          simp [hexDecodeChars, hd, hexDigitToNat?_pad]
      · have ih := hexDecodeChars_of_pad rest h3
        cases hd1 : hexDigitToNat? c1 <;> cases hd2 : hexDigitToNat? c2 <;>
          simp [hexDecodeChars, hd1, hd2, ih]

/-- Hex decoding of a padded base64 text always fails: the identifier
values the codec emits can never be mistaken for hexadecimal. -/
theorem hexDecodeString_base64EncodeString (bs : List Nat) (h : bs.length % 3 ≠ 0) :
    hexDecodeString (base64EncodeString bs) = none := by
  unfold hexDecodeString base64EncodeString
  exact hexDecodeChars_of_pad _ (pad_mem_base64EncodeChars bs h)

/-- Key classification of the identifier field names. -/
theorem keyIsTraceIDOrSpanID_traceId : keyIsTraceIDOrSpanID "traceId" = (16, 24, true) := by
  decide

/-- Key classification of the span id field name. -/
theorem keyIsTraceIDOrSpanID_spanId : keyIsTraceIDOrSpanID "spanId" = (8, 12, true) := by
  decide

/-- Key classification of the parent span id field name. -/
theorem keyIsTraceIDOrSpanID_parentSpanId :
    keyIsTraceIDOrSpanID "parentSpanId" = (8, 12, true) := by
  decide

/-- The remaining field names of the embedded schema are not id-shaped. -/
theorem keyIsTraceIDOrSpanID_plain :
    keyIsTraceIDOrSpanID "name" = (0, 0, false) ∧
    keyIsTraceIDOrSpanID "kind" = (0, 0, false) ∧
    keyIsTraceIDOrSpanID "key" = (0, 0, false) ∧
    keyIsTraceIDOrSpanID "value" = (0, 0, false) ∧
    keyIsTraceIDOrSpanID "stringValue" = (0, 0, false) ∧
    keyIsTraceIDOrSpanID "attributes" = (0, 0, false) ∧
    keyIsTraceIDOrSpanID "scope" = (0, 0, false) ∧
    keyIsTraceIDOrSpanID "version" = (0, 0, false) ∧
    keyIsTraceIDOrSpanID "spans" = (0, 0, false) ∧
    keyIsTraceIDOrSpanID "schemaUrl" = (0, 0, false) ∧
    keyIsTraceIDOrSpanID "resource" = (0, 0, false) ∧
    keyIsTraceIDOrSpanID "scopeSpans" = (0, 0, false) ∧
    keyIsTraceIDOrSpanID "resourceSpans" = (0, 0, false) := by
  decide

/-- The base64-to-hex walk is the identity on atoms. -/
theorem convB64Any_atoms :
    (∀ s, convertTraceIDAndSpanIDBase64ToHexForAny (Json.str s) = Json.str s) ∧
    (∀ n, convertTraceIDAndSpanIDBase64ToHexForAny (Json.num n) = Json.num n) ∧
    (∀ b, convertTraceIDAndSpanIDBase64ToHexForAny (Json.bool b) = Json.bool b) ∧
    convertTraceIDAndSpanIDBase64ToHexForAny Json.null = Json.null :=
  ⟨fun _ => rfl, fun _ => rfl, fun _ => rfl, rfl⟩

/-- The base64-to-hex walk distributes over object entry concatenation. -/
theorem convB64Map_append (a b : List (String × Json)) :
    convertTraceIDAndSpanIDBase64ToHexForMap (a ++ b) =
      convertTraceIDAndSpanIDBase64ToHexForMap a ++
        convertTraceIDAndSpanIDBase64ToHexForMap b := by
  induction a with
  | nil => rfl
  | cons kv rest ih =>
    cases kv
    simp only [List.cons_append, convertTraceIDAndSpanIDBase64ToHexForMap, List.append_eq, ih]

/-- An id-keyed entry whose value is the base64 encoding of octets of a
length different from the source's `base64Bytes` constant is left
untouched by the base64-to-hex walk (the decoded byte count never equals
the base64 character count the source compares it against). -/
theorem convB64Map_id_entry (k : String) (hexBytes base64Bytes : Nat)
    (hk : keyIsTraceIDOrSpanID k = (hexBytes, base64Bytes, true))
    (bs : List Nat) (hv : ValidBytes bs) (hne : bs.length ≠ base64Bytes)
    (rest : List (String × Json)) :
    convertTraceIDAndSpanIDBase64ToHexForMap
        ((k, Json.str (base64EncodeString bs)) :: rest) =
      (k, Json.str (base64EncodeString bs)) ::
        convertTraceIDAndSpanIDBase64ToHexForMap rest := by
  simp only [convertTraceIDAndSpanIDBase64ToHexForMap, hk]
  rw [base64DecodeString_encodeString bs hv]
  simp [hne]

/-- A non-id entry is transformed by recursing into its value. -/
theorem convB64Map_plain_entry (k : String)
    (hk : keyIsTraceIDOrSpanID k = (0, 0, false)) (v : Json)
    (rest : List (String × Json)) :
    convertTraceIDAndSpanIDBase64ToHexForMap ((k, v) :: rest) =
      (k, convertTraceIDAndSpanIDBase64ToHexForAny v) ::
        convertTraceIDAndSpanIDBase64ToHexForMap rest := by
  simp only [convertTraceIDAndSpanIDBase64ToHexForMap, hk]

/-- The hex-to-base64 walk is the identity on atoms. -/
theorem convHexAny_atoms :
    (∀ s, convertTraceIDAndSpanIDHexToBase64ForAny (Json.str s) = Json.str s) ∧
    (∀ n, convertTraceIDAndSpanIDHexToBase64ForAny (Json.num n) = Json.num n) ∧
    (∀ b, convertTraceIDAndSpanIDHexToBase64ForAny (Json.bool b) = Json.bool b) ∧
    convertTraceIDAndSpanIDHexToBase64ForAny Json.null = Json.null :=
  ⟨fun _ => rfl, fun _ => rfl, fun _ => rfl, rfl⟩

/-- The hex-to-base64 walk distributes over object entry concatenation. -/
theorem convHexMap_append (a b : List (String × Json)) :
    convertTraceIDAndSpanIDHexToBase64ForMap (a ++ b) =
      convertTraceIDAndSpanIDHexToBase64ForMap a ++
        convertTraceIDAndSpanIDHexToBase64ForMap b := by
  induction a with
  | nil => rfl
  | cons kv rest ih =>
    cases kv
    simp only [List.cons_append, convertTraceIDAndSpanIDHexToBase64ForMap, List.append_eq, ih]

/-- An id-keyed entry holding a padded base64 string is left untouched by
the hex-to-base64 walk: hex decoding fails on the padding. -/
theorem convHexMap_id_entry (k : String) (hexBytes base64Bytes : Nat)
    (hk : keyIsTraceIDOrSpanID k = (hexBytes, base64Bytes, true))
    (s : String) (hdec : hexDecodeString s = none)
    (rest : List (String × Json)) :
    convertTraceIDAndSpanIDHexToBase64ForMap ((k, Json.str s) :: rest) =
      (k, Json.str s) :: convertTraceIDAndSpanIDHexToBase64ForMap rest := by
  simp only [convertTraceIDAndSpanIDHexToBase64ForMap, hk, hdec]

/-- A non-id entry is transformed by recursing into its value. -/
theorem convHexMap_plain_entry (k : String)
    (hk : keyIsTraceIDOrSpanID k = (0, 0, false)) (v : Json)
    (rest : List (String × Json)) :
    convertTraceIDAndSpanIDHexToBase64ForMap ((k, v) :: rest) =
      (k, convertTraceIDAndSpanIDHexToBase64ForAny v) ::
        convertTraceIDAndSpanIDHexToBase64ForMap rest := by
  simp only [convertTraceIDAndSpanIDHexToBase64ForMap, hk]

/-- Unfolding: the base64-to-hex walk on an object node. -/
theorem convB64Any_obj (kvs : List (String × Json)) :
    convertTraceIDAndSpanIDBase64ToHexForAny (Json.obj kvs) =
      Json.obj (convertTraceIDAndSpanIDBase64ToHexForMap kvs) := rfl

/-- Unfolding: the base64-to-hex walk on an array node. -/
theorem convB64Any_arr (xs : List Json) :
    convertTraceIDAndSpanIDBase64ToHexForAny (Json.arr xs) =
      Json.arr (convertTraceIDAndSpanIDBase64ToHexForArr xs) := rfl

/-- The base64-to-hex walk on an empty object. -/
theorem convB64Map_nil : convertTraceIDAndSpanIDBase64ToHexForMap [] = [] := rfl

/-- The base64-to-hex walk fixes an array of fixed elements. -/
theorem convB64Arr_of_fixed (xs : List Json)
    (h : ∀ x ∈ xs, convertTraceIDAndSpanIDBase64ToHexForAny x = x) :
    convertTraceIDAndSpanIDBase64ToHexForArr xs = xs := by
  induction xs with
  | nil => rfl
  | cons x rest ih =>
    simp only [convertTraceIDAndSpanIDBase64ToHexForArr]
    rw [h x (List.mem_cons_self x rest), ih (fun y hy => h y (List.mem_cons_of_mem _ hy))]

/-- Unfolding: the hex-to-base64 walk on an object node. -/
theorem convHexAny_obj (kvs : List (String × Json)) :
    convertTraceIDAndSpanIDHexToBase64ForAny (Json.obj kvs) =
      Json.obj (convertTraceIDAndSpanIDHexToBase64ForMap kvs) := rfl

/-- Unfolding: the hex-to-base64 walk on an array node. -/
theorem convHexAny_arr (xs : List Json) :
    convertTraceIDAndSpanIDHexToBase64ForAny (Json.arr xs) =
      Json.arr (convertTraceIDAndSpanIDHexToBase64ForArr xs) := rfl

/-- The hex-to-base64 walk on an empty object. -/
theorem convHexMap_nil : convertTraceIDAndSpanIDHexToBase64ForMap [] = [] := rfl

/-- The hex-to-base64 walk fixes an array of fixed elements. -/
theorem convHexArr_of_fixed (xs : List Json)
    (h : ∀ x ∈ xs, convertTraceIDAndSpanIDHexToBase64ForAny x = x) :
    convertTraceIDAndSpanIDHexToBase64ForArr xs = xs := by
  induction xs with
  | nil => rfl
  | cons x rest ih =>
    simp only [convertTraceIDAndSpanIDHexToBase64ForArr]
    rw [h x (List.mem_cons_self x rest), ih (fun y hy => h y (List.mem_cons_of_mem _ hy))]

/-- The base64-to-hex walk fixes the rendering of a `KeyValue`. -/
theorem convB64_marshalKeyValue (kv : KeyValue) :
    convertTraceIDAndSpanIDBase64ToHexForAny (pjsonMarshalKeyValue kv) =
      pjsonMarshalKeyValue kv := by
  unfold pjsonMarshalKeyValue
  rw [convB64Any_obj]
  congr 1
  rw [convB64Map_append]
  congr 1
  · by_cases hk : kv.key = ""
    · simp [hk, convB64Map_nil]
    · simp only [hk, if_false]
      rw [convB64Map_plain_entry "key" keyIsTraceIDOrSpanID_plain.2.2.1, convB64Map_nil]
      rfl
  · cases hv : kv.value with
    | none => rfl
    | some s =>
      rw [convB64Map_plain_entry "value" keyIsTraceIDOrSpanID_plain.2.2.2.1, convB64Map_nil]
      rw [convB64Any_obj,
        convB64Map_plain_entry "stringValue" keyIsTraceIDOrSpanID_plain.2.2.2.2.1,
        convB64Map_nil]
      rfl

/-- The hex-to-base64 walk fixes the rendering of a `KeyValue`. -/
theorem convHex_marshalKeyValue (kv : KeyValue) :
    convertTraceIDAndSpanIDHexToBase64ForAny (pjsonMarshalKeyValue kv) =
      pjsonMarshalKeyValue kv := by
  unfold pjsonMarshalKeyValue
  rw [convHexAny_obj]
  congr 1
  rw [convHexMap_append]
  congr 1
  · by_cases hk : kv.key = ""
    · simp [hk, convHexMap_nil]
    · simp only [hk, if_false]
      rw [convHexMap_plain_entry "key" keyIsTraceIDOrSpanID_plain.2.2.1, convHexMap_nil]
      rfl
  · cases hv : kv.value with
    | none => rfl
    | some s =>
      rw [convHexMap_plain_entry "value" keyIsTraceIDOrSpanID_plain.2.2.2.1, convHexMap_nil]
      rw [convHexAny_obj,
        convHexMap_plain_entry "stringValue" keyIsTraceIDOrSpanID_plain.2.2.2.2.1,
        convHexMap_nil]
      rfl

/-- The base64-to-hex walk fixes the rendering of a `Resource`. -/
theorem convB64_marshalResource (r : PBResource) :
    convertTraceIDAndSpanIDBase64ToHexForAny (pjsonMarshalResource r) =
      pjsonMarshalResource r := by
  unfold pjsonMarshalResource
  rw [convB64Any_obj]
  congr 1
  by_cases ha : r.attributes.isEmpty
  · simp [ha, convB64Map_nil]
  · rw [if_neg ha]
    rw [convB64Map_plain_entry "attributes" keyIsTraceIDOrSpanID_plain.2.2.2.2.2.1,
      convB64Map_nil]
    rw [convB64Any_arr, convB64Arr_of_fixed]
    intro x hx
    obtain ⟨kv, _, rfl⟩ := List.mem_map.mp hx
    exact convB64_marshalKeyValue kv

/-- The hex-to-base64 walk fixes the rendering of a `Resource`. -/
theorem convHex_marshalResource (r : PBResource) :
    convertTraceIDAndSpanIDHexToBase64ForAny (pjsonMarshalResource r) =
      pjsonMarshalResource r := by
  unfold pjsonMarshalResource
  rw [convHexAny_obj]
  congr 1
  by_cases ha : r.attributes.isEmpty
  · simp [ha, convHexMap_nil]
  · rw [if_neg ha]
    rw [convHexMap_plain_entry "attributes" keyIsTraceIDOrSpanID_plain.2.2.2.2.2.1,
      convHexMap_nil]
    rw [convHexAny_arr, convHexArr_of_fixed]
    intro x hx
    obtain ⟨kv, _, rfl⟩ := List.mem_map.mp hx
    exact convHex_marshalKeyValue kv

/-- The base64-to-hex walk fixes the rendering of an
`InstrumentationScope`. -/
theorem convB64_marshalScope (s : PBInstrumentationScope) :
    convertTraceIDAndSpanIDBase64ToHexForAny (pjsonMarshalScope s) = pjsonMarshalScope s := by
  unfold pjsonMarshalScope
  rw [convB64Any_obj]
  congr 1
  rw [convB64Map_append]
  congr 1
  · by_cases hn : s.name = ""
    · simp [hn, convB64Map_nil]
    · simp only [hn, if_false]
      rw [convB64Map_plain_entry "name" keyIsTraceIDOrSpanID_plain.1, convB64Map_nil]
      rfl
  · by_cases hv : s.version = ""
    · simp [hv, convB64Map_nil]
    · simp only [hv, if_false]
      rw [convB64Map_plain_entry "version" keyIsTraceIDOrSpanID_plain.2.2.2.2.2.2.2.1,
        convB64Map_nil]
      rfl

/-- The hex-to-base64 walk fixes the rendering of an
`InstrumentationScope`. -/
theorem convHex_marshalScope (s : PBInstrumentationScope) :
    convertTraceIDAndSpanIDHexToBase64ForAny (pjsonMarshalScope s) = pjsonMarshalScope s := by
  unfold pjsonMarshalScope
  rw [convHexAny_obj]
  congr 1
  rw [convHexMap_append]
  congr 1
  · by_cases hn : s.name = ""
    · simp [hn, convHexMap_nil]
    · simp only [hn, if_false]
      rw [convHexMap_plain_entry "name" keyIsTraceIDOrSpanID_plain.1, convHexMap_nil]
      rfl
  · by_cases hv : s.version = ""
    · simp [hv, convHexMap_nil]
    · simp only [hv, if_false]
      rw [convHexMap_plain_entry "version" keyIsTraceIDOrSpanID_plain.2.2.2.2.2.2.2.1,
        convHexMap_nil]
      rfl

/-- The base64-to-hex walk fixes the rendering of a well-formed `Span`:
the trace id decodes to 16 bytes but the source compares that count with
the 24 base64 characters (and likewise 8 versus 12 for the span ids), so
every identifier is left untouched. -/
theorem convB64_marshalSpan (sp : PBSpan) (h : SpanWF sp) :
    convertTraceIDAndSpanIDBase64ToHexForAny (pjsonMarshalSpan sp) = pjsonMarshalSpan sp := by
  obtain ⟨ht, htv, hs, hsv, hp, hpv⟩ := h
  unfold pjsonMarshalSpan
  rw [convB64Any_obj]
  congr 1
  rw [convB64Map_append, convB64Map_append, convB64Map_append, convB64Map_append]
  congr 1
  · congr 1
    · congr 1
      · congr 1
        · by_cases hT : sp.traceId.isEmpty
          · simp [hT, convB64Map_nil]
          · rw [if_neg hT]
            have hlen : sp.traceId.length = 16 := by
              rcases ht with h0 | h0
              · rw [h0] at hT
                simp at hT
              · exact h0
            rw [convB64Map_id_entry "traceId" 16 24 keyIsTraceIDOrSpanID_traceId
              sp.traceId htv (by omega), convB64Map_nil]
        · by_cases hS : sp.spanId.isEmpty
          · simp [hS, convB64Map_nil]
          · rw [if_neg hS]
            have hlen : sp.spanId.length = 8 := by
              rcases hs with h0 | h0
              · rw [h0] at hS
                simp at hS
              · exact h0
            rw [convB64Map_id_entry "spanId" 8 12 keyIsTraceIDOrSpanID_spanId
              sp.spanId hsv (by omega), convB64Map_nil]
      · by_cases hP : sp.parentSpanId.isEmpty
        · simp [hP, convB64Map_nil]
        · rw [if_neg hP]
          have hlen : sp.parentSpanId.length = 8 := by
            rcases hp with h0 | h0
            · rw [h0] at hP
              simp at hP
            · exact h0
          rw [convB64Map_id_entry "parentSpanId" 8 12 keyIsTraceIDOrSpanID_parentSpanId
            sp.parentSpanId hpv (by omega), convB64Map_nil]
    · by_cases hN : sp.name = ""
      · simp [hN, convB64Map_nil]
      · simp only [hN, if_false]
        rw [convB64Map_plain_entry "name" keyIsTraceIDOrSpanID_plain.1, convB64Map_nil]
        rfl
  · by_cases hK : sp.kind = 0
    · simp [hK, convB64Map_nil]
    · simp only [hK, if_false]
      rw [convB64Map_plain_entry "kind" keyIsTraceIDOrSpanID_plain.2.1, convB64Map_nil]
      rfl

/-- The hex-to-base64 walk fixes the rendering of a well-formed `Span`:
the padded base64 identifier strings are never valid hexadecimal. -/
theorem convHex_marshalSpan (sp : PBSpan) (h : SpanWF sp) :
    convertTraceIDAndSpanIDHexToBase64ForAny (pjsonMarshalSpan sp) = pjsonMarshalSpan sp := by
  obtain ⟨ht, htv, hs, hsv, hp, hpv⟩ := h
  unfold pjsonMarshalSpan
  rw [convHexAny_obj]
  congr 1
  rw [convHexMap_append, convHexMap_append, convHexMap_append, convHexMap_append]
  congr 1
  · congr 1
    · congr 1
      · congr 1
        · by_cases hT : sp.traceId.isEmpty
          · simp [hT, convHexMap_nil]
          · rw [if_neg hT]
            have hlen : sp.traceId.length = 16 := by
              rcases ht with h0 | h0
              · rw [h0] at hT
                simp at hT
              · exact h0
            rw [convHexMap_id_entry "traceId" 16 24 keyIsTraceIDOrSpanID_traceId
              (base64EncodeString sp.traceId)
              (hexDecodeString_base64EncodeString sp.traceId (by omega)), convHexMap_nil]
        · by_cases hS : sp.spanId.isEmpty
          · simp [hS, convHexMap_nil]
          · rw [if_neg hS]
            have hlen : sp.spanId.length = 8 := by
              rcases hs with h0 | h0
              · rw [h0] at hS
                simp at hS
              · exact h0
            rw [convHexMap_id_entry "spanId" 8 12 keyIsTraceIDOrSpanID_spanId
              (base64EncodeString sp.spanId)
              (hexDecodeString_base64EncodeString sp.spanId (by omega)), convHexMap_nil]
      · by_cases hP : sp.parentSpanId.isEmpty
        · simp [hP, convHexMap_nil]
        · rw [if_neg hP]
          have hlen : sp.parentSpanId.length = 8 := by
            rcases hp with h0 | h0
            · rw [h0] at hP
              simp at hP
            · exact h0
          rw [convHexMap_id_entry "parentSpanId" 8 12 keyIsTraceIDOrSpanID_parentSpanId
            (base64EncodeString sp.parentSpanId)
            (hexDecodeString_base64EncodeString sp.parentSpanId (by omega)), convHexMap_nil]
    · by_cases hN : sp.name = ""
      · simp [hN, convHexMap_nil]
      · simp only [hN, if_false]
        rw [convHexMap_plain_entry "name" keyIsTraceIDOrSpanID_plain.1, convHexMap_nil]
        rfl
  · by_cases hK : sp.kind = 0
    · simp [hK, convHexMap_nil]
    · simp only [hK, if_false]
      rw [convHexMap_plain_entry "kind" keyIsTraceIDOrSpanID_plain.2.1, convHexMap_nil]
      rfl

/-- The base64-to-hex walk fixes the rendering of a well-formed
`ScopeSpans`. -/
theorem convB64_marshalScopeSpans (ss : PBScopeSpans) (h : ∀ sp ∈ ss.spans, SpanWF sp) :
    convertTraceIDAndSpanIDBase64ToHexForAny (pjsonMarshalScopeSpans ss) =
      pjsonMarshalScopeSpans ss := by
  unfold pjsonMarshalScopeSpans
  rw [convB64Any_obj]
  congr 1
  rw [convB64Map_append, convB64Map_append]
  congr 1
  · congr 1
    · cases hs : ss.scope with
      | none => rfl
      | some s =>
        rw [convB64Map_plain_entry "scope" keyIsTraceIDOrSpanID_plain.2.2.2.2.2.2.1,
          convB64Map_nil, convB64_marshalScope]
    · by_cases hsp : ss.spans.isEmpty
      · simp [hsp, convB64Map_nil]
      · rw [if_neg hsp]
        rw [convB64Map_plain_entry "spans" keyIsTraceIDOrSpanID_plain.2.2.2.2.2.2.2.2.1,
          convB64Map_nil, convB64Any_arr, convB64Arr_of_fixed]
        intro x hx
        obtain ⟨sp, hsp2, rfl⟩ := List.mem_map.mp hx
        exact convB64_marshalSpan sp (h sp hsp2)
  · by_cases hu : ss.schemaUrl = ""
    · simp [hu, convB64Map_nil]
    · simp only [hu, if_false]
      rw [convB64Map_plain_entry "schemaUrl" keyIsTraceIDOrSpanID_plain.2.2.2.2.2.2.2.2.2.1,
        convB64Map_nil]
      rfl

/-- The hex-to-base64 walk fixes the rendering of a well-formed
`ScopeSpans`. -/
theorem convHex_marshalScopeSpans (ss : PBScopeSpans) (h : ∀ sp ∈ ss.spans, SpanWF sp) :
    convertTraceIDAndSpanIDHexToBase64ForAny (pjsonMarshalScopeSpans ss) =
      pjsonMarshalScopeSpans ss := by
  unfold pjsonMarshalScopeSpans
  rw [convHexAny_obj]
  congr 1
  rw [convHexMap_append, convHexMap_append]
  congr 1
  · congr 1
    · cases hs : ss.scope with
      | none => rfl
      | some s =>
        rw [convHexMap_plain_entry "scope" keyIsTraceIDOrSpanID_plain.2.2.2.2.2.2.1,
          convHexMap_nil, convHex_marshalScope]
    · by_cases hsp : ss.spans.isEmpty
      · simp [hsp, convHexMap_nil]
      · rw [if_neg hsp]
        rw [convHexMap_plain_entry "spans" keyIsTraceIDOrSpanID_plain.2.2.2.2.2.2.2.2.1,
          convHexMap_nil, convHexAny_arr, convHexArr_of_fixed]
        intro x hx
        obtain ⟨sp, hsp2, rfl⟩ := List.mem_map.mp hx
        exact convHex_marshalSpan sp (h sp hsp2)
  · by_cases hu : ss.schemaUrl = ""
    · simp [hu, convHexMap_nil]
    · simp only [hu, if_false]
      rw [convHexMap_plain_entry "schemaUrl" keyIsTraceIDOrSpanID_plain.2.2.2.2.2.2.2.2.2.1,
        convHexMap_nil]
      rfl

/-- The base64-to-hex walk fixes the rendering of a well-formed
`ResourceSpans`. -/
theorem convB64_marshalResourceSpans (rs : PBResourceSpans)
    (h : ∀ ss ∈ rs.scopeSpans, ∀ sp ∈ ss.spans, SpanWF sp) :
    convertTraceIDAndSpanIDBase64ToHexForAny (pjsonMarshalResourceSpans rs) =
      pjsonMarshalResourceSpans rs := by
  unfold pjsonMarshalResourceSpans
  rw [convB64Any_obj]
  congr 1
  rw [convB64Map_append, convB64Map_append]
  congr 1
  · congr 1
    · cases hr : rs.resource with
      | none => rfl
      | some r =>
        rw [convB64Map_plain_entry "resource" keyIsTraceIDOrSpanID_plain.2.2.2.2.2.2.2.2.2.2.1,
          convB64Map_nil, convB64_marshalResource]
    · by_cases hss : rs.scopeSpans.isEmpty
      · simp [hss, convB64Map_nil]
      · rw [if_neg hss]
        rw [convB64Map_plain_entry "scopeSpans"
          keyIsTraceIDOrSpanID_plain.2.2.2.2.2.2.2.2.2.2.2.1,
          convB64Map_nil, convB64Any_arr, convB64Arr_of_fixed]
        intro x hx
        obtain ⟨ss, hss2, rfl⟩ := List.mem_map.mp hx
        exact convB64_marshalScopeSpans ss (h ss hss2)
  · by_cases hu : rs.schemaUrl = ""
    · simp [hu, convB64Map_nil]
    · simp only [hu, if_false]
      rw [convB64Map_plain_entry "schemaUrl" keyIsTraceIDOrSpanID_plain.2.2.2.2.2.2.2.2.2.1,
        convB64Map_nil]
      rfl

/-- The hex-to-base64 walk fixes the rendering of a well-formed
`ResourceSpans`. -/
theorem convHex_marshalResourceSpans (rs : PBResourceSpans)
    (h : ∀ ss ∈ rs.scopeSpans, ∀ sp ∈ ss.spans, SpanWF sp) :
    convertTraceIDAndSpanIDHexToBase64ForAny (pjsonMarshalResourceSpans rs) =
      pjsonMarshalResourceSpans rs := by
  unfold pjsonMarshalResourceSpans
  rw [convHexAny_obj]
  congr 1
  rw [convHexMap_append, convHexMap_append]
  congr 1
  · congr 1
    · cases hr : rs.resource with
      | none => rfl
      | some r =>
        rw [convHexMap_plain_entry "resource" keyIsTraceIDOrSpanID_plain.2.2.2.2.2.2.2.2.2.2.1,
          convHexMap_nil, convHex_marshalResource]
    · by_cases hss : rs.scopeSpans.isEmpty
      · simp [hss, convHexMap_nil]
      · rw [if_neg hss]
        rw [convHexMap_plain_entry "scopeSpans"
          keyIsTraceIDOrSpanID_plain.2.2.2.2.2.2.2.2.2.2.2.1,
          convHexMap_nil, convHexAny_arr, convHexArr_of_fixed]
        intro x hx
        obtain ⟨ss, hss2, rfl⟩ := List.mem_map.mp hx
        exact convHex_marshalScopeSpans ss (h ss hss2)
  · by_cases hu : rs.schemaUrl = ""
    · simp [hu, convHexMap_nil]
    · simp only [hu, if_false]
      rw [convHexMap_plain_entry "schemaUrl" keyIsTraceIDOrSpanID_plain.2.2.2.2.2.2.2.2.2.1,
        convHexMap_nil]
      rfl

/-- The base64-to-hex walk fixes the protojson rendering of a well-formed
trace export message entirely: with the source's swapped length
comparison no identifier is ever converted. -/
theorem convB64_marshalTracesData (m : TracesData) (h : TracesDataWF m) :
    convertTraceIDAndSpanIDBase64ToHexForAny (pjsonMarshalTracesData m) =
      pjsonMarshalTracesData m := by
  unfold pjsonMarshalTracesData
  rw [convB64Any_obj]
  congr 1
  by_cases hrs : m.resourceSpans.isEmpty
  · simp [hrs, convB64Map_nil]
  · rw [if_neg hrs]
    rw [convB64Map_plain_entry "resourceSpans"
      keyIsTraceIDOrSpanID_plain.2.2.2.2.2.2.2.2.2.2.2.2,
      convB64Map_nil, convB64Any_arr, convB64Arr_of_fixed]
    intro x hx
    obtain ⟨rs, hrs2, rfl⟩ := List.mem_map.mp hx
    exact convB64_marshalResourceSpans rs (h rs hrs2)

/-- The hex-to-base64 walk fixes the protojson rendering of a well-formed
trace export message: the padded base64 identifiers never parse as hex. -/
theorem convHex_marshalTracesData (m : TracesData) (h : TracesDataWF m) :
    convertTraceIDAndSpanIDHexToBase64ForAny (pjsonMarshalTracesData m) =
      pjsonMarshalTracesData m := by
  unfold pjsonMarshalTracesData
  rw [convHexAny_obj]
  congr 1
  by_cases hrs : m.resourceSpans.isEmpty
  · simp [hrs, convHexMap_nil]
  · rw [if_neg hrs]
    rw [convHexMap_plain_entry "resourceSpans"
      keyIsTraceIDOrSpanID_plain.2.2.2.2.2.2.2.2.2.2.2.2,
      convHexMap_nil, convHexAny_arr, convHexArr_of_fixed]
    intro x hx
    obtain ⟨rs, hrs2, rfl⟩ := List.mem_map.mp hx
    exact convHex_marshalResourceSpans rs (h rs hrs2)

/-- Canonical protojson reading inverts the rendering of a well-formed
`Span`. -/
theorem pjsonUnmarshal_marshalSpan (sp : PBSpan) (h : SpanWF sp) :
    pjsonUnmarshalSpan (pjsonMarshalSpan sp) = some sp := by
  obtain ⟨tid, sid, pid, nm, kd⟩ := sp
  obtain ⟨ht, htv, hs, hsv, hp, hpv⟩ := h
  simp only at ht htv hs hsv hp hpv
  rcases ht with hT | hT <;> rcases hs with hS | hS <;> rcases hp with hP | hP <;>
    by_cases hN : nm = "" <;> by_cases hK : kd = 0 <;>
      simp_all [pjsonMarshalSpan, pjsonUnmarshalSpan, jsonLookup, jsonObjKeys,
        pjsonFieldBytes, pjsonFieldString, pjsonFieldEnum,
        base64DecodeString_encodeString tid htv,
        base64DecodeString_encodeString sid hsv,
        base64DecodeString_encodeString pid hpv,
        show tid.length = 16 → tid ≠ [] from fun hl h0 => by simp [h0] at hl,
        show sid.length = 8 → sid ≠ [] from fun hl h0 => by simp [h0] at hl,
        show pid.length = 8 → pid ≠ [] from fun hl h0 => by simp [h0] at hl]

/-- Element-wise inversion lifts through the `mapM` accumulator loop over a
rendered list. -/
theorem mapM_loop_unmarshal_map {A : Type} (f : A → Json) (g : Json → Option A) (l : List A)
    (acc : List A) (h : ∀ x ∈ l, g (f x) = some x) :
    List.mapM.loop g (l.map f) acc = some (acc.reverse ++ l) := by
  induction l generalizing acc with
  | nil => simp [List.mapM.loop]
  | cons x rest ih =>
    rw [List.map_cons]
    simp only [List.mapM.loop, h x (List.mem_cons_self x rest), Option.bind_eq_bind,
      Option.some_bind]
    rw [ih (x :: acc) (fun y hy => h y (List.mem_cons_of_mem _ hy))]
    simp

/-- Element-wise inversion lifts through `mapM` over a rendered list. -/
theorem mapM_unmarshal_map {A : Type} (f : A → Json) (g : Json → Option A) (l : List A)
    (h : ∀ x ∈ l, g (f x) = some x) : (l.map f).mapM g = some l := by
  induction l with
  | nil => rfl
  | cons x rest ih =>
    rw [List.map_cons, List.mapM_cons, h x (List.mem_cons_self x rest),
      ih (fun y hy => h y (List.mem_cons_of_mem _ hy))]
    rfl

/-- Canonical protojson reading inverts the rendering of a `KeyValue`. -/
theorem pjsonUnmarshal_marshalKeyValue (kv : KeyValue) :
    pjsonUnmarshalKeyValue (pjsonMarshalKeyValue kv) = some kv := by
  obtain ⟨k, v⟩ := kv
  by_cases hk : k = "" <;> cases v <;>
    simp_all [pjsonMarshalKeyValue, pjsonUnmarshalKeyValue, jsonLookup, jsonObjKeys,
      pjsonFieldString]

/-- Canonical protojson reading inverts the rendering of a `Resource`. -/
theorem pjsonUnmarshal_marshalResource (r : PBResource) :
    pjsonUnmarshalResource (pjsonMarshalResource r) = some r := by
  obtain ⟨attrs⟩ := r
  by_cases ha : attrs.isEmpty
  · rw [List.isEmpty_iff.mp ha]
    rfl
  · simp_all [pjsonMarshalResource, pjsonUnmarshalResource, jsonLookup, jsonObjKeys,
      mapM_unmarshal_map pjsonMarshalKeyValue pjsonUnmarshalKeyValue attrs
        (fun x _ => pjsonUnmarshal_marshalKeyValue x),
      mapM_loop_unmarshal_map pjsonMarshalKeyValue pjsonUnmarshalKeyValue attrs []
        (fun x _ => pjsonUnmarshal_marshalKeyValue x)]

/-- Canonical protojson reading inverts the rendering of an
`InstrumentationScope`. -/
theorem pjsonUnmarshal_marshalScope (s : PBInstrumentationScope) :
    pjsonUnmarshalScope (pjsonMarshalScope s) = some s := by
  obtain ⟨nm, ver⟩ := s
  by_cases hn : nm = "" <;> by_cases hv : ver = "" <;>
    simp_all [pjsonMarshalScope, pjsonUnmarshalScope, jsonLookup, jsonObjKeys,
      pjsonFieldString]

/-- Canonical protojson reading inverts the rendering of a well-formed
`ScopeSpans`. -/
theorem pjsonUnmarshal_marshalScopeSpans (ss : PBScopeSpans)
    (h : ∀ sp ∈ ss.spans, SpanWF sp) :
    pjsonUnmarshalScopeSpans (pjsonMarshalScopeSpans ss) = some ss := by
  obtain ⟨sc, spans, u⟩ := ss
  simp only at h
  cases sc <;> by_cases hsp : spans.isEmpty <;> by_cases hu : u = "" <;>
    simp_all [pjsonMarshalScopeSpans, pjsonUnmarshalScopeSpans, jsonLookup, jsonObjKeys,
      pjsonFieldString, pjsonUnmarshal_marshalScope,
      mapM_unmarshal_map pjsonMarshalSpan pjsonUnmarshalSpan spans
        (fun x hx => pjsonUnmarshal_marshalSpan x (h x hx)),
      mapM_loop_unmarshal_map pjsonMarshalSpan pjsonUnmarshalSpan spans []
        (fun x hx => pjsonUnmarshal_marshalSpan x (h x hx)),
      List.isEmpty_iff]

/-- Canonical protojson reading inverts the rendering of a well-formed
`ResourceSpans`. -/
theorem pjsonUnmarshal_marshalResourceSpans (rs : PBResourceSpans)
    (h : ∀ ss ∈ rs.scopeSpans, ∀ sp ∈ ss.spans, SpanWF sp) :
    pjsonUnmarshalResourceSpans (pjsonMarshalResourceSpans rs) = some rs := by
  obtain ⟨rsc, sss, u⟩ := rs
  simp only at h
  cases rsc <;> by_cases hss : sss.isEmpty <;> by_cases hu : u = "" <;>
    simp_all [pjsonMarshalResourceSpans, pjsonUnmarshalResourceSpans, jsonLookup, jsonObjKeys,
      pjsonFieldString, pjsonUnmarshal_marshalResource,
      mapM_unmarshal_map pjsonMarshalScopeSpans pjsonUnmarshalScopeSpans sss
        (fun x hx => pjsonUnmarshal_marshalScopeSpans x (h x hx)),
      mapM_loop_unmarshal_map pjsonMarshalScopeSpans pjsonUnmarshalScopeSpans sss []
        (fun x hx => pjsonUnmarshal_marshalScopeSpans x (h x hx)),
      List.isEmpty_iff]

/-- Canonical protojson reading inverts the rendering of a well-formed
trace export message. -/
theorem pjsonUnmarshal_marshalTracesData (m : TracesData) (h : TracesDataWF m) :
    pjsonUnmarshalTracesData (pjsonMarshalTracesData m) = some m := by
  obtain ⟨rss⟩ := m
  simp only [TracesDataWF] at h
  by_cases hrs : rss.isEmpty
  · rw [show rss = [] from List.isEmpty_iff.mp hrs]
    rfl
  · simp_all [pjsonMarshalTracesData, pjsonUnmarshalTracesData, jsonLookup, jsonObjKeys,
      mapM_unmarshal_map pjsonMarshalResourceSpans pjsonUnmarshalResourceSpans rss
        (fun x hx => pjsonUnmarshal_marshalResourceSpans x (h x hx)),
      mapM_loop_unmarshal_map pjsonMarshalResourceSpans pjsonUnmarshalResourceSpans rss []
        (fun x hx => pjsonUnmarshal_marshalResourceSpans x (h x hx)),
      List.isEmpty_iff]

/-- C1: for every trace export message representable in the OTLP schema,
decoding the bytes produced by encoding reconstructs the original message:
`UnmarshalJSON` after `MarshalJSON` is the identity at the protobuf level. -/
theorem C1_json_round_trip (m : TracesData) (h : TracesDataWF m) :
    UnmarshalJSON (MarshalJSON m) = some m := by
  unfold MarshalJSON UnmarshalJSON
  rw [convB64_marshalTracesData m h, convHex_marshalTracesData m h,
    pjsonUnmarshal_marshalTracesData m h]

/-- The round trip evaluated at the concrete fixture message. -/
theorem C1_json_round_trip_witness :
    TracesDataWF fixtureTracesData ∧
      UnmarshalJSON (MarshalJSON fixtureTracesData) = some fixtureTracesData :=
  ⟨by decide, C1_json_round_trip fixtureTracesData (by decide)⟩

/-- C2: the encode-side identifier conversion never fires.  The fixture value
is a base64 string that decodes to exactly 16 bytes — the expected length for
a trace id, whose upper-case hex rendering the claim says must be emitted —
yet the walk leaves the entry untouched, because the source compares the
decoded byte count (16) against the base64 character count (24). -/
theorem C2_encode_conversion_never_fires :
    base64DecodeString "W47/95gDgQPSabYzgT/GDA==" = some fixtureTraceId ∧
    fixtureTraceId.length = 16 ∧
    stringToUpper (hexEncodeToString fixtureTraceId) =
      "5B8EFFF798038103D269B633813FC60C" ∧
    convertTraceIDAndSpanIDBase64ToHexForMap
        [("traceId", Json.str "W47/95gDgQPSabYzgT/GDA==")] =
      [("traceId", Json.str "W47/95gDgQPSabYzgT/GDA==")] :=
  ⟨by decide, by decide, by decide, rfl⟩
